import Mathlib

/-!
A shallow embedding of `timer.h`.

The header `timer.h` is a call-site profiler: named `Timer` objects accumulate wall-clock
time and operation counts over `start()`/`stop()` pairs, every `Timer` registers a pointer
to its `TimerInfo` in a process-wide vector, and `Timer::display` prints that vector sorted
by accumulated time.  `Timer::stop` calls `Timer::autodisplay`, which calls `display` when
enough time has passed; `display` measures itself with three function-local static timers,
so `stop`, `autodisplay` and `display` are mutually recursive.

Modelling decisions.

* `double` values are exact rationals.  A `double` that is not finite (the initial
  `dtime = 0.0 / 0.0`, or the result of a division by zero) is `none` in `Option ℚ`.
* `int` and `long long` are mathematical integers: signed overflow is undefined behaviour
  in C++, so wrapped executions are outside the defined behaviour of the program.
* The wall clock, the rank and the hardware counter are inputs of the program.  They are
  the fields of `Env`; the state counts how many clock and counter reads have happened.
* `Timer` objects live in `State.heap`, addressed by the order of construction.  The
  registry `getTimerDatabase()` is a list of addresses.  Timers are never destroyed (the
  macros of the header declare them `static`).
* A line of output is the list of the arguments of its `printf`; the formatting of numbers
  and the truncation of a line to the buffer of `DisplayInfo` are not modelled.  The name
  field of `showLast` and `showAvg` is modelled as the bytes `%30s` writes: a `String`
  stands for the `std::string` holding its UTF-8 encoding.
* `State.triggered` is a history variable, not a variable of the program: it logs the
  timestamps at which `autodisplay` triggered, and no statement reads it.
* `assert(isRunning)` is active and aborts the process: the call returns
  `Except.error (Err.assertion d)`, where `d` tells how many calls of `display` lie between
  the call and the failing `stop`.
* The recursion `stop → autodisplay → display → stop` is unbounded in the source (it is
  cut only by the clock).  `displayN n` allows `n` nested calls of `display` and returns
  `Err.fuel` when that depth is exceeded.  A `stop` whose check of `autodisplay` does not
  trigger returns at every depth, also at depth `0`.
* `std::sort` is an input as well (`Env.sort`): the standard fixes its result only up to
  the order of equivalent elements.  `StdSort` states what the standard guarantees.
* The wrappers `time_malloc` and `time_free` and the macros that redefine `malloc` and
  `free` are not modelled.
-/

namespace TimerH

/-! ## Output lines -/

/-- The arguments of one `printf` behind `DisplayInfo`, one constructor per format string. -/
inductive Body where
  /-- The format of `showLast`: name field (the bytes written for `%30s`), percentage, calls,
  last duration, Gflops of the last call, operations of the last call. -/
  | last (name : List UInt8) (pct : Option ℚ) (calls : Int) (dtime : Option ℚ)
      (gflops : Option ℚ) (dflops : Int)
  /-- The format of `showAvg`: name field (the bytes written for `%30s`), percentage, calls,
  average duration, accumulated duration, average Gflops, operations per call, accumulated
  operations. -/
  | avg (name : List UInt8) (pct : Option ℚ) (calls : Int) (avgTime : Option ℚ) (accTime : ℚ)
      (gflops : Option ℚ) (avgFlops : Option ℚ) (accFlops : Int)
  /-- The banner format of `display`: the caller's string and the total time. -/
  | banner (str : String) (total : ℚ)
  /-- A fixed text (the two messages of `initializePAPI`). -/
  | text (msg : String)
  deriving DecidableEq

/-- One line written by `DisplayInfo(cname, fname, format, ...)`. -/
structure Line where
  cname : String
  fname : String
  body : Body
  deriving DecidableEq

/-- Whether a line is a banner of `display`. -/
def Line.isBanner (l : Line) : Bool :=
  match l.body with
  | Body.banner _ _ => true
  | _ => false

/-! ## The inputs of the program and its state -/

/-- The inputs the header reads from outside. -/
structure Env where
  /-- The value of the `n`-th call of `gettimeofday`, in seconds. -/
  clock : Nat → ℚ
  /-- The value of `getRank()`: `0` without `USE_MULTI_NODE`, the MPI rank with it. -/
  rank : Int
  /-- Whether the header is compiled with `USE_PAPI`. -/
  usePAPI : Bool
  /-- The value of the `n`-th hardware counter query (with `USE_PAPI`). -/
  papi : Nat → Int
  /-- The result of `std::sort(first, last, comp)` on a vector of pointers. -/
  sort : (Nat → Nat → Bool) → List Nat → List Nat

/-- Class `TimerInfo`. -/
structure TimerInfo where
  fname : String
  dtime : Option ℚ
  accumulated_time : ℚ
  dflops : Int
  accumulated_flops : Int
  call_times : Int
  deriving DecidableEq

/-- The constructor `TimerInfo::TimerInfo()`. -/
def TimerInfo.new : TimerInfo :=
  { fname := "Unknown", dtime := none, accumulated_time := 0, dflops := 0,
    accumulated_flops := 0, call_times := 0 }

/-- Class `Timer`.  The fields `start_time`, `stop_time`, `start_flops`, `stop_flops` and
`flops` are not set by the constructors; they hold `0` here until first written. -/
structure Timer where
  cname : String
  index : Nat
  info : TimerInfo
  isUsingTotalFlops : Bool
  isRunning : Bool
  start_time : ℚ
  stop_time : ℚ
  start_flops : Int
  stop_flops : Int
  flops : Int
  deriving DecidableEq

/-- The process state: the heap of `Timer` objects and every function-local static. -/
structure State where
  /-- The `Timer` objects, by address. -/
  heap : Nat → Timer
  /-- The number of `Timer` objects constructed so far (the next free address). -/
  nTimers : Nat
  /-- The static `timerDatabase` of `getTimerDatabase()`: addresses of registered timers. -/
  timerDatabase : List Nat
  /-- The static `time` of `getStartTime()`, `none` before its initialisation. -/
  startTime : Option ℚ
  /-- The static `last_time` of `autodisplay`, `none` before its initialisation. -/
  last_time : Option ℚ
  /-- The statics `time`, `time_noflop`, `time_test` of `display`. -/
  displayTimers : Option (Nat × Nat × Nat)
  /-- The static `initialized` of `initializePAPI`. -/
  papiInitialized : Bool
  /-- The static behind `minimum_autodisplay_interval()`. -/
  minimum_autodisplay_interval : ℚ
  /-- The static behind `minimum_duration_for_show_stop_info()`. -/
  minimum_duration_for_show_stop_info : ℚ
  /-- The static behind `minimum_duration_for_show_start_info()`. -/
  minimum_duration_for_show_start_info : ℚ
  /-- The number of clock reads so far. -/
  ticks : Nat
  /-- The number of hardware counter queries so far. -/
  flopReads : Nat
  /-- The lines written to the console so far, oldest first. -/
  out : List Line
  /-- Not a variable of the program, and read by no statement of it: the arguments `time`
  of the calls of `autodisplay` that triggered a dump so far, oldest first. -/
  triggered : List ℚ

/-- The two ways a call can fail to return. -/
inductive Err where
  /-- The failure of `assert(isRunning)` in a call of `Timer::stop`; `depth` is the number
  of calls of `display` on the call stack between the call that reports the failure and
  the failing call of `stop` (`0`: the reporting call is the failing `stop` itself). -/
  | assertion (depth : Nat)
  /-- The nesting depth of `display` allowed to the model is exhausted. -/
  | fuel
  deriving DecidableEq

/-- The failure `e` of a `stop` called by `display`, as reported by that `display`. -/
def Err.nested : Err → Err
  | Err.assertion d => Err.assertion (d + 1)
  | Err.fuel => Err.fuel

/-- A timer object before its constructor body runs. -/
def Timer.raw : Timer :=
  { cname := "", index := 0, info := TimerInfo.new, isUsingTotalFlops := false,
    isRunning := false, start_time := 0, stop_time := 0, start_flops := 0, stop_flops := 0,
    flops := 0 }

/-- The state at process start: no timer, no static initialised, default thresholds. -/
def State.init : State :=
  { heap := fun _ => Timer.raw, nTimers := 0, timerDatabase := [], startTime := none,
    last_time := none, displayTimers := none, papiInitialized := false,
    minimum_autodisplay_interval := 60, minimum_duration_for_show_stop_info := 1 / 10,
    minimum_duration_for_show_start_info := 1 / 10, ticks := 0, flopReads := 0, out := [],
    triggered := [] }

/-- Assignment to the members of the timer at address `t`. -/
def State.modify (s : State) (t : Nat) (f : Timer → Timer) : State :=
  { s with heap := Function.update s.heap t (f (s.heap t)) }

/-! ## Clock, rank gate and counter -/

/-- Function `getTime`: one read of the wall clock. -/
def getTime (E : Env) (s : State) : ℚ × State :=
  (E.clock s.ticks, { s with ticks := s.ticks + 1 })

/-- Function `getStartTime`: the static is initialised by a clock read on the first call. -/
def getStartTime (E : Env) (s : State) : ℚ × State :=
  match s.startTime with
  | some t => (t, s)
  | none => ((getTime E s).1, { (getTime E s).2 with startTime := some (getTime E s).1 })

/-- Function `getTotalTime`: `getTime() - getStartTime()`, operands evaluated left to
right (the static is initialised by every `Timer` constructor, so the order matters only
before the first timer exists). -/
def getTotalTime (E : Env) (s : State) : ℚ × State :=
  ((getTime E s).1 - (getStartTime E (getTime E s).2).1, (getStartTime E (getTime E s).2).2)

/-- Function `DisplayInfo`: the line is written only on rank `0`. -/
def DisplayInfo (E : Env) (l : Line) (s : State) : State :=
  if E.rank ≠ 0 then s else { s with out := s.out ++ [l] }

/-- Function `getTotalFlops`: `0` without `USE_PAPI`, else one hardware query. -/
def getTotalFlops (E : Env) (s : State) : Int × State :=
  if E.usePAPI then (E.papi s.flopReads, { s with flopReads := s.flopReads + 1 }) else (0, s)

/-- Function `initializePAPI`: with `USE_PAPI`, the first call writes two lines. -/
def initializePAPI (E : Env) (s : State) : State :=
  if E.usePAPI then
    if s.papiInitialized then s
    else
      DisplayInfo E ⟨"PAPI", "initializePAPI", Body.text "Finish.\n"⟩
        { DisplayInfo E ⟨"PAPI", "initializePAPI", Body.text "Start.\n"⟩ s with
          papiInitialized := true }
  else s

/-! ## Formatting -/

/-- Division of two `double`s: a result that is not finite is `none`. -/
def fdiv (a b : Option ℚ) : Option ℚ :=
  match a, b with
  | some x, some y => if y = 0 then none else some (x / y)
  | _, _ => none

/-- The bytes (`char`s) of a `std::string`.  A `String` of the model stands for the
`std::string` that holds its UTF-8 encoding; a character `'\x00'` is a NUL byte. -/
def cBytes (s : String) : List UInt8 :=
  s.toUTF8.data.toList

/-- The name field, as the bytes written: `fnameCut.assign(fname, 0, 30)` keeps the first
30 bytes of the name, and `%30s` of `fnameCut.c_str()` writes them up to the first NUL
byte, after as many spaces (byte `32`) as are missing to the width of 30 bytes. -/
def nameField (fname : String) : List UInt8 :=
  List.leftpad 30 32 (((cBytes fname).take 30).takeWhile (· ≠ 0))

/-- The comparison `x >= y` of `double`s, false when `x` is NaN. -/
def geDouble (x : Option ℚ) (y : ℚ) : Bool :=
  match x with
  | some v => decide (y ≤ v)
  | none => false

/-- The second argument of `DisplayInfo` in `showLast` and `showAvg`:
`NULL == info ? "" : info`. -/
def tagOf (info : Option String) : String :=
  match info with
  | none => ""
  | some x => x

/-- Method `TimerInfo::showLast`, with the tag `tagOf info`. -/
def showLast (E : Env) (i : TimerInfo) (tag : String) (s : State) : State :=
  DisplayInfo E
    ⟨"Timer", tag,
      Body.last (nameField i.fname)
        ((fdiv (some i.accumulated_time) (some (getTotalTime E s).1)).map (· * 100))
        i.call_times i.dtime
        (fdiv (fdiv (some (i.dflops : ℚ)) i.dtime) (some 1000000000))
        i.dflops⟩
    (getTotalTime E s).2

/-- Method `TimerInfo::showAvg`, with the tag `tagOf info`. -/
def showAvg (E : Env) (i : TimerInfo) (tag : String) (s : State) : State :=
  DisplayInfo E
    ⟨"Timer", tag,
      Body.avg (nameField i.fname)
        ((fdiv (some i.accumulated_time) (some (getTotalTime E s).1)).map (· * 100))
        i.call_times
        (fdiv (some i.accumulated_time) (some (i.call_times : ℚ)))
        i.accumulated_time
        (fdiv (fdiv (some (i.accumulated_flops : ℚ)) (some i.accumulated_time))
          (some 1000000000))
        (fdiv (some (i.accumulated_flops : ℚ)) (some (i.call_times : ℚ)))
        i.accumulated_flops⟩
    (getTotalTime E s).2

/-- Function `compareTimeInfoP`, on the addresses of two registered timers. -/
def compareTimeInfoP (s : State) (p1 p2 : Nat) : Bool :=
  decide ((s.heap p1).info.accumulated_time < (s.heap p2).info.accumulated_time)

/-! ## Construction -/

/-- Method `Timer::init()`, run on a new object at the next free address; returns the
address. -/
def init (E : Env) (s : State) : Nat × State :=
  let s1 := initializePAPI E (getStartTime E s).2
  (s1.nTimers,
    { s1 with
      heap := Function.update s1.heap s1.nTimers
        { Timer.raw with
          cname := "Timer", isUsingTotalFlops := true, index := s1.timerDatabase.length,
          isRunning := false }
      nTimers := s1.nTimers + 1
      timerDatabase := s1.timerDatabase ++ [s1.nTimers] })

/-- Constructor `Timer()`. -/
def construct (E : Env) (s : State) : Nat × State :=
  init E s

/-- Constructor `Timer(fname_str)`. -/
def constructNamed (E : Env) (fname : String) (s : State) : Nat × State :=
  ((init E s).1,
    (init E s).2.modify (init E s).1 fun x => { x with info := { x.info with fname := fname } })

/-- Constructor `Timer(cname_str, fname_str)`. -/
def constructQualified (E : Env) (cname fname : String) (s : State) : Nat × State :=
  ((init E s).1,
    (init E s).2.modify (init E s).1 fun x =>
      { x with info := { x.info with fname := cname ++ "::" ++ fname } })

/-- Constructor `Timer(fname_str, isUsingTotalFlops_)`. -/
def constructFlops (E : Env) (fname : String) (flag : Bool) (s : State) : Nat × State :=
  ((init E s).1,
    (init E s).2.modify (init E s).1 fun x =>
      { x with info := { x.info with fname := fname }, isUsingTotalFlops := flag })

/-! ## Start and stop -/

/-- The statements `isRunning = true; info.call_times++;` of `Timer::start`. -/
def startMark (t : Nat) (s : State) : State :=
  s.modify t fun x =>
    { x with isRunning := true, info := { x.info with call_times := x.info.call_times + 1 } }

/-- The conditional `info.showLast("start")` of `Timer::start`. -/
def startShow (E : Env) (t : Nat) (verbose : Bool) (s : State) : State :=
  if verbose || decide ((s.heap t).info.call_times = 1) ||
      geDouble (s.heap t).info.dtime s.minimum_duration_for_show_start_info then
    showLast E (s.heap t).info "start" s
  else s

/-- The statements `start_flops = isUsingTotalFlops ? getTotalFlops() : 0; flops = 0;` of
`Timer::start`. -/
def startFlops (E : Env) (t : Nat) (s : State) : State :=
  (if (s.heap t).isUsingTotalFlops then getTotalFlops E s else (0, s)).2.modify t fun x =>
    { x with
      start_flops := (if (s.heap t).isUsingTotalFlops then getTotalFlops E s else (0, s)).1
      flops := 0 }

/-- The statement `start_time = getTime();` of `Timer::start`. -/
def startClock (E : Env) (t : Nat) (s : State) : State :=
  (getTime E s).2.modify t fun x => { x with start_time := (getTime E s).1 }

/-- Method `Timer::start`. -/
def start (E : Env) (t : Nat) (verbose : Bool) (s : State) : State :=
  if (s.heap t).isRunning then s
  else startClock E t (startFlops E t (startShow E t verbose (startMark t s)))

/-- The statement `timer.flops += FLOPS` of `TIMER_FLOPS`. -/
def addFlops (t : Nat) (n : Int) (s : State) : State :=
  s.modify t fun x => { x with flops := x.flops + n }

/-- Method `Timer::autodisplay(const double time)`, with the `display` it may call. -/
def autodisplayWith (disp : String → State → Except Err State) (E : Env) (time : ℚ)
    (s : State) : Except Err State :=
  let r := match s.last_time with
    | some l => (l, s)
    | none => ((getTime E s).1, { (getTime E s).2 with last_time := some (getTime E s).1 })
  if time - r.1 > r.2.minimum_autodisplay_interval then
    disp "autodisplay" { r.2 with last_time := some time, triggered := r.2.triggered ++ [time] }
  else Except.ok r.2

/-- The statement of `Timer::stop` that sets `stop_flops`. -/
def stopFlops (E : Env) (t : Nat) (s : State) : State :=
  (if decide ((s.heap t).flops = 0) && (s.heap t).isUsingTotalFlops then getTotalFlops E s
    else ((s.heap t).start_flops + (s.heap t).flops, s)).2.modify t fun x =>
    { x with
      stop_flops :=
        (if decide ((s.heap t).flops = 0) && (s.heap t).isUsingTotalFlops then
          getTotalFlops E s
        else ((s.heap t).start_flops + (s.heap t).flops, s)).1 }

/-- The four assignments to `info` in `Timer::stop`.  The lines
`info.accumulated_time += info.dtime` and `info.accumulated_flops += info.dflops` add the
values assigned to `info.dtime` and `info.dflops` on the two lines before them. -/
def stopInfo (t : Nat) (s : State) : State :=
  s.modify t fun x =>
    { x with info := { x.info with
        dtime := some (x.stop_time - x.start_time)
        dflops := x.stop_flops - x.start_flops
        accumulated_time := x.info.accumulated_time + (x.stop_time - x.start_time)
        accumulated_flops := x.info.accumulated_flops + (x.stop_flops - x.start_flops) } }

/-- The conditional `info.showLast("stop ")` of `Timer::stop`. -/
def stopShow (E : Env) (t : Nat) (verbose : Bool) (s : State) : State :=
  if verbose || decide ((s.heap t).info.call_times = 1) ||
      geDouble (s.heap t).info.dtime s.minimum_duration_for_show_stop_info then
    showLast E (s.heap t).info "stop " s
  else s

/-- The statements of `Timer::stop` between `assert(isRunning)` and
`autodisplay(stop_time)`. -/
def stopRecord (E : Env) (t : Nat) (verbose : Bool) (s : State) : State :=
  stopShow E t verbose (stopInfo t (stopFlops E t s))

/-- The first statement of `Timer::stop`: `stop_time = getTime()`. -/
def stopClock (E : Env) (t : Nat) (s : State) : State :=
  (getTime E s).2.modify t fun x => { x with stop_time := (getTime E s).1 }

/-- Method `Timer::stop`, with the `display` its `autodisplay` may call. -/
def stopWith (disp : String → State → Except Err State) (E : Env) (t : Nat) (verbose : Bool)
    (s : State) : Except Err State :=
  if ((stopClock E t s).heap t).isRunning then
    match autodisplayWith disp E ((stopRecord E t verbose (stopClock E t s)).heap t).stop_time
        (stopRecord E t verbose (stopClock E t s)) with
    | Except.error e => Except.error e
    | Except.ok s8 => Except.ok (s8.modify t fun x => { x with isRunning := false })
  else Except.error (Err.assertion 0)

/-! ## The dump -/

/-- The three function-local statics of `display`, constructed on the first call. -/
def displayStatics (E : Env) (s : State) : (Nat × Nat × Nat) × State :=
  match s.displayTimers with
  | some p => (p, s)
  | none =>
    let a := constructNamed E "Timer" s
    let b := constructNamed E "Timer-noflop" a.2
    let c := constructNamed E "Timer-test" b.2
    ((a.1, b.1, c.1), { c.2 with displayTimers := some (a.1, b.1, c.1) })

/-- Assignment to the member `isUsingTotalFlops` of the timer at address `t`. -/
def setFlag (t : Nat) (flag : Bool) (s : State) : State :=
  s.modify t fun x => { x with isUsingTotalFlops := flag }

/-- The self-measurement of `display` (the statements between the statics and
`getTotalTime()`), on the statics `time = p.1`, `time_noflop = p.2.1`, `time_test = p.2.2`,
with the `stop` it calls. -/
def displayProbes (stopF : Nat → Bool → State → Except Err State) (E : Env)
    (p : Nat × Nat × Nat) (s : State) : Except Err State :=
  let s0 := setFlag p.2.2 false (setFlag p.2.1 false (setFlag p.1 false s))
  match stopF p.2.2 false (start E p.2.2 false s0) with
  | Except.error e => Except.error e
  | Except.ok s1 =>
    match stopF p.2.2 false
        (start E p.2.2 false (setFlag p.2.2 true (start E p.1 false s1))) with
    | Except.error e => Except.error e
    | Except.ok s2 =>
      match stopF p.1 false s2 with
      | Except.error e => Except.error e
      | Except.ok s3 =>
        match stopF p.2.2 false
            (start E p.2.2 false (setFlag p.2.2 false (start E p.2.1 false s3))) with
        | Except.error e => Except.error e
        | Except.ok s4 => stopF p.2.1 false s4

/-- The printing part of `display`: total time, sorted copy of the registry, banner, one
`showAvg` line per entry of the sorted copy, banner. -/
def displayReport (E : Env) (str : String) (s : State) : State :=
  let total := getTotalTime E s
  let db := E.sort (compareTimeInfoP total.2) total.2.timerDatabase
  let s1 := DisplayInfo E ⟨"Timer", "display-start", Body.banner str total.1⟩ total.2
  let s2 := db.foldl (fun acc p => showAvg E (acc.heap p).info "display" acc) s1
  DisplayInfo E ⟨"Timer", "display-end  ", Body.banner str total.1⟩ s2

/-- Method `Timer::display`, with the `stop` it calls. -/
def displayWith (stopF : Nat → Bool → State → Except Err State) (E : Env) (str : String)
    (s : State) : Except Err State :=
  match displayProbes stopF E (displayStatics E s).1 (displayStatics E s).2 with
  | Except.error e => Except.error e.nested
  | Except.ok s1 => Except.ok (displayReport E str s1)

/-- Method `Timer::display` with at most `n` calls of `display` nested in each other. -/
def displayN : Nat → Env → String → State → Except Err State
  | 0, _, _, _ => Except.error Err.fuel
  | n + 1, E, str, s => displayWith (stopWith (displayN n E) E) E str s

/-- Method `Timer::display`. -/
def display (n : Nat) (E : Env) (str : String) (s : State) : Except Err State :=
  displayN n E str s

/-- Method `Timer::stop`. -/
def stop (n : Nat) (E : Env) (t : Nat) (verbose : Bool) (s : State) : Except Err State :=
  stopWith (displayN n E) E t verbose s

/-- Method `Timer::autodisplay(const double time)`. -/
def autodisplay (n : Nat) (E : Env) (time : ℚ) (s : State) : Except Err State :=
  autodisplayWith (displayN n E) E time s

/-- Method `Timer::autodisplay()`. -/
def autodisplayNow (n : Nat) (E : Env) (s : State) : Except Err State :=
  autodisplay n E (getTime E s).1 (getTime E s).2

/-! ## Scoped measurement -/

/-- Class `TimerCtrl`. -/
structure TimerCtrl where
  ptimer : Nat
  verbose : Bool
  deriving DecidableEq

/-- Method `TimerCtrl::init` (and the constructor `TimerCtrl(timer, verbose_)`). -/
def TimerCtrl.init (E : Env) (t : Nat) (verbose : Bool) (s : State) : TimerCtrl × State :=
  (⟨t, verbose⟩, start E t verbose s)

/-- The destructor of `TimerCtrl`. -/
def TimerCtrl.destroy (n : Nat) (E : Env) (c : TimerCtrl) (s : State) : Except Err State :=
  stop n E c.ptimer c.verbose s

/-! ## Programs -/

/-- The calls a program can make on the header's interface.  A timer is named by its
address; `info` arguments are the optional tag of `showLast` and `showAvg`. -/
inductive Op where
  | construct
  | constructNamed (fname : String)
  | constructQualified (cname fname : String)
  | constructFlops (fname : String) (flag : Bool)
  | start (t : Nat) (verbose : Bool)
  | stop (t : Nat) (verbose : Bool)
  | addFlops (t : Nat) (n : Int)
  | showLast (t : Nat) (info : Option String)
  | showAvg (t : Nat) (info : Option String)
  | display (str : String)
  | autodisplay (time : ℚ)
  | autodisplayNow
  | setAutodisplayInterval (x : ℚ)
  | setStopThreshold (x : ℚ)
  | setStartThreshold (x : ℚ)

/-- One call, with at most `n` nested calls of `display`. -/
def step (n : Nat) (E : Env) (o : Op) (s : State) : Except Err State :=
  match o with
  | Op.construct => Except.ok (construct E s).2
  | Op.constructNamed f => Except.ok (constructNamed E f s).2
  | Op.constructQualified c f => Except.ok (constructQualified E c f s).2
  | Op.constructFlops f b => Except.ok (constructFlops E f b s).2
  | Op.start t v => Except.ok (start E t v s)
  | Op.stop t v => stop n E t v s
  | Op.addFlops t k => Except.ok (addFlops t k s)
  | Op.showLast t i => Except.ok (showLast E (s.heap t).info (tagOf i) s)
  | Op.showAvg t i => Except.ok (showAvg E (s.heap t).info (tagOf i) s)
  | Op.display str => display n E str s
  | Op.autodisplay time => autodisplay n E time s
  | Op.autodisplayNow => autodisplayNow n E s
  | Op.setAutodisplayInterval x => Except.ok { s with minimum_autodisplay_interval := x }
  | Op.setStopThreshold x => Except.ok { s with minimum_duration_for_show_stop_info := x }
  | Op.setStartThreshold x => Except.ok { s with minimum_duration_for_show_start_info := x }

/-- A sequence of calls, stopped by the first failure. -/
def run (n : Nat) (E : Env) : List Op → State → Except Err State
  | [], s => Except.ok s
  | o :: os, s =>
    match step n E o s with
    | Except.error e => Except.error e
    | Except.ok s1 => run n E os s1

/-! ## Relations kept by every call -/

/-- The assignment `f` to members of a timer leaves `index` and `cname` alone. -/
def Keeps (f : Timer → Timer) : Prop :=
  ∀ x, (f x).index = x.index ∧ (f x).cname = x.cname

/-- A relation between the state before and after a call that holds across the effects of
the calls that neither construct a timer nor touch a static of `autodisplay` or `display`:
clock and counter reads, output lines other than the banners of `display`, and assignments
to members of timers at addresses satisfying `A`.  Such a relation holds across `start`
and across the statements of `stop` before its call of `autodisplay`. -/
structure Core (E : Env) (A : Nat → Prop) (R : State → State → Prop) : Prop where
  refl : ∀ s, R s s
  trans : ∀ a b c, R a b → R b c → R a c
  ticks : ∀ s, R s { s with ticks := s.ticks + 1 }
  startTime : ∀ s x, R s { s with startTime := x }
  flopReads : ∀ s, R s { s with flopReads := s.flopReads + 1 }
  out : ∀ s l, l.isBanner = false → R s (DisplayInfo E l s)
  modify : ∀ s t f, A t → Keeps f → R s (s.modify t f)

/-- A relation that moreover holds across the construction of a timer at an address
satisfying `A`. -/
structure Alloc (E : Env) (A : Nat → Prop) (R : State → State → Prop) extends Core E A R :
    Prop where
  papiInitialized : ∀ s b, R s { s with papiInitialized := b }
  alloc : ∀ s tm, A s.nTimers → tm.index = s.timerDatabase.length →
    R s { s with
      heap := Function.update s.heap s.nTimers tm
      nTimers := s.nTimers + 1
      timerDatabase := s.timerDatabase ++ [s.nTimers] }

/-- A relation that moreover holds across the two assignments to the static of
`autodisplay` (its initialisation from a clock read, and the assignment of a timestamp
that exceeds it by more than the interval), across the construction of the three statics of
`display` at addresses satisfying `A`, and across the banners of `display`.
Such a relation holds across `stop`, `display` and `autodisplay`. -/
structure Prim (E : Env) (A : Nat → Prop) (R : State → State → Prop) extends Alloc E A R :
    Prop where
  lastInit : ∀ s, s.last_time = none →
    R s { (getTime E s).2 with last_time := some (getTime E s).1 }
  trigger : ∀ s L time, s.last_time = some L → time - L > s.minimum_autodisplay_interval →
    R s { s with last_time := some time, triggered := s.triggered ++ [time] }
  statics : ∀ s, s.displayTimers = none → A s.nTimers → A (s.nTimers + 1) →
    A (s.nTimers + 2) → R s (displayStatics E s).2
  banner : ∀ s c f str total, R s (DisplayInfo E ⟨c, f, Body.banner str total⟩ s)

/-- A relation of `Prim` across which the statics of `display`, once constructed, stay the
same. -/
structure PrimS (E : Env) (A : Nat → Prop) (R : State → State → Prop) extends Prim E A R :
    Prop where
  stable : ∀ s s1 p, R s s1 → s.displayTimers = some p → s1.displayTimers = some p

/-- The statics of `display` that exist in `s` are those of `s1`. -/
def Stable (s s1 : State) : Prop :=
  ∀ p, s.displayTimers = some p → s1.displayTimers = some p

/-- The state components that `start`, `showLast`, `showAvg` and the statements of `stop`
before `autodisplay` leave alone. -/
def Light (s s1 : State) : Prop :=
  s1.nTimers = s.nTimers ∧ s1.timerDatabase = s.timerDatabase ∧ s1.last_time = s.last_time ∧
  s1.displayTimers = s.displayTimers ∧ s1.papiInitialized = s.papiInitialized ∧
  s1.minimum_autodisplay_interval = s.minimum_autodisplay_interval ∧
  s1.minimum_duration_for_show_stop_info = s.minimum_duration_for_show_stop_info ∧
  s1.minimum_duration_for_show_start_info = s.minimum_duration_for_show_start_info

/-- The timers `display` assigns to in state `s` are at addresses satisfying `A`: its
three statics if they exist, else the next three free addresses. -/
def Ready (A : Nat → Prop) (s : State) : Prop :=
  (∀ p, s.displayTimers = some p → A p.1 ∧ A p.2.1 ∧ A p.2.2) ∧
  (s.displayTimers = none → ∀ a, s.nTimers ≤ a → A a)

/-! ## Timers of the program -/

/-- The timer at address `t` is a timer of the program: it has been constructed and it is
not one of the three statics of `display` (which no code outside `display` can name). -/
def User (s : State) (t : Nat) : Prop :=
  t < s.nTimers ∧ ∀ p, s.displayTimers = some p → t ≠ p.1 ∧ t ≠ p.2.1 ∧ t ≠ p.2.2

/-! ## Measurements -/

/-- The parameters of one measurement: the `verbose` argument of `start`, the operations
added to `flops` while the timer runs, the `verbose` argument of `stop`. -/
structure Pair where
  vstart : Bool
  ops : Int
  vstop : Bool

/-- One measurement on the timer `t`: `start`, `flops += ops`, `stop`. -/
def measure (n : Nat) (E : Env) (t : Nat) (p : Pair) (s : State) : Except Err State :=
  stop n E t p.vstop (addFlops t p.ops (start E t p.vstart s))

/-- Consecutive measurements on the timer `t`, stopped by the first failure. -/
def measures (n : Nat) (E : Env) (t : Nat) : List Pair → State → Except Err State
  | [], s => Except.ok s
  | p :: ps, s =>
    match measure n E t p s with
    | Except.error e => Except.error e
    | Except.ok s1 => measures n E t ps s1

/-- The duration `e - b` of a measurement begun in state `s`: `b` is the clock value read
by `start` for `start_time` (its last clock read) and `e` the clock value read by `stop`
for `stop_time` (the next clock read). -/
def duration (E : Env) (t : Nat) (p : Pair) (s : State) : ℚ :=
  E.clock (start E t p.vstart s).ticks - E.clock ((start E t p.vstart s).ticks - 1)

/-- The durations of the measurements of `measures`, in order. -/
def durations (n : Nat) (E : Env) (t : Nat) : List Pair → State → List ℚ
  | [], _ => []
  | p :: ps, s =>
    match measure n E t p s with
    | Except.error _ => []
    | Except.ok s1 => duration E t p s :: durations n E t ps s1

/-- The state a call returns, the initial state if the call fails. -/
def theState (r : Except Err State) : State :=
  match r with
  | Except.ok s => s
  | Except.error _ => State.init

/-- Whether a call returns. -/
def succeeds (r : Except Err State) : Bool :=
  match r with
  | Except.ok _ => true
  | Except.error _ => false

/-! ## Concrete inputs -/

/-- One `std::sort`: insertion sort. -/
def insertionSortBy (lt : Nat → Nat → Bool) (l : List Nat) : List Nat :=
  l.insertionSort fun a b => lt b a = false

/-- A single process without hardware counters whose clock advances by one second at every
read. -/
def envTick : Env :=
  { clock := fun n => n, rank := 0, usePAPI := false, papi := fun _ => 0,
    sort := insertionSortBy }

/-- The state after `Timer work("work")` at process start. -/
def stateWork : State :=
  (constructNamed envTick "work" State.init).2

/-! ## The registry -/

/-- The entry of the registry at position `(heap t).index` is the address `t`. -/
def Registered (s : State) (t : Nat) : Prop :=
  s.timerDatabase[(s.heap t).index]? = some t

/-- The names of the records of the registry, in registration order. -/
def registryNames (s : State) : List String :=
  s.timerDatabase.map fun a => (s.heap a).info.fname

/-- The declarations `Timer x(f)` for the names `f` of a list, in order. -/
def constructAll (E : Env) : List String → State → State
  | [], s => s
  | f :: fs, s => constructAll E fs (constructNamed E f s).2

/-- Every entry of the registry is the address of a constructed timer. -/
def RegistryValid (s : State) : Prop :=
  ∀ a ∈ s.timerDatabase, a < s.nTimers

/-- A process on rank `3` of a multi-node run, otherwise as `envTick`. -/
def envRank3 : Env :=
  { envTick with rank := 3 }

/-- The four constructors of `Timer` among the calls. -/
def Op.isConstructor : Op → Bool
  | Op.construct => true
  | Op.constructNamed _ => true
  | Op.constructQualified _ _ => true
  | Op.constructFlops _ _ => true
  | _ => false

/-- The relation between a state and a later one that says the registry is append-only:
the earlier registry is a prefix of the later one, no timer is destroyed, and the `index`
of an existing timer is unchanged. -/
def AppendOnly (s s1 : State) : Prop :=
  s.timerDatabase <+: s1.timerDatabase ∧ s.nTimers ≤ s1.nTimers ∧
    ∀ t, t < s.nTimers → (s1.heap t).index = (s.heap t).index

/-! ## The order of the dump -/

/-- What the C++ standard guarantees of `std::sort` with the comparator of `display` (a
comparison of rational keys): the result is a permutation of the input in which no element
compares less than an earlier one.  The order of elements with equal keys is not fixed. -/
def StdSort (E : Env) : Prop :=
  ∀ (key : Nat → ℚ) (l : List Nat),
    (E.sort (fun a b => decide (key a < key b)) l).Perm l ∧
      (E.sort (fun a b => decide (key a < key b)) l).Pairwise fun a b => key a ≤ key b

/-- The sorted copy `db` of the registry that `display` prints, in state `s`. -/
def dumpOrder (E : Env) (s : State) : List Nat :=
  E.sort (compareTimeInfoP s) s.timerDatabase

/-- The order of the dump in the words of the specification: the registry snapshot sorted
stably in descending order of `accumulated_time`. -/
def specDumpOrder (s : State) : List Nat :=
  s.timerDatabase.insertionSort fun a b =>
    (s.heap b).info.accumulated_time ≤ (s.heap a).info.accumulated_time

/-- The line `l` is the line `showAvg("display")` writes for the record `i`, at some
total time. -/
def Line.showsAvg (l : Line) (i : TimerInfo) : Prop :=
  ∃ total : ℚ, l =
    ⟨"Timer", "display",
      Body.avg (nameField i.fname)
        ((fdiv (some i.accumulated_time) (some total)).map (· * 100))
        i.call_times
        (fdiv (some i.accumulated_time) (some (i.call_times : ℚ)))
        i.accumulated_time
        (fdiv (fdiv (some (i.accumulated_flops : ℚ)) (some i.accumulated_time))
          (some 1000000000))
        (fdiv (some (i.accumulated_flops : ℚ)) (some (i.call_times : ℚ)))
        i.accumulated_flops⟩

/-- The name fields of the `showAvg("display")` lines of an output, in order. -/
def avgNames : List Line → List (List UInt8)
  | [] => []
  | ⟨_, "display", Body.avg name _ _ _ _ _ _ _⟩ :: ls => name :: avgNames ls
  | _ :: ls => avgNames ls

/-- A clock for three measurements of `5`, `5` and `3` seconds at process start: the value
of the `n`-th read, `13` from the thirteenth read on. -/
def envABC : Env :=
  { envTick with clock := fun n => [0, 0, 0, 5, 5, 5, 5, 5, 10, 10, 10, 10].getD n 13 }

/-- The state after `Timer a("A"), b("B"), c("C")` and one measurement on each, of `5`,
`5` and `3` seconds. -/
def stateABC : State :=
  theState (run 0 envABC
    [Op.constructNamed "A", Op.constructNamed "B", Op.constructNamed "C",
      Op.start 0 false, Op.stop 0 false, Op.start 1 false, Op.stop 1 false,
      Op.start 2 false, Op.stop 2 false] State.init)

/-- A clock for three measurements of `1/10`, `2/10` and `3/10` seconds on one timer
constructed at process start.  The reads number `2`, `7`, `11` are those of `start`
(`1`, `2`, `3`), the reads number `3`, `8`, `12` those of `stop` (`11/10`, `22/10`,
`33/10`); the clock reads `4` from the read number `13` on. -/
def envWork : Env :=
  { envTick with
    clock := fun n =>
      if n < 1 then 0 else if n < 2 then 1 / 2 else if n < 3 then 1
      else if n < 6 then 11 / 10 else if n < 7 then 3 / 2 else if n < 8 then 2
      else if n < 10 then 22 / 10 else if n < 11 then 5 / 2 else if n < 12 then 3
      else if n < 13 then 33 / 10 else 4 }

/-- Three measurements without operations added. -/
def threePairs : List Pair :=
  [⟨false, 0, false⟩, ⟨false, 0, false⟩, ⟨false, 0, false⟩]

/-- The state after `Timer work("work", false)` at process start (no operation counting). -/
def stateWorkNoFlops : State :=
  (constructFlops envWork "work" false State.init).2

/-! ## Automatic dumps -/

/-- Whether a line is the start banner of a dump made by `autodisplay`. -/
def Line.isAutoDump (l : Line) : Bool :=
  decide (l.fname = "display-start") &&
    match l.body with
    | Body.banner str _ => decide (str = "autodisplay")
    | _ => false

/-- The number of dumps made by `autodisplay` that an output shows. -/
def countDumps (out : List Line) : Nat :=
  out.countP Line.isAutoDump

/-- No check of `autodisplay` can trigger from state `s` on: its static is initialised and
no later clock value exceeds it by more than the interval. -/
def Quiet (E : Env) (s : State) : Prop :=
  ∃ L, s.last_time = some L ∧
    ∀ k, s.ticks ≤ k → E.clock k - L ≤ s.minimum_autodisplay_interval

/-- From `s` to `s1` the static of `autodisplay` and the interval are unchanged and the
clock has not gone back. -/
def Steady (s s1 : State) : Prop :=
  s1.last_time = s.last_time ∧
    s1.minimum_autodisplay_interval = s.minimum_autodisplay_interval ∧ s.ticks ≤ s1.ticks

/-- From `s` to `s1` nothing of `autodisplay` has changed and no automatic dump was
written. -/
def Calm (s s1 : State) : Prop :=
  Steady s s1 ∧ countDumps s1.out = countDumps s.out

/-- A clock that reads `0` up to the seventh read, then `100`, from read `32` on `103` and
from read `36` on `108`. -/
def envThrottle : Env :=
  { envTick with
    clock := fun n => if n < 7 then 0 else if n < 32 then 100 else if n < 36 then 103 else 108 }

/-- The state of a process that constructed `"work"`, set the interval of `autodisplay` to
`10`, measured `"work"` once at time `0` (which initialises `last_time` to `0`) and
started it again: the next clock read is the stop timestamp `100`. -/
def throttle0 : State :=
  theState (run 1 envThrottle
    [Op.constructNamed "work", Op.setAutodisplayInterval 10, Op.start 0 false,
      Op.stop 0 false, Op.start 0 false] State.init)

/-- The state after the `stop` with timestamp `100`. -/
def throttle1 : State :=
  theState (stop 1 envThrottle 0 false throttle0)

/-- The state after the `stop` with timestamp `103`. -/
def throttle2 : State :=
  theState (stop 1 envThrottle 0 false (start envThrottle 0 false throttle1))

/-- The state after the `stop` with timestamp `108`. -/
def throttle3 : State :=
  theState (stop 1 envThrottle 0 false (start envThrottle 0 false throttle2))

/-- A clock that reads `0` up to the seventh read, `100` up to the fourteenth and `200`
from then on: one jump of the wall clock of `100` seconds. -/
def envJump : Env :=
  { envTick with clock := fun n => if n < 7 then 0 else if n < 14 then 100 else 200 }

/-- The state of a process that constructed `"work"`, set the interval of `autodisplay` to
`10`, measured `"work"` once at time `0` and started it again. -/
def jump0 : State :=
  theState (run 1 envJump
    [Op.constructNamed "work", Op.setAutodisplayInterval 10, Op.start 0 false,
      Op.stop 0 false, Op.start 0 false] State.init)

/-- The failure of a call, `none` if it returns. -/
def failure (r : Except Err State) : Option Err :=
  match r with
  | Except.ok _ => none
  | Except.error e => some e

/-! ## States in which `autodisplay` cannot trigger -/

/-- No check of `autodisplay` can trigger from state `s` on, whether or not its static is
initialised: every later clock value exceeds `last_time` (or, before its initialisation,
every other later clock value) by at most the interval. -/
def Settled (E : Env) (s : State) : Prop :=
  ∀ j k, s.ticks ≤ j → s.ticks ≤ k →
    E.clock k - s.last_time.getD (E.clock j) ≤ s.minimum_autodisplay_interval

/-- From `s` to `s1` the interval is unchanged, the clock has not gone back, and the static
of `autodisplay` is unchanged or was initialised from the clock. -/
def Mild (E : Env) (s s1 : State) : Prop :=
  s1.minimum_autodisplay_interval = s.minimum_autodisplay_interval ∧ s.ticks ≤ s1.ticks ∧
    (s1.last_time = s.last_time ∨
      (s.last_time = none ∧ ∃ j, s.ticks ≤ j ∧ s1.last_time = some (E.clock j)))

/-! ## The name field of a line -/

/-- The name field of a line of `showLast` or `showAvg`; other lines have none. -/
def Line.nameOf (l : Line) : Option (List UInt8) :=
  match l.body with
  | Body.last name _ _ _ _ _ => some name
  | Body.avg name _ _ _ _ _ _ _ => some name
  | _ => none

/-- A record named `fname`, otherwise as `TimerInfo()` leaves it. -/
def infoNamed (fname : String) : TimerInfo := { TimerInfo.new with fname := fname }

/-- The name field in the words of the specification: the first 30 characters of the name
when it has 30 or more characters, and otherwise the whole name after spaces up to the
width of 30 characters. -/
def specNameField (fname : String) : String :=
  String.mk (List.leftpad 30 ' ' (fname.data.take 30))

/-- Every character of the name is an ASCII character (one byte in the `std::string`). -/
def Ascii (fname : String) : Prop :=
  ∀ c ∈ fname.data, c.val ≤ 0x7f

/-! ## Calls on one timer -/

/-- The call is a `start` or a `stop` on the timer `t`. -/
def Op.isOn (t : Nat) : Op → Bool
  | Op.start u _ => decide (u = t)
  | Op.stop u _ => decide (u = t)
  | _ => false

/-- The number of calls of `stop` in a sequence of calls. -/
def countStops : List Op → Nat
  | [] => 0
  | Op.stop _ _ :: os => countStops os + 1
  | _ :: os => countStops os

/-- The number of measurements the timer `t` is in the middle of: `1` if it is running. -/
def pending (s : State) (t : Nat) : Int :=
  if (s.heap t).isRunning then 1 else 0

/-! ## The lines of one `stop` -/

/-- The line `showLast(tag)` writes for the record `i` when the total time is `total`. -/
def lastLine (i : TimerInfo) (tag : String) (total : ℚ) : Line :=
  ⟨"Timer", tag,
    Body.last (nameField i.fname)
      ((fdiv (some i.accumulated_time) (some total)).map (· * 100))
      i.call_times i.dtime
      (fdiv (fdiv (some (i.dflops : ℚ)) i.dtime) (some 1000000000))
      i.dflops⟩

/-- From `s` to `s1` lines were only added to the output, timestamps only added to the log
of triggers, and the clock has not gone back. -/
def Grows (s s1 : State) : Prop :=
  s.out <+: s1.out ∧ s.triggered <+: s1.triggered ∧ s.ticks ≤ s1.ticks

/-- The new timer `"work"` after `start()`, on the clock of `envTick`. -/
def stateWorkRunning : State := start envTick 0 false stateWork

/-! ## The spacing of automatic dumps -/

/-- Any two consecutive timestamps of `ts` differ by more than `I`. -/
def Spaced (I : ℚ) (ts : List ℚ) : Prop :=
  List.Chain' (fun a b => b - a > I) ts

/-- The interval of `autodisplay` is `I`, the timestamps of the triggers so far are spaced
by more than `I`, and the static `last_time` holds the last of them, if there is one. -/
def SpacedLog (I : ℚ) (s : State) : Prop :=
  s.minimum_autodisplay_interval = I ∧ Spaced I s.triggered ∧
    ∀ d, s.triggered.getLast? = some d → s.last_time = some d

/-- The call is not an assignment to `minimum_autodisplay_interval()`. -/
def Op.keepsInterval : Op → Bool
  | Op.setAutodisplayInterval _ => false
  | _ => true

/-- A clock that reads `0` up to the seventh read, `100` up to the eleventh and `120` from
then on. -/
def envNested : Env :=
  { envTick with clock := fun n => if n < 7 then 0 else if n < 11 then 100 else 120 }

/-- The state of a process that constructed `"work"`, set the interval of `autodisplay` to
`10`, measured `"work"` once at time `0` and started it again, on the clock of
`envNested`: the next clock read is the stop timestamp `100`, and the clock jumps to `120`
during the dump that this stop triggers. -/
def nested0 : State :=
  theState (run 1 envNested
    [Op.constructNamed "work", Op.setAutodisplayInterval 10, Op.start 0 false,
      Op.stop 0 false, Op.start 0 false] State.init)

/-! ## Accumulators on a clock that does not go back -/

/-- The record of the timer `t` is sound for the clock: `accumulated_time` is not negative,
a recorded `dtime` is not negative, and if `t` is running its `start_time` is a value the
clock gave at an earlier read. -/
def Sane (E : Env) (s : State) (t : Nat) : Prop :=
  0 ≤ (s.heap t).info.accumulated_time ∧
    (∀ d, (s.heap t).info.dtime = some d → 0 ≤ d) ∧
    ((s.heap t).isRunning = true → ∃ j, j < s.ticks ∧ (s.heap t).start_time = E.clock j)

/-! ## The self-measurement of the dump -/

/-- The pair `call_times`, `isRunning` of the timer at address `u`. -/
def view (s : State) (u : Nat) : Int × Bool :=
  ((s.heap u).info.call_times, (s.heap u).isRunning)

/-- A `display` that returns at once.  `stopWith noDisplay` is `stop` as it runs when its
check of `autodisplay` does not trigger. -/
def noDisplay : String → State → Except Err State :=
  fun _ s => Except.ok s

/-- The three addresses are different. -/
def Distinct3 (p : Nat × Nat × Nat) : Prop :=
  p.1 ≠ p.2.1 ∧ p.1 ≠ p.2.2 ∧ p.2.1 ≠ p.2.2

/-- The statics of `display`, if constructed, are three different constructed timers. -/
def StaticsValid (s : State) : Prop :=
  ∀ p, s.displayTimers = some p →
    Distinct3 p ∧ p.1 < s.nTimers ∧ p.2.1 < s.nTimers ∧ p.2.2 < s.nTimers

/-- None of the statics of `display` is running. -/
def StaticsIdle (s : State) : Prop :=
  ∀ p, s.displayTimers = some p →
    (s.heap p.1).isRunning = false ∧ (s.heap p.2.1).isRunning = false ∧
      (s.heap p.2.2).isRunning = false

/-! ## Basic facts about the state -/

section basics

variable (E : Env) (s : State) (t u : Nat) (f : Timer → Timer)

@[simp]
theorem modify_heap_same : (s.modify t f).heap t = f (s.heap t) := by
  simp [State.modify]

@[simp]
theorem modify_heap_other (h : u ≠ t) : (s.modify t f).heap u = s.heap u := by
  simp [State.modify, Function.update_noteq h]

@[simp]
theorem modify_nTimers : (s.modify t f).nTimers = s.nTimers := rfl
@[simp]
theorem modify_timerDatabase : (s.modify t f).timerDatabase = s.timerDatabase := rfl
@[simp]
theorem modify_startTime : (s.modify t f).startTime = s.startTime := rfl
@[simp]
theorem modify_last_time : (s.modify t f).last_time = s.last_time := rfl
@[simp]
theorem modify_displayTimers : (s.modify t f).displayTimers = s.displayTimers := rfl
@[simp]
theorem modify_papiInitialized : (s.modify t f).papiInitialized = s.papiInitialized :=
  rfl
@[simp]
theorem modify_interval :
    (s.modify t f).minimum_autodisplay_interval = s.minimum_autodisplay_interval := rfl
@[simp]
theorem modify_stopThreshold :
    (s.modify t f).minimum_duration_for_show_stop_info =
      s.minimum_duration_for_show_stop_info := rfl
@[simp]
theorem modify_startThreshold :
    (s.modify t f).minimum_duration_for_show_start_info =
      s.minimum_duration_for_show_start_info := rfl
@[simp]
theorem modify_ticks : (s.modify t f).ticks = s.ticks := rfl
@[simp]
theorem modify_flopReads : (s.modify t f).flopReads = s.flopReads := rfl
@[simp]
theorem modify_out : (s.modify t f).out = s.out := rfl

end basics

/-! ## Relations kept by every call: soundness -/

section sound

variable {E : Env} {A : Nat → Prop} {R : State → State → Prop}


theorem getTime_sound (hP : Core E A R) (s : State) : R s (getTime E s).2 :=
  hP.ticks s

theorem getStartTime_sound (hP : Core E A R) (s : State) : R s (getStartTime E s).2 := by
  unfold getStartTime
  cases s.startTime with
  | some x => exact hP.refl s
  | none => exact hP.trans _ _ _ (getTime_sound hP s) (hP.startTime _ _)

theorem getTotalTime_sound (hP : Core E A R) (s : State) : R s (getTotalTime E s).2 :=
  hP.trans _ _ _ (getTime_sound hP s) (getStartTime_sound hP _)

theorem getTotalFlops_sound (hP : Core E A R) (s : State) : R s (getTotalFlops E s).2 := by
  unfold getTotalFlops
  split
  · exact hP.flopReads s
  · exact hP.refl s

theorem showLast_sound (hP : Core E A R) (i : TimerInfo) (tag : String) (s : State) :
    R s (showLast E i tag s) :=
  hP.trans _ _ _ (getTotalTime_sound hP s) (hP.out _ _ rfl)

theorem showAvg_sound (hP : Core E A R) (i : TimerInfo) (tag : String) (s : State) :
    R s (showAvg E i tag s) :=
  hP.trans _ _ _ (getTotalTime_sound hP s) (hP.out _ _ rfl)

theorem initializePAPI_sound (hP : Alloc E A R) (s : State) : R s (initializePAPI E s) := by
  unfold initializePAPI
  split
  · split
    · exact hP.refl s
    · refine hP.trans _ _ _ ?_ (hP.out _ _ rfl)
      exact hP.trans _ _ _ (hP.out s ⟨"PAPI", "initializePAPI", Body.text "Start.\n"⟩ rfl)
        (hP.papiInitialized _ true)
  · exact hP.refl s

theorem init_nTimers (E : Env) (s : State) :
    (init E s).1 = s.nTimers ∧ (init E s).2.nTimers = s.nTimers + 1 := by
  have h : (initializePAPI E (getStartTime E s).2).nTimers = s.nTimers := by
    unfold initializePAPI getStartTime DisplayInfo getTime
    cases s.startTime <;> simp <;> split_ifs <;> rfl
  simp [init, h]

theorem init_sound (hP : Alloc E A R) (s : State) (hA : A s.nTimers) : R s (init E s).2 := by
  have h : (initializePAPI E (getStartTime E s).2).nTimers = s.nTimers := (init_nTimers E s).1
  refine hP.trans _ _ _ (hP.trans _ _ _ (getStartTime_sound hP.toCore s) (initializePAPI_sound hP _)) ?_
  exact hP.alloc _ _ (by rw [h]; exact hA) rfl

theorem ite_sound (_hP : Core E A R) (c : Prop) [Decidable c] (a b1 b2 : State)
    (h1 : R a b1) (h2 : R a b2) : R a (if c then b1 else b2) := by
  split
  · exact h1
  · exact h2

theorem ite_snd_sound {α : Type} (_hP : Core E A R) (c : Prop) [Decidable c] (a : State)
    (x y : α × State) (h1 : R a x.2) (h2 : R a y.2) : R a (if c then x else y).2 := by
  split
  · exact h1
  · exact h2

theorem constructNamed_sound (hP : Alloc E A R) (fname : String) (s : State)
    (hA : A s.nTimers) : R s (constructNamed E fname s).2 := by
  unfold constructNamed
  dsimp only
  refine hP.trans _ _ _ (init_sound hP s hA) ?_
  refine hP.modify _ _ _ ?_ ?_
  · rw [(init_nTimers E s).1]; exact hA
  · exact fun x => ⟨rfl, rfl⟩

theorem constructQualified_sound (hP : Alloc E A R) (cname fname : String) (s : State)
    (hA : A s.nTimers) : R s (constructQualified E cname fname s).2 := by
  unfold constructQualified
  dsimp only
  refine hP.trans _ _ _ (init_sound hP s hA) ?_
  refine hP.modify _ _ _ ?_ ?_
  · rw [(init_nTimers E s).1]; exact hA
  · exact fun x => ⟨rfl, rfl⟩

theorem constructFlops_sound (hP : Alloc E A R) (fname : String) (flag : Bool) (s : State)
    (hA : A s.nTimers) : R s (constructFlops E fname flag s).2 := by
  unfold constructFlops
  dsimp only
  refine hP.trans _ _ _ (init_sound hP s hA) ?_
  refine hP.modify _ _ _ ?_ ?_
  · rw [(init_nTimers E s).1]; exact hA
  · exact fun x => ⟨rfl, rfl⟩

theorem start_sound (hP : Core E A R) (t : Nat) (v : Bool) (s : State) (hA : A t) :
    R s (start E t v s) := by
  unfold start
  split
  · exact hP.refl s
  · unfold startClock startFlops startShow startMark
    refine hP.trans _ _ _ ?_ (hP.modify _ t _ hA fun x => ⟨rfl, rfl⟩)
    refine hP.trans _ _ _ ?_ (getTime_sound hP _)
    refine hP.trans _ _ _ ?_ (hP.modify _ t _ hA fun x => ⟨rfl, rfl⟩)
    refine hP.trans _ _ _ ?_
      (ite_snd_sound hP _ _ _ _ (getTotalFlops_sound hP _) (hP.refl _))
    refine hP.trans _ _ _ ?_ (ite_sound hP _ _ _ _ (showLast_sound hP _ _ _) (hP.refl _))
    exact hP.modify _ t _ hA fun x => ⟨rfl, rfl⟩

theorem setFlag_sound (hP : Core E A R) (t : Nat) (b : Bool) (s : State) (hA : A t) :
    R s (setFlag t b s) :=
  hP.modify s t _ hA fun _ => ⟨rfl, rfl⟩

theorem addFlops_sound (hP : Core E A R) (t : Nat) (k : Int) (s : State) (hA : A t) :
    R s (addFlops t k s) :=
  hP.modify s t _ hA fun _ => ⟨rfl, rfl⟩

theorem stopClock_sound (hP : Core E A R) (t : Nat) (s : State) (hA : A t) :
    R s (stopClock E t s) :=
  hP.trans _ _ _ (getTime_sound hP s) (hP.modify _ t _ hA fun _ => ⟨rfl, rfl⟩)

theorem stopRecord_sound (hP : Core E A R) (t : Nat) (v : Bool) (s : State) (hA : A t) :
    R s (stopRecord E t v s) := by
  unfold stopRecord stopShow stopInfo stopFlops
  refine hP.trans _ _ _ ?_ (ite_sound hP _ _ _ _ (showLast_sound hP _ _ _) (hP.refl _))
  refine hP.trans _ _ _ ?_ (hP.modify _ t _ hA fun x => ⟨rfl, rfl⟩)
  refine hP.trans _ _ _ ?_ (hP.modify _ t _ hA fun x => ⟨rfl, rfl⟩)
  exact ite_snd_sound hP _ _ _ _ (getTotalFlops_sound hP _) (hP.refl _)

theorem light_core (E : Env) : Core E (fun _ => True) Light where
  refl := fun s => ⟨rfl, rfl, rfl, rfl, rfl, rfl, rfl, rfl⟩
  trans := fun a b c h1 h2 =>
    ⟨h2.1.trans h1.1, h2.2.1.trans h1.2.1, h2.2.2.1.trans h1.2.2.1,
      h2.2.2.2.1.trans h1.2.2.2.1, h2.2.2.2.2.1.trans h1.2.2.2.2.1,
      h2.2.2.2.2.2.1.trans h1.2.2.2.2.2.1, h2.2.2.2.2.2.2.1.trans h1.2.2.2.2.2.2.1,
      h2.2.2.2.2.2.2.2.trans h1.2.2.2.2.2.2.2⟩
  ticks := fun s => ⟨rfl, rfl, rfl, rfl, rfl, rfl, rfl, rfl⟩
  startTime := fun s x => ⟨rfl, rfl, rfl, rfl, rfl, rfl, rfl, rfl⟩
  flopReads := fun s => ⟨rfl, rfl, rfl, rfl, rfl, rfl, rfl, rfl⟩
  out := fun s l _ => by
    unfold DisplayInfo
    split <;> exact ⟨rfl, rfl, rfl, rfl, rfl, rfl, rfl, rfl⟩
  modify := fun s t f _ _ => ⟨rfl, rfl, rfl, rfl, rfl, rfl, rfl, rfl⟩

theorem start_light (E : Env) (t : Nat) (v : Bool) (s : State) : Light s (start E t v s) :=
  start_sound (light_core E) t v s trivial

theorem stopClock_light (E : Env) (t : Nat) (s : State) : Light s (stopClock E t s) :=
  stopClock_sound (light_core E) t s trivial

theorem stopRecord_light (E : Env) (t : Nat) (v : Bool) (s : State) :
    Light s (stopRecord E t v s) :=
  stopRecord_sound (light_core E) t v s trivial

theorem showLast_light (E : Env) (i : TimerInfo) (tag : String) (s : State) :
    Light s (showLast E i tag s) :=
  showLast_sound (light_core E) i tag s

theorem showAvg_light (E : Env) (i : TimerInfo) (tag : String) (s : State) :
    Light s (showAvg E i tag s) :=
  showAvg_sound (light_core E) i tag s

theorem ready_of_light {s s1 : State} (h : Light s s1) (hr : Ready A s) : Ready A s1 := by
  unfold Ready
  rw [h.1, h.2.2.2.1]
  exact hr

theorem ready_of_some {s : State} {p : Nat × Nat × Nat} (h : s.displayTimers = some p)
    (hA : A p.1 ∧ A p.2.1 ∧ A p.2.2) : Ready A s := by
  refine ⟨fun q hq => ?_, fun hn => ?_⟩
  · rw [h] at hq
    cases hq
    exact hA
  · rw [h] at hn
    cases hn

theorem autodisplayWith_sound (hP : Prim E A R) {disp : String → State → Except Err State}
    (hdisp : ∀ str s s1, Ready A s → disp str s = Except.ok s1 → R s s1) (time : ℚ)
    (s s1 : State) (hr : Ready A s) (h : autodisplayWith disp E time s = Except.ok s1) :
    R s s1 := by
  unfold autodisplayWith at h
  cases hl : s.last_time with
  | some l =>
    simp only [hl] at h
    split at h
    · rename_i hc
      refine hP.trans _ _ _ (hP.trigger s l time hl hc) (hdisp _ _ _ ?_ h)
      exact hr
    · cases h
      exact hP.refl s
  | none =>
    simp only [hl] at h
    split at h
    · rename_i hc
      refine hP.trans _ _ _ ?_ (hdisp _ _ _ ?_ h)
      · exact hP.trans _ _ _ (hP.lastInit s hl) (hP.trigger _ _ time rfl hc)
      · exact hr
    · cases h
      exact hP.lastInit s hl

theorem stopWith_sound (hP : Prim E A R) {disp : String → State → Except Err State}
    (hdisp : ∀ str s s1, Ready A s → disp str s = Except.ok s1 → R s s1) (t : Nat) (v : Bool)
    (s s1 : State) (hA : A t) (hr : Ready A s)
    (h : stopWith disp E t v s = Except.ok s1) : R s s1 := by
  unfold stopWith at h
  split at h
  · split at h
    · cases h
    · rename_i s8 h8
      cases h
      have hr2 : Ready A (stopRecord E t v (stopClock E t s)) :=
        ready_of_light (stopRecord_light E t v _) (ready_of_light (stopClock_light E t s) hr)
      refine hP.trans _ _ _ (stopClock_sound hP.toAlloc.toCore t s hA) ?_
      refine hP.trans _ _ _ (stopRecord_sound hP.toAlloc.toCore t v _ hA) ?_
      exact hP.trans _ _ _ (autodisplayWith_sound hP hdisp _ _ _ hr2 h8)
        (hP.modify _ t _ hA fun _ => ⟨rfl, rfl⟩)
  · cases h

theorem init_displayTimers (E : Env) (s : State) :
    (init E s).2.displayTimers = s.displayTimers := by
  have h : (initializePAPI E (getStartTime E s).2).displayTimers = s.displayTimers := by
    unfold initializePAPI getStartTime DisplayInfo getTime
    cases s.startTime <;> simp <;> split_ifs <;> rfl
  simp [init, h]

theorem constructNamed_fields (E : Env) (f : String) (s : State) :
    (constructNamed E f s).1 = s.nTimers ∧ (constructNamed E f s).2.nTimers = s.nTimers + 1 ∧
      (constructNamed E f s).2.displayTimers = s.displayTimers :=
  ⟨(init_nTimers E s).1, (init_nTimers E s).2, init_displayTimers E s⟩

theorem displayStatics_fields (E : Env) (s : State) (hd : s.displayTimers = none) :
    (displayStatics E s).1 = (s.nTimers, s.nTimers + 1, s.nTimers + 2) ∧
      (displayStatics E s).2.nTimers = s.nTimers + 3 ∧
      (displayStatics E s).2.displayTimers = some (displayStatics E s).1 := by
  have ha := constructNamed_fields E "Timer" s
  have hb := constructNamed_fields E "Timer-noflop" (constructNamed E "Timer" s).2
  have hc := constructNamed_fields E "Timer-test"
    (constructNamed E "Timer-noflop" (constructNamed E "Timer" s).2).2
  unfold displayStatics
  rw [hd]
  dsimp only
  rw [hc.1, hc.2.1, hb.1, hb.2.1, ha.1, ha.2.1]
  exact ⟨rfl, rfl, rfl⟩

theorem statics_of_coarse (hP : Alloc E A R) (s : State) (hd : s.displayTimers = none)
    (hset : ∀ s p, s.displayTimers = none → R s { s with displayTimers := some p })
    (hA0 : A s.nTimers) (hA1 : A (s.nTimers + 1)) (hA2 : A (s.nTimers + 2)) :
    R s (displayStatics E s).2 := by
  have ha := constructNamed_fields E "Timer" s
  have hb := constructNamed_fields E "Timer-noflop" (constructNamed E "Timer" s).2
  have hc := constructNamed_fields E "Timer-test"
    (constructNamed E "Timer-noflop" (constructNamed E "Timer" s).2).2
  unfold displayStatics
  rw [hd]
  dsimp only
  refine hP.trans _ _ _ ?_ (hset _ _ (by rw [hc.2.2, hb.2.2, ha.2.2, hd]))
  refine hP.trans _ _ _ ?_
    (constructNamed_sound hP _ _ (by rw [hb.2.1, ha.2.1]; exact hA2))
  refine hP.trans _ _ _ ?_ (constructNamed_sound hP _ _ (by rw [ha.2.1]; exact hA1))
  exact constructNamed_sound hP _ s hA0

theorem displayStatics_sound (hP : Prim E A R) (s : State) (hr : Ready A s) :
    R s (displayStatics E s).2 ∧
      (displayStatics E s).2.displayTimers = some (displayStatics E s).1 ∧
      A (displayStatics E s).1.1 ∧ A (displayStatics E s).1.2.1 ∧
      A (displayStatics E s).1.2.2 := by
  cases hd : s.displayTimers with
  | some p =>
    have h1 : displayStatics E s = (p, s) := by
      unfold displayStatics
      rw [hd]
    rw [h1]
    exact ⟨hP.refl s, hd, hr.1 p hd⟩
  | none =>
    have hf := displayStatics_fields E s hd
    have hA0 : A s.nTimers := hr.2 hd _ (le_refl _)
    have hA1 : A (s.nTimers + 1) := hr.2 hd _ (Nat.le_succ _)
    have hA2 : A (s.nTimers + 2) := hr.2 hd _ (by omega)
    refine ⟨hP.statics s hd hA0 hA1 hA2, hf.2.2, ?_⟩
    rw [hf.1]
    exact ⟨hA0, hA1, hA2⟩

theorem displayReport_sound (hP : Core E A R)
    (hb : ∀ s c f str total, R s (DisplayInfo E ⟨c, f, Body.banner str total⟩ s))
    (str : String) (s : State) : R s (displayReport E str s) := by
  unfold displayReport
  dsimp only
  refine hP.trans _ _ _ ?_ (hb _ _ _ _ _)
  have hfold : ∀ (db : List Nat) (s0 : State),
      R s0 (List.foldl (fun acc p => showAvg E (acc.heap p).info "display" acc) s0 db) := by
    intro db
    induction db with
    | nil => exact fun s0 => hP.refl _
    | cons p db ih =>
      intro s0
      simp only [List.foldl_cons]
      exact hP.trans _ _ _ (showAvg_sound hP _ _ _) (ih _)
  refine hP.trans _ _ _ ?_ (hfold _ _)
  exact hP.trans _ _ _ (getTotalTime_sound hP s) (hb _ _ _ _ _)

theorem displayProbes_carry (hP : Core E A R) (I : State → Prop)
    (hI : ∀ s s1, R s s1 → I s → I s1)
    {stopF : Nat → Bool → State → Except Err State} (p : Nat × Nat × Nat)
    (hA : A p.1 ∧ A p.2.1 ∧ A p.2.2)
    (hstop : ∀ t v s s1, A t → I s → stopF t v s = Except.ok s1 → R s s1)
    (s s1 : State) (hs : I s)
    (h : displayProbes stopF E p s = Except.ok s1) : R s s1 := by
  have hC := hP
  unfold displayProbes at h
  dsimp only at h
  -- the state before the first `stop`
  have r0 : R s (start E p.2.2 false (setFlag p.2.2 false (setFlag p.2.1 false
      (setFlag p.1 false s)))) := by
    refine hP.trans _ _ _ ?_ (start_sound hC _ _ _ hA.2.2)
    refine hP.trans _ _ _ ?_ (setFlag_sound hC _ _ _ hA.2.2)
    exact hP.trans _ _ _ (setFlag_sound hC _ _ _ hA.1) (setFlag_sound hC _ _ _ hA.2.1)
  split at h
  · cases h
  rename_i s1' h1
  have r1 : R s s1' := hP.trans _ _ _ r0 (hstop _ _ _ _ hA.2.2 (hI _ _ r0 hs) h1)
  have r1' : R s (start E p.2.2 false (setFlag p.2.2 true (start E p.1 false s1'))) := by
    refine hP.trans _ _ _ r1 ?_
    refine hP.trans _ _ _ ?_ (start_sound hC _ _ _ hA.2.2)
    exact hP.trans _ _ _ (start_sound hC _ _ _ hA.1) (setFlag_sound hC _ _ _ hA.2.2)
  split at h
  · cases h
  rename_i s2 h2
  have r2 : R s s2 := hP.trans _ _ _ r1' (hstop _ _ _ _ hA.2.2 (hI _ _ r1' hs) h2)
  split at h
  · cases h
  rename_i s3 h3
  have r3 : R s s3 := hP.trans _ _ _ r2 (hstop _ _ _ _ hA.1 (hI _ _ r2 hs) h3)
  have r3' : R s (start E p.2.2 false (setFlag p.2.2 false (start E p.2.1 false s3))) := by
    refine hP.trans _ _ _ r3 ?_
    refine hP.trans _ _ _ ?_ (start_sound hC _ _ _ hA.2.2)
    exact hP.trans _ _ _ (start_sound hC _ _ _ hA.2.1) (setFlag_sound hC _ _ _ hA.2.2)
  split at h
  · cases h
  rename_i s4 h4
  have r4 : R s s4 := hP.trans _ _ _ r3' (hstop _ _ _ _ hA.2.2 (hI _ _ r3' hs) h4)
  exact hP.trans _ _ _ r4 (hstop _ _ _ _ hA.2.1 (hI _ _ r4 hs) h)

theorem displayProbes_soundS (hP : PrimS E A R)
    {stopF : Nat → Bool → State → Except Err State} (p : Nat × Nat × Nat)
    (hA : A p.1 ∧ A p.2.1 ∧ A p.2.2)
    (hstop : ∀ t v s s1, A t → s.displayTimers = some p → stopF t v s = Except.ok s1 → R s s1)
    (s s1 : State) (hs : s.displayTimers = some p)
    (h : displayProbes stopF E p s = Except.ok s1) : R s s1 :=
  displayProbes_carry hP.toAlloc.toCore (fun s => s.displayTimers = some p)
    (fun s s1 hr hs => hP.stable s s1 p hr hs) p hA hstop s s1 hs h

theorem displayWith_soundS (hP : PrimS E A R) {stopF : Nat → Bool → State → Except Err State}
    (hstop : ∀ t v s s1, A t → Ready A s → stopF t v s = Except.ok s1 → R s s1)
    (str : String) (s s1 : State) (hr : Ready A s)
    (h : displayWith stopF E str s = Except.ok s1) : R s s1 := by
  unfold displayWith at h
  split at h
  · cases h
  rename_i s2 h2
  cases h
  obtain ⟨r0, hd, hA⟩ := displayStatics_sound hP.toPrim s hr
  refine hP.trans _ _ _ r0 (hP.trans _ _ _ ?_ (displayReport_sound hP.toAlloc.toCore hP.banner _ _))
  exact displayProbes_soundS hP _ hA
    (fun t v s s1 ht hs hh => hstop t v s s1 ht (ready_of_some hs hA) hh) _ _ hd h2

theorem displayN_soundS (hP : PrimS E A R) (n : Nat) (str : String) (s s1 : State)
    (hr : Ready A s) (h : displayN n E str s = Except.ok s1) : R s s1 := by
  induction n generalizing str s s1 with
  | zero => cases h
  | succ n ih =>
    exact displayWith_soundS hP
      (fun t v s s1 ht hs hh => stopWith_sound hP.toPrim (fun str s s1 => ih str s s1) t v s s1 ht hs hh)
      str s s1 hr h

theorem withStable (hP : Prim E A R) : PrimS E A (fun s s1 => R s s1 ∧ Stable s s1) where
  refl := fun s => ⟨hP.refl s, fun _ h => h⟩
  trans := fun a b c h1 h2 => ⟨hP.trans a b c h1.1 h2.1, fun p h => h2.2 p (h1.2 p h)⟩
  ticks := fun s => ⟨hP.ticks s, fun _ h => h⟩
  startTime := fun s x => ⟨hP.startTime s x, fun _ h => h⟩
  flopReads := fun s => ⟨hP.flopReads s, fun _ h => h⟩
  out := fun s l hl => ⟨hP.out s l hl, fun p h => by
    unfold DisplayInfo
    split <;> exact h⟩
  modify := fun s t f hA hk => ⟨hP.modify s t f hA hk, fun _ h => h⟩
  papiInitialized := fun s b => ⟨hP.papiInitialized s b, fun _ h => h⟩
  lastInit := fun s hn => ⟨hP.lastInit s hn, fun _ h => h⟩
  trigger := fun s L time hL hc => ⟨hP.trigger s L time hL hc, fun _ h => h⟩
  alloc := fun s tm hA hi => ⟨hP.alloc s tm hA hi, fun _ h => h⟩
  statics := fun s hn h0 h1 h2 =>
    ⟨hP.statics s hn h0 h1 h2, fun q h => by rw [hn] at h; cases h⟩
  banner := fun s c f str total => ⟨hP.banner s c f str total, fun p h => by
    unfold DisplayInfo
    split <;> exact h⟩
  stable := fun _ _ p h hp => h.2 p hp

theorem displayN_sound (hP : Prim E A R) (n : Nat) (str : String) (s s1 : State)
    (hr : Ready A s) (h : displayN n E str s = Except.ok s1) : R s s1 :=
  (displayN_soundS (withStable hP) n str s s1 hr h).1

theorem stop_sound (hP : Prim E A R) (n : Nat) (t : Nat) (v : Bool) (s s1 : State) (hA : A t)
    (hr : Ready A s) (h : stop n E t v s = Except.ok s1) : R s s1 :=
  stopWith_sound hP (fun str s s1 => displayN_sound hP n str s s1) t v s s1 hA hr h

theorem autodisplay_sound (hP : Prim E A R) (n : Nat) (time : ℚ) (s s1 : State)
    (hr : Ready A s) (h : autodisplay n E time s = Except.ok s1) : R s s1 :=
  autodisplayWith_sound hP (fun str s s1 => displayN_sound hP n str s s1) time s s1 hr h

theorem ready_true (s : State) : Ready (fun _ => True) s :=
  ⟨fun _ _ => ⟨trivial, trivial, trivial⟩, fun _ _ _ => trivial⟩

theorem step_sound (hP : Prim E (fun _ => True) R)
    (h1 : ∀ s x, R s { s with minimum_autodisplay_interval := x })
    (h2 : ∀ s x, R s { s with minimum_duration_for_show_stop_info := x })
    (h3 : ∀ s x, R s { s with minimum_duration_for_show_start_info := x })
    (n : Nat) (o : Op) (s s1 : State) (h : step n E o s = Except.ok s1) : R s s1 := by
  have hC := hP.toAlloc.toCore
  cases o with
  | construct => cases h; exact init_sound hP.toAlloc s trivial
  | constructNamed f => cases h; exact constructNamed_sound hP.toAlloc f s trivial
  | constructQualified c f => cases h; exact constructQualified_sound hP.toAlloc c f s trivial
  | constructFlops f b => cases h; exact constructFlops_sound hP.toAlloc f b s trivial
  | start t v => cases h; exact start_sound hC t v s trivial
  | stop t v => exact stop_sound hP n t v s s1 trivial (ready_true s) h
  | addFlops t k => cases h; exact addFlops_sound hC t k s trivial
  | showLast t i => cases h; exact showLast_sound hC _ _ s
  | showAvg t i => cases h; exact showAvg_sound hC _ _ s
  | display str => exact displayN_sound hP n str s s1 (ready_true s) h
  | autodisplay time => exact autodisplay_sound hP n time s s1 (ready_true s) h
  | autodisplayNow =>
    exact hP.trans _ _ _ (getTime_sound hC s)
      (autodisplay_sound hP n _ _ s1 (ready_true _) h)
  | setAutodisplayInterval x => cases h; exact h1 s _
  | setStopThreshold x => cases h; exact h2 s _
  | setStartThreshold x => cases h; exact h3 s _

theorem run_sound (hP : Prim E (fun _ => True) R)
    (h1 : ∀ s x, R s { s with minimum_autodisplay_interval := x })
    (h2 : ∀ s x, R s { s with minimum_duration_for_show_stop_info := x })
    (h3 : ∀ s x, R s { s with minimum_duration_for_show_start_info := x })
    (n : Nat) (os : List Op) (s s1 : State) (h : run n E os s = Except.ok s1) :
    R s s1 := by
  induction os generalizing s with
  | nil => cases h; exact hP.refl _
  | cons o os ih =>
    unfold run at h
    split at h
    · cases h
    · rename_i s2 hs2
      exact hP.trans _ _ _ (step_sound hP h1 h2 h3 n o s s2 hs2) (ih s2 h)

end sound

/-! ## What the calls leave alone -/

theorem heapSame_core (E : Env) : Core E (fun _ => False) (fun s s1 => s1.heap = s.heap) where
  refl := fun _ => rfl
  trans := fun _ _ _ h1 h2 => h2.trans h1
  ticks := fun _ => rfl
  startTime := fun _ _ => rfl
  flopReads := fun _ => rfl
  out := fun s l _ => by
    unfold DisplayInfo
    split <;> rfl
  modify := fun _ _ _ h _ => h.elim

theorem frame_alloc (E : Env) (t : Nat) :
    Alloc E (fun u => u ≠ t) (fun s s1 => s1.heap t = s.heap t) where
  refl := fun _ => rfl
  trans := fun _ _ _ h1 h2 => h2.trans h1
  ticks := fun _ => rfl
  startTime := fun _ _ => rfl
  flopReads := fun _ => rfl
  out := fun s l _ => by
    unfold DisplayInfo
    split <;> rfl
  modify := fun s u f h _ => modify_heap_other s u t f (Ne.symm h)
  papiInitialized := fun _ _ => rfl
  alloc := fun s tm h _ => Function.update_noteq (Ne.symm h) _ _

theorem frame_prim (E : Env) (t : Nat) :
    Prim E (fun u => u ≠ t) (fun s s1 => s1.heap t = s.heap t) where
  toAlloc := frame_alloc E t
  lastInit := fun _ _ => rfl
  trigger := fun _ _ _ _ _ => rfl
  banner := fun s c f str total => by
    unfold DisplayInfo
    split <;> rfl
  statics := fun s hd h0 h1 h2 =>
    statics_of_coarse (frame_alloc E t) s hd (fun _ _ _ => rfl) h0 h1 h2

theorem user_prim (E : Env) (t : Nat) :
    Prim E (fun _ => True) (fun s s1 => User s t → User s1 t) where
  refl := fun _ h => h
  trans := fun _ _ _ h1 h2 h => h2 (h1 h)
  ticks := fun _ h => h
  startTime := fun _ _ h => h
  flopReads := fun _ h => h
  out := fun s l _ h => by
    unfold DisplayInfo
    split <;> exact h
  modify := fun _ _ _ _ _ h => h
  papiInitialized := fun _ _ h => h
  alloc := fun _ _ _ _ h => ⟨Nat.lt_succ_of_lt h.1, h.2⟩
  lastInit := fun _ _ h => h
  trigger := fun _ _ _ _ _ h => h
  banner := fun s c f str total h => by
    unfold DisplayInfo
    split <;> exact h
  statics := fun s hd _ _ _ h => by
    have hf := displayStatics_fields E s hd
    refine ⟨by rw [hf.2.1]; exact Nat.lt_add_right 3 h.1, fun p hp => ?_⟩
    rw [hf.2.2, hf.1] at hp
    cases hp
    have := h.1
    exact ⟨by omega, by dsimp only; omega, by dsimp only; omega⟩

theorem ready_of_user {s : State} {t : Nat} (h : User s t) : Ready (fun u => u ≠ t) s :=
  ⟨fun p hp => ⟨Ne.symm (h.2 p hp).1, Ne.symm (h.2 p hp).2.1, Ne.symm (h.2 p hp).2.2⟩,
    fun _ a ha => by have := h.1; omega⟩

theorem showLast_heap (E : Env) (i : TimerInfo) (tag : String) (s : State) :
    (showLast E i tag s).heap = s.heap :=
  showLast_sound (heapSame_core E) i tag s

theorem getTotalFlops_heap (E : Env) (s : State) : (getTotalFlops E s).2.heap = s.heap :=
  getTotalFlops_sound (heapSame_core E) s

/-! ## What `start` and `stop` do to their own timer -/

theorem startShow_heap (E : Env) (t : Nat) (v : Bool) (s : State) :
    (startShow E t v s).heap = s.heap := by
  unfold startShow
  split
  · exact showLast_heap E _ _ s
  · rfl

theorem stopShow_heap (E : Env) (t : Nat) (v : Bool) (s : State) :
    (stopShow E t v s).heap = s.heap := by
  unfold stopShow
  split
  · exact showLast_heap E _ _ s
  · rfl

theorem startFlops_heap (E : Env) (t : Nat) (s : State) :
    (startFlops E t s).heap t =
      { s.heap t with
        start_flops := (if (s.heap t).isUsingTotalFlops then getTotalFlops E s else (0, s)).1
        flops := 0 } := by
  unfold startFlops
  rw [modify_heap_same]
  split
  · rw [getTotalFlops_heap]
  · rfl

theorem stopFlops_heap (E : Env) (t : Nat) (s : State) :
    (stopFlops E t s).heap t =
      { s.heap t with
        stop_flops :=
          if (s.heap t).flops = 0 ∧ (s.heap t).isUsingTotalFlops = true then
            (getTotalFlops E s).1
          else (s.heap t).start_flops + (s.heap t).flops } := by
  unfold stopFlops
  rw [modify_heap_same]
  by_cases h : (s.heap t).flops = 0 ∧ (s.heap t).isUsingTotalFlops = true
  · rw [if_pos h, if_pos (by simp [h.1, h.2]), getTotalFlops_heap]
  · rw [if_neg h, if_neg (by simpa using h)]

theorem start_running (E : Env) (t : Nat) (v : Bool) (s : State)
    (h : (s.heap t).isRunning = true) : start E t v s = s := by
  unfold start
  rw [if_pos h]

theorem start_idle (E : Env) (t : Nat) (v : Bool) (s : State)
    (h : (s.heap t).isRunning = false) :
    ((start E t v s).heap t).isRunning = true ∧
      ((start E t v s).heap t).info =
        { (s.heap t).info with call_times := (s.heap t).info.call_times + 1 } ∧
      ((start E t v s).heap t).flops = 0 ∧
      ((start E t v s).heap t).start_time = E.clock ((start E t v s).ticks - 1) ∧
      ((start E t v s).heap t).isUsingTotalFlops = (s.heap t).isUsingTotalFlops ∧
      1 ≤ (start E t v s).ticks := by
  unfold start
  rw [if_neg (by simp [h])]
  unfold startClock
  simp only [modify_heap_same, modify_ticks, getTime, Nat.add_sub_cancel, startFlops_heap,
    startShow_heap, startMark]
  exact ⟨trivial, trivial, trivial, trivial, trivial, Nat.le_add_left _ _⟩

theorem getTotalFlops_fst (E : Env) (s s1 : State) (h : s1.flopReads = s.flopReads) :
    (getTotalFlops E s1).1 = (getTotalFlops E s).1 := by
  unfold getTotalFlops
  split
  · simp [h]
  · rfl

/-- The timer of a `stop` when `autodisplay(stop_time)` is called, from the state at the
call of `stop`. -/
theorem stopRecord_heap (E : Env) (t : Nat) (v : Bool) (s : State) :
    ((stopRecord E t v (stopClock E t s)).heap t).isRunning = (s.heap t).isRunning ∧
    ((stopRecord E t v (stopClock E t s)).heap t).stop_time = E.clock s.ticks ∧
    ((stopRecord E t v (stopClock E t s)).heap t).info.call_times =
      (s.heap t).info.call_times ∧
    ((stopRecord E t v (stopClock E t s)).heap t).info.fname = (s.heap t).info.fname ∧
    ((stopRecord E t v (stopClock E t s)).heap t).info.dtime =
      some (E.clock s.ticks - (s.heap t).start_time) ∧
    ((stopRecord E t v (stopClock E t s)).heap t).info.accumulated_time =
      (s.heap t).info.accumulated_time + (E.clock s.ticks - (s.heap t).start_time) ∧
    ((stopRecord E t v (stopClock E t s)).heap t).info.dflops =
      (if (s.heap t).flops ≠ 0 then (s.heap t).flops
        else if (s.heap t).isUsingTotalFlops = true then
          (getTotalFlops E s).1 - (s.heap t).start_flops
        else 0) ∧
    ((stopRecord E t v (stopClock E t s)).heap t).info.accumulated_flops =
      (s.heap t).info.accumulated_flops +
        (if (s.heap t).flops ≠ 0 then (s.heap t).flops
          else if (s.heap t).isUsingTotalFlops = true then
            (getTotalFlops E s).1 - (s.heap t).start_flops
          else 0) := by
  have hf : (getTotalFlops E (stopClock E t s)).1 = (getTotalFlops E s).1 :=
    getTotalFlops_fst E s _ rfl
  unfold stopRecord
  rw [stopShow_heap]
  unfold stopInfo
  rw [modify_heap_same, stopFlops_heap, hf]
  unfold stopClock
  simp only [modify_heap_same, getTime]
  refine ⟨trivial, trivial, trivial, trivial, trivial, trivial, ?_, ?_⟩
  · by_cases h0 : (s.heap t).flops = 0 <;> by_cases hu : (s.heap t).isUsingTotalFlops = true <;>
      simp [h0, hu]
  · by_cases h0 : (s.heap t).flops = 0 <;> by_cases hu : (s.heap t).isUsingTotalFlops = true <;>
      simp [h0, hu]

/-- The result of `stop` on a timer of the program: the timer is running at the call, and
at the return its members are those at the call of `autodisplay`, with `isRunning`
cleared. -/
theorem stop_user (n : Nat) (E : Env) (t : Nat) (v : Bool) (s s1 : State) (hu : User s t)
    (h : stop n E t v s = Except.ok s1) :
    (s.heap t).isRunning = true ∧ User s1 t ∧
      s1.heap t =
        { (stopRecord E t v (stopClock E t s)).heap t with isRunning := false } := by
  have hus : User s1 t :=
    stop_sound (user_prim E t) n t v s s1 trivial (ready_true s) h hu
  unfold stop stopWith at h
  have hrun : ((stopClock E t s).heap t).isRunning = (s.heap t).isRunning := by
    unfold stopClock
    rw [modify_heap_same]
    rfl
  rw [hrun] at h
  split at h
  · rename_i hr
    split at h
    · cases h
    · rename_i s8 h8
      cases h
      have hu7 : User (stopRecord E t v (stopClock E t s)) t :=
        stopRecord_sound (user_prim E t).toAlloc.toCore t v _ trivial
          (stopClock_sound (user_prim E t).toAlloc.toCore t s trivial hu)
      have hfr := autodisplayWith_sound (frame_prim E t)
        (fun str s s1 => displayN_sound (frame_prim E t) n str s s1) _ _ _
        (ready_of_user hu7) h8
      refine ⟨hr, hus, ?_⟩
      rw [modify_heap_same, hfr]
  · cases h

/-! ## Measurements on a timer of the program -/

theorem ok_of_succeeds {r : Except Err State} (h : succeeds r = true) :
    r = Except.ok (theState r) := by
  cases r with
  | ok s => rfl
  | error e => cases h

theorem measure_user (n : Nat) (E : Env) (t : Nat) (p : Pair) (s s1 : State) (hu : User s t)
    (hidle : (s.heap t).isRunning = false) (h : measure n E t p s = Except.ok s1) :
    User s1 t ∧ (s1.heap t).isRunning = false ∧
      (s1.heap t).info.accumulated_time =
        (s.heap t).info.accumulated_time + duration E t p s ∧
      (s1.heap t).info.call_times = (s.heap t).info.call_times + 1 := by
  unfold measure at h
  have hC := (user_prim E t).toAlloc.toCore
  have hub : User (addFlops t p.ops (start E t p.vstart s)) t :=
    addFlops_sound hC t _ _ trivial (start_sound hC t _ s trivial hu)
  obtain ⟨_, hu1, hh⟩ := stop_user n E t p.vstop _ s1 hub h
  obtain ⟨_, hinfo, _, htime, _, _⟩ := start_idle E t p.vstart s hidle
  obtain ⟨_, _, hc, _, _, ha, _, _⟩ :=
    stopRecord_heap E t p.vstop (addFlops t p.ops (start E t p.vstart s))
  refine ⟨hu1, by rw [hh], ?_, ?_⟩
  · rw [hh]
    show ((stopRecord E t p.vstop _).heap t).info.accumulated_time = _
    rw [ha]
    unfold duration
    simp only [addFlops, modify_heap_same, modify_ticks, hinfo, htime]
  · rw [hh]
    show ((stopRecord E t p.vstop _).heap t).info.call_times = _
    rw [hc]
    simp only [addFlops, modify_heap_same, hinfo]

theorem measures_user (n : Nat) (E : Env) (t : Nat) (ps : List Pair) (s s1 : State)
    (hu : User s t) (hidle : (s.heap t).isRunning = false)
    (h : measures n E t ps s = Except.ok s1) :
    User s1 t ∧ (s1.heap t).isRunning = false ∧
      (s1.heap t).info.accumulated_time =
        (s.heap t).info.accumulated_time + (durations n E t ps s).sum ∧
      (s1.heap t).info.call_times = (s.heap t).info.call_times + ps.length := by
  induction ps generalizing s with
  | nil =>
    cases h
    simp [durations, hu, hidle]
  | cons p ps ih =>
    unfold measures at h
    unfold durations
    split at h
    · cases h
    · rename_i s2 h2
      obtain ⟨hu2, hi2, ha2, hc2⟩ := measure_user n E t p s s2 hu hidle h2
      obtain ⟨hu3, hi3, ha3, hc3⟩ := ih s2 hu2 hi2 h
      refine ⟨hu3, hi3, ?_, ?_⟩
      · rw [ha3, ha2, List.sum_cons, add_assoc]
      · rw [hc3, hc2, List.length_cons]
        push_cast
        ring

theorem user_stateWork : User stateWork 0 :=
  ⟨by decide, fun p hp => by cases hp⟩

theorem displayN_ne_assertion_zero (n : Nat) (E : Env) (str : String) (s : State) :
    displayN n E str s ≠ Except.error (Err.assertion 0) := by
  cases n with
  | zero => exact fun h => by cases h
  | succ n =>
    unfold displayN displayWith
    split
    · rename_i e _
      cases e <;> exact fun h => by cases h
    · exact fun h => by cases h

theorem stop_idle (n : Nat) (E : Env) (t : Nat) (v : Bool) (s : State)
    (h : (s.heap t).isRunning = false) : stop n E t v s = Except.error (Err.assertion 0) := by
  unfold stop stopWith
  have hrun : ((stopClock E t s).heap t).isRunning = (s.heap t).isRunning := by
    unfold stopClock
    rw [modify_heap_same]
    rfl
  rw [hrun, h]
  rfl

theorem stop_running_ne (n : Nat) (E : Env) (t : Nat) (v : Bool) (s : State)
    (h : (s.heap t).isRunning = true) : stop n E t v s ≠ Except.error (Err.assertion 0) := by
  unfold stop stopWith
  have hrun : ((stopClock E t s).heap t).isRunning = (s.heap t).isRunning := by
    unfold stopClock
    rw [modify_heap_same]
    rfl
  rw [hrun, if_pos h]
  split
  · rename_i e he
    intro hx
    cases hx
    unfold autodisplayWith at he
    dsimp only at he
    split at he
    · exact displayN_ne_assertion_zero n E _ _ he
    · cases he
  · exact fun hx => by cases hx

theorem stop_ok_idle (n : Nat) (E : Env) (t : Nat) (v : Bool) (s s1 : State)
    (h : stop n E t v s = Except.ok s1) : (s1.heap t).isRunning = false := by
  unfold stop stopWith at h
  split at h
  · split at h
    · cases h
    · cases h
      rw [modify_heap_same]
  · cases h

theorem constructNamed_idle (E : Env) (f : String) (s : State) :
    ((constructNamed E f s).2.heap (constructNamed E f s).1).isRunning = false := by
  unfold constructNamed
  dsimp only
  rw [modify_heap_same]
  unfold init
  simp

/-! ## The rank gate -/

theorem silent_alloc (E : Env) (hr : E.rank ≠ 0) :
    Alloc E (fun _ => True) (fun s s1 => s1.out = s.out) where
  refl := fun _ => rfl
  trans := fun _ _ _ h1 h2 => h2.trans h1
  ticks := fun _ => rfl
  startTime := fun _ _ => rfl
  flopReads := fun _ => rfl
  out := fun s l _ => by
    unfold DisplayInfo
    rw [if_pos hr]
  modify := fun _ _ _ _ _ => rfl
  papiInitialized := fun _ _ => rfl
  alloc := fun _ _ _ _ => rfl

theorem silent_prim (E : Env) (hr : E.rank ≠ 0) :
    Prim E (fun _ => True) (fun s s1 => s1.out = s.out) where
  toAlloc := silent_alloc E hr
  lastInit := fun _ _ => rfl
  trigger := fun _ _ _ _ _ => rfl
  banner := fun s c f str total => by
    unfold DisplayInfo
    rw [if_pos hr]
  statics := fun s hd h0 h1 h2 =>
    statics_of_coarse (silent_alloc E hr) s hd (fun _ _ _ => rfl) h0 h1 h2

/-! ## The registry -/

theorem init_fields (E : Env) (s : State) :
    (init E s).2.timerDatabase = s.timerDatabase ++ [s.nTimers] ∧
      ((init E s).2.heap s.nTimers).index = s.timerDatabase.length ∧
      ((init E s).2.heap s.nTimers).info = TimerInfo.new := by
  have h : (initializePAPI E (getStartTime E s).2).nTimers = s.nTimers ∧
      (initializePAPI E (getStartTime E s).2).timerDatabase = s.timerDatabase := by
    unfold initializePAPI getStartTime DisplayInfo getTime
    cases s.startTime <;> simp <;> split_ifs <;> exact ⟨rfl, rfl⟩
  obtain ⟨h1, h2⟩ := h
  unfold init
  dsimp only
  generalize initializePAPI E (getStartTime E s).2 = s0 at h1 h2
  rw [h1, h2, Function.update_same]
  exact ⟨rfl, rfl, rfl⟩

theorem step_constructor (n : Nat) (E : Env) (o : Op) (s s1 : State)
    (ho : o.isConstructor = true) (h : step n E o s = Except.ok s1) :
    s1.timerDatabase = s.timerDatabase ++ [s.nTimers] ∧ s1.nTimers = s.nTimers + 1 ∧
      (s1.heap s.nTimers).index = s.timerDatabase.length := by
  have hi := init_fields E s
  have hn := init_nTimers E s
  cases o <;> first
    | (cases ho; done)
    | (simp only [step, construct, constructNamed, constructQualified, constructFlops] at h
       cases h
       try simp only [modify_timerDatabase, modify_nTimers, hn.1, modify_heap_same]
       exact ⟨hi.1, hn.2, hi.2.1⟩)

theorem appendOnly_alloc (E : Env) : Alloc E (fun _ => True) AppendOnly where
  refl := fun _ => ⟨List.prefix_refl _, le_refl _, fun _ _ => rfl⟩
  trans := fun _ _ _ h1 h2 =>
    ⟨h1.1.trans h2.1, h1.2.1.trans h2.2.1,
      fun t ht => (h2.2.2 t (lt_of_lt_of_le ht h1.2.1)).trans (h1.2.2 t ht)⟩
  ticks := fun _ => ⟨List.prefix_refl _, le_refl _, fun _ _ => rfl⟩
  startTime := fun _ _ => ⟨List.prefix_refl _, le_refl _, fun _ _ => rfl⟩
  flopReads := fun _ => ⟨List.prefix_refl _, le_refl _, fun _ _ => rfl⟩
  out := fun s l _ => by
    unfold DisplayInfo
    split <;> exact ⟨List.prefix_refl _, le_refl _, fun _ _ => rfl⟩
  modify := fun s t f _ hk => ⟨List.prefix_refl _, le_refl _, fun u _ => by
    by_cases hut : u = t
    · rw [hut, modify_heap_same]
      exact (hk _).1
    · rw [modify_heap_other s t u f hut]⟩
  papiInitialized := fun _ _ => ⟨List.prefix_refl _, le_refl _, fun _ _ => rfl⟩
  alloc := fun s tm _ _ =>
    ⟨List.prefix_append _ _, Nat.le_succ _, fun t ht =>
      congrArg Timer.index (Function.update_noteq (Nat.ne_of_lt ht) _ _)⟩

theorem appendOnly_prim (E : Env) : Prim E (fun _ => True) AppendOnly where
  toAlloc := appendOnly_alloc E
  lastInit := fun _ _ => ⟨List.prefix_refl _, le_refl _, fun _ _ => rfl⟩
  trigger := fun _ _ _ _ _ => ⟨List.prefix_refl _, le_refl _, fun _ _ => rfl⟩
  banner := fun s c f str total => by
    unfold DisplayInfo
    split <;> exact ⟨List.prefix_refl _, le_refl _, fun _ _ => rfl⟩
  statics := fun s hd h0 h1 h2 =>
    statics_of_coarse (appendOnly_alloc E) s hd
      (fun _ _ _ => ⟨List.prefix_refl _, le_refl _, fun _ _ => rfl⟩) h0 h1 h2

theorem registered_of_appendOnly {s s1 : State} {t : Nat} (h : AppendOnly s s1)
    (ht : t < s.nTimers) (hr : Registered s t) : Registered s1 t := by
  unfold Registered at hr ⊢
  rw [h.2.2 t ht]
  obtain ⟨r, hr1⟩ := h.1
  rw [← hr1]
  have hlt : (s.heap t).index < s.timerDatabase.length := by
    by_contra hc
    rw [List.getElem?_eq_none (not_lt.mp hc)] at hr
    cases hr
  rw [List.getElem?_append_left hlt]
  exact hr

theorem constructNamed_registry (E : Env) (f : String) (s : State) (hv : RegistryValid s) :
    RegistryValid (constructNamed E f s).2 ∧
      (constructNamed E f s).2.timerDatabase = s.timerDatabase ++ [s.nTimers] ∧
      (constructNamed E f s).1 = s.nTimers ∧
      registryNames (constructNamed E f s).2 = registryNames s ++ [f] := by
  have hi := init_fields E s
  have hn := init_nTimers E s
  have hdb : (constructNamed E f s).2.timerDatabase = s.timerDatabase ++ [s.nTimers] := hi.1
  have hself : ((constructNamed E f s).2.heap s.nTimers).info.fname = f := by
    unfold constructNamed
    dsimp only
    rw [hn.1, modify_heap_same]
  have hother : ∀ a, a < s.nTimers → (constructNamed E f s).2.heap a = s.heap a := fun a ha =>
    constructNamed_sound (frame_alloc E a) f s (Nat.ne_of_gt ha)
  refine ⟨fun a ha => ?_, hdb, hn.1, ?_⟩
  · rw [hdb, List.mem_append, List.mem_singleton] at ha
    have hnt : (constructNamed E f s).2.nTimers = s.nTimers + 1 := hn.2
    rw [hnt]
    rcases ha with ha | ha
    · exact Nat.lt_succ_of_lt (hv a ha)
    · rw [ha]
      exact Nat.lt_succ_self _
  · unfold registryNames
    rw [hdb, List.map_append, List.map_singleton, hself]
    congr 1
    exact List.map_congr_left fun a ha => by rw [hother a (hv a ha)]

/-! ## The order of the dump -/

theorem insertionSortBy_stdSort (key : Nat → ℚ) (l : List Nat) :
    (insertionSortBy (fun a b => decide (key a < key b)) l).Perm l ∧
      (insertionSortBy (fun a b => decide (key a < key b)) l).Pairwise
        fun a b => key a ≤ key b := by
  unfold insertionSortBy
  haveI : IsTotal Nat (fun a b => decide (key b < key a) = false) :=
    ⟨fun a b => by
      simp only [decide_eq_false_iff_not, not_lt]
      exact le_total _ _⟩
  haveI : IsTrans Nat (fun a b => decide (key b < key a) = false) :=
    ⟨fun a b c h1 h2 => by
      simp only [decide_eq_false_iff_not, not_lt] at h1 h2 ⊢
      exact le_trans h1 h2⟩
  refine ⟨List.perm_insertionSort _ l, ?_⟩
  have hs := List.sorted_insertionSort (fun a b => decide (key b < key a) = false) l
  exact List.Pairwise.imp (fun h => by simpa using h) hs

theorem getTotalTime_out (E : Env) (s : State) : (getTotalTime E s).2.out = s.out := by
  unfold getTotalTime getStartTime getTime
  cases s.startTime <;> rfl

theorem showAvg_out (E : Env) (hr : E.rank = 0) (i : TimerInfo) (s : State) :
    ∃ l : Line, l.showsAvg i ∧ (showAvg E i "display" s).out = s.out ++ [l] ∧
      (showAvg E i "display" s).heap = s.heap := by
  refine ⟨_, ⟨(getTotalTime E s).1, rfl⟩, ?_, showAvg_sound (heapSame_core E) i _ s⟩
  unfold showAvg DisplayInfo
  rw [if_neg (by simp [hr]), getTotalTime_out]

theorem showAvg_fold (E : Env) (hr : E.rank = 0) (db : List Nat) (s : State) :
    ∃ lines : List Line,
      (db.foldl (fun acc p => showAvg E (acc.heap p).info "display" acc) s).out =
          s.out ++ lines ∧
        List.Forall₂ (fun l a => l.showsAvg (s.heap a).info) lines db ∧
        (db.foldl (fun acc p => showAvg E (acc.heap p).info "display" acc) s).heap =
          s.heap := by
  induction db generalizing s with
  | nil => exact ⟨[], by simp, List.Forall₂.nil, rfl⟩
  | cons p db ih =>
    obtain ⟨l, hl, ho, hh⟩ := showAvg_out E hr (s.heap p).info s
    obtain ⟨ls, hos, hf, hhs⟩ := ih (showAvg E (s.heap p).info "display" s)
    refine ⟨l :: ls, ?_, List.Forall₂.cons hl ?_, ?_⟩
    · rw [List.foldl_cons, hos, ho, List.append_assoc, List.singleton_append]
    · rw [hh] at hf
      exact hf
    · rw [List.foldl_cons, hhs, hh]

theorem dumpOrder_congr (E : Env) (s s1 : State) (hh : s1.heap = s.heap)
    (hd : s1.timerDatabase = s.timerDatabase) : dumpOrder E s1 = dumpOrder E s := by
  unfold dumpOrder compareTimeInfoP
  rw [hh, hd]

theorem displayReport_out (E : Env) (hr : E.rank = 0) (str : String) (s : State) :
    ∃ (lines : List Line) (total : ℚ),
      (displayReport E str s).out =
          s.out ++ [⟨"Timer", "display-start", Body.banner str total⟩] ++ lines ++
            [⟨"Timer", "display-end  ", Body.banner str total⟩] ∧
        List.Forall₂ (fun l a => l.showsAvg ((displayReport E str s).heap a).info) lines
          (dumpOrder E (displayReport E str s)) := by
  have hh0 : (getTotalTime E s).2.heap = s.heap := getTotalTime_sound (heapSame_core E) s
  have hl0 : Light s (getTotalTime E s).2 := getTotalTime_sound (light_core E) s
  have hrep : Light s (displayReport E str s) :=
    displayReport_sound (light_core E) (fun s c f str total => by
      unfold DisplayInfo
      split <;> exact ⟨rfl, rfl, rfl, rfl, rfl, rfl, rfl, rfl⟩) str s
  have hheap : (displayReport E str s).heap = s.heap :=
    displayReport_sound (heapSame_core E) (fun s c f str total => by
      unfold DisplayInfo
      split <;> rfl) str s
  have hord : dumpOrder E (displayReport E str s) = dumpOrder E (getTotalTime E s).2 := by
    rw [dumpOrder_congr E s _ hheap hrep.2.1, dumpOrder_congr E s _ hh0 hl0.2.1]
  obtain ⟨lines, ho, hf, _⟩ := showAvg_fold E hr (dumpOrder E (getTotalTime E s).2)
    (DisplayInfo E ⟨"Timer", "display-start", Body.banner str (getTotalTime E s).1⟩
      (getTotalTime E s).2)
  refine ⟨lines, (getTotalTime E s).1, ?_, ?_⟩
  · unfold displayReport
    dsimp only
    unfold dumpOrder at ho
    unfold DisplayInfo at ho ⊢
    rw [if_neg (by simp [hr])] at ho ⊢
    rw [if_neg (by simp [hr])]
    dsimp only
    rw [ho, getTotalTime_out]
  · rw [hord, hheap]
    have hd : (DisplayInfo E ⟨"Timer", "display-start", Body.banner str (getTotalTime E s).1⟩
        (getTotalTime E s).2).heap = s.heap := by
      rw [← hh0]
      unfold DisplayInfo
      split <;> rfl
    rw [hd] at hf
    exact hf

theorem stdSort_envABC : StdSort envABC :=
  fun key l => insertionSortBy_stdSort key l

/-! ## The average line -/

theorem fdiv_some (a b : ℚ) :
    fdiv (some a) (some b) = if b = 0 then none else some (a / b) := rfl

theorem showAvg_line (E : Env) (hr : E.rank = 0) (i : TimerInfo) (tag : String) (s : State) :
    ∃ g af : Option ℚ, (showAvg E i tag s).out = s.out ++
      [⟨"Timer", tag,
        Body.avg (nameField i.fname)
          (if (getTotalTime E s).1 = 0 then none
            else some (i.accumulated_time / (getTotalTime E s).1 * 100))
          i.call_times
          (if i.call_times = 0 then none else some (i.accumulated_time / i.call_times))
          i.accumulated_time g af i.accumulated_flops⟩] := by
  refine ⟨fdiv (fdiv (some (i.accumulated_flops : ℚ)) (some i.accumulated_time))
    (some 1000000000), fdiv (some (i.accumulated_flops : ℚ)) (some (i.call_times : ℚ)), ?_⟩
  unfold showAvg DisplayInfo
  rw [if_neg (by simp [hr]), getTotalTime_out, fdiv_some (i.accumulated_time : ℚ) _,
    fdiv_some (i.accumulated_time : ℚ) (i.call_times : ℚ)]
  by_cases h1 : (getTotalTime E s).1 = 0 <;> by_cases h2 : i.call_times = 0 <;>
    simp [h1, h2]

theorem getTotalTime_value (E : Env) (s : State) (x : ℚ) (h : s.startTime = some x) :
    (getTotalTime E s).1 = E.clock s.ticks - x := by
  unfold getTotalTime getStartTime getTime
  simp [h]

theorem user_stateWorkNoFlops : User stateWorkNoFlops 0 :=
  ⟨by decide, fun p hp => by cases hp⟩

/-! ## Automatic dumps -/

theorem isAutoDump_of_not_banner (l : Line) (h : l.isBanner = false) :
    l.isAutoDump = false := by
  obtain ⟨c, f, b⟩ := l
  cases b <;> first | (simp [Line.isAutoDump]; done) | (simp [Line.isBanner] at h)

theorem countDumps_DisplayInfo (E : Env) (l : Line) (s : State) (h : l.isAutoDump = false) :
    countDumps (DisplayInfo E l s).out = countDumps s.out := by
  unfold DisplayInfo countDumps
  split
  · rfl
  · simp [List.countP_append, h]

theorem steady_refl (s : State) : Steady s s := ⟨rfl, rfl, le_refl _⟩

theorem steady_trans (a b c : State) (h1 : Steady a b) (h2 : Steady b c) : Steady a c :=
  ⟨h2.1.trans h1.1, h2.2.1.trans h1.2.1, h1.2.2.trans h2.2.2⟩

theorem steady_DisplayInfo (E : Env) (l : Line) (s : State) : Steady s (DisplayInfo E l s) := by
  unfold DisplayInfo
  split <;> exact steady_refl _

theorem steady_alloc (E : Env) : Alloc E (fun _ => True) Steady where
  refl := steady_refl
  trans := steady_trans
  ticks := fun _ => ⟨rfl, rfl, Nat.le_succ _⟩
  startTime := fun _ _ => steady_refl _
  flopReads := fun _ => steady_refl _
  out := fun s l _ => steady_DisplayInfo E l s
  modify := fun _ _ _ _ _ => steady_refl _
  papiInitialized := fun _ _ => steady_refl _
  alloc := fun _ _ _ _ => steady_refl _

theorem calm_alloc (E : Env) : Alloc E (fun _ => True) Calm where
  refl := fun s => ⟨steady_refl s, rfl⟩
  trans := fun a b c h1 h2 => ⟨steady_trans a b c h1.1 h2.1, h2.2.trans h1.2⟩
  ticks := fun s => ⟨(steady_alloc E).ticks s, rfl⟩
  startTime := fun _ _ => ⟨steady_refl _, rfl⟩
  flopReads := fun _ => ⟨steady_refl _, rfl⟩
  out := fun s l hl =>
    ⟨steady_DisplayInfo E l s, countDumps_DisplayInfo E l s (isAutoDump_of_not_banner l hl)⟩
  modify := fun _ _ _ _ _ => ⟨steady_refl _, rfl⟩
  papiInitialized := fun _ _ => ⟨steady_refl _, rfl⟩
  alloc := fun _ _ _ _ => ⟨steady_refl _, rfl⟩

theorem quiet_of_steady (E : Env) (s s1 : State) (h : Steady s s1) (hq : Quiet E s) :
    Quiet E s1 := by
  obtain ⟨L, hL, hk⟩ := hq
  refine ⟨L, by rw [h.1, hL], fun k hk1 => ?_⟩
  rw [h.2.1]
  exact hk k (le_trans h.2.2 hk1)

theorem stopRecord_stop_time (E : Env) (t : Nat) (v : Bool) (s : State) :
    ((stopRecord E t v (stopClock E t s)).heap t).stop_time = E.clock s.ticks :=
  (stopRecord_heap E t v s).2.1

/-- A `stop` in a quiet state calls no `display`. -/
theorem quiet_stopWith (E : Env) (disp : String → State → Except Err State) (t : Nat)
    (v : Bool) (s s1 : State) (hq : Quiet E s) (h : stopWith disp E t v s = Except.ok s1) :
    Calm s s1 := by
  have hC := (calm_alloc E).toCore
  have h7 : Calm s (stopRecord E t v (stopClock E t s)) :=
    hC.trans _ _ _ (stopClock_sound hC t s trivial) (stopRecord_sound hC t v _ trivial)
  obtain ⟨L, hL, hk⟩ := hq
  unfold stopWith at h
  split at h
  · have hno : autodisplayWith disp E ((stopRecord E t v (stopClock E t s)).heap t).stop_time
        (stopRecord E t v (stopClock E t s)) =
        Except.ok (stopRecord E t v (stopClock E t s)) := by
      unfold autodisplayWith
      rw [h7.1.1, hL]
      dsimp only
      rw [if_neg]
      rw [stopRecord_stop_time, h7.1.2.1]
      exact not_lt.mpr (hk _ (le_refl _))
    rw [hno] at h
    cases h
    exact hC.trans _ _ _ h7 (hC.modify _ t _ trivial fun _ => ⟨rfl, rfl⟩)
  · cases h

theorem displayStatics_calm (E : Env) (s : State) : Calm s (displayStatics E s).2 := by
  cases hd : s.displayTimers with
  | some p =>
    have h1 : displayStatics E s = (p, s) := by
      unfold displayStatics
      rw [hd]
    rw [h1]
    exact (calm_alloc E).refl s
  | none =>
    exact statics_of_coarse (calm_alloc E) s hd
      (fun _ _ _ => ⟨steady_refl _, rfl⟩) trivial trivial trivial

theorem showsAvg_not_autoDump (l : Line) (i : TimerInfo) (h : l.showsAvg i) :
    l.isAutoDump = false := by
  obtain ⟨total, hl⟩ := h
  rw [hl]
  simp [Line.isAutoDump]

theorem countDumps_lines (lines : List Line) (db : List Nat) (f : Nat → TimerInfo)
    (h : List.Forall₂ (fun l a => l.showsAvg (f a)) lines db) : countDumps lines = 0 := by
  unfold countDumps
  induction h with
  | nil => rfl
  | cons hl _ ih =>
    rw [List.countP_cons, ih, showsAvg_not_autoDump _ _ hl]
    rfl

theorem displayReport_calm (E : Env) (hr : E.rank = 0) (str : String) (s : State) :
    Steady s (displayReport E str s) ∧
      countDumps (displayReport E str s).out =
        countDumps s.out + if str = "autodisplay" then 1 else 0 := by
  refine ⟨displayReport_sound (steady_alloc E).toCore
    (fun s c f str total => steady_DisplayInfo E _ s) str s, ?_⟩
  obtain ⟨lines, total, ho, hf⟩ := displayReport_out E hr str s
  rw [ho]
  unfold countDumps
  rw [List.countP_append, List.countP_append, List.countP_append]
  have hz := countDumps_lines lines _ _ hf
  unfold countDumps at hz
  rw [hz]
  have he : Line.isAutoDump ⟨"Timer", "display-end  ", Body.banner str total⟩ = false := by
    simp [Line.isAutoDump]
  have hb : Line.isAutoDump ⟨"Timer", "display-start", Body.banner str total⟩ =
      decide (str = "autodisplay") := by
    simp [Line.isAutoDump]
  simp only [List.countP_cons, List.countP_nil, he, hb]
  by_cases hs : str = "autodisplay" <;> simp [hs]

/-- A `display` in a quiet state calls no further `display`: on rank `0` it writes one start
banner, which counts as an automatic dump when the caller is `autodisplay`. -/
theorem quiet_displayWith (E : Env) (hr : E.rank = 0)
    (disp : String → State → Except Err State) (str : String) (s s1 : State)
    (hq : Quiet E s) (h : displayWith (stopWith disp E) E str s = Except.ok s1) :
    Steady s s1 ∧
      countDumps s1.out = countDumps s.out + if str = "autodisplay" then 1 else 0 := by
  unfold displayWith at h
  split at h
  · cases h
  rename_i s2 h2
  cases h
  have c0 := displayStatics_calm E s
  have c1 : Calm (displayStatics E s).2 s2 :=
    displayProbes_carry (calm_alloc E).toCore (Quiet E)
      (fun a b hc hq => quiet_of_steady E a b hc.1 hq) _ ⟨trivial, trivial, trivial⟩
      (fun t v a b _ hq hh => quiet_stopWith E disp t v a b hq hh) _ _
      (quiet_of_steady E _ _ c0.1 hq) h2
  obtain ⟨c2, hc2⟩ := displayReport_calm E hr str s2
  refine ⟨steady_trans _ _ _ (steady_trans _ _ _ c0.1 c1.1) c2, ?_⟩
  rw [hc2, c1.2, c0.2]

/-- The automatic dumps of one `stop`, when every later clock value is within the interval
of the timestamp of the `stop`: one dump if the timestamp exceeds `last_time` by more than
the interval, and then `last_time` becomes the timestamp; else none. -/
theorem stop_dumps (n : Nat) (E : Env) (t : Nat) (v : Bool) (s s1 : State) (L : ℚ)
    (hr : E.rank = 0) (hL : s.last_time = some L)
    (hw : ∀ k, s.ticks ≤ k → E.clock k - E.clock s.ticks ≤ s.minimum_autodisplay_interval)
    (h : stop n E t v s = Except.ok s1) :
    s1.minimum_autodisplay_interval = s.minimum_autodisplay_interval ∧ s.ticks ≤ s1.ticks ∧
      (E.clock s.ticks - L > s.minimum_autodisplay_interval →
        s1.last_time = some (E.clock s.ticks) ∧ countDumps s1.out = countDumps s.out + 1) ∧
      (¬ E.clock s.ticks - L > s.minimum_autodisplay_interval →
        s1.last_time = some L ∧ countDumps s1.out = countDumps s.out) := by
  have hC := (calm_alloc E).toCore
  have h7 : Calm s (stopRecord E t v (stopClock E t s)) :=
    hC.trans _ _ _ (stopClock_sound hC t s trivial) (stopRecord_sound hC t v _ trivial)
  unfold stop stopWith at h
  split at h
  swap
  · cases h
  split at h
  · cases h
  rename_i s8 h8
  cases h
  unfold autodisplayWith at h8
  rw [h7.1.1, hL] at h8
  dsimp only at h8
  have hiff : ((stopRecord E t v (stopClock E t s)).heap t).stop_time - L >
      (stopRecord E t v (stopClock E t s)).minimum_autodisplay_interval ↔
      E.clock s.ticks - L > s.minimum_autodisplay_interval := by
    rw [stopRecord_stop_time, h7.1.2.1]
  by_cases hgt : E.clock s.ticks - L > s.minimum_autodisplay_interval
  · rw [if_pos (hiff.mpr hgt), stopRecord_stop_time] at h8
    cases n with
    | zero => cases h8
    | succ m =>
      unfold displayN at h8
      have hq : Quiet E { stopRecord E t v (stopClock E t s) with
          last_time := some (E.clock s.ticks)
          triggered := (stopRecord E t v (stopClock E t s)).triggered ++
            [E.clock s.ticks] } :=
        ⟨E.clock s.ticks, rfl, fun k hk => by
          have := hw k (le_trans h7.1.2.2 hk)
          rw [← h7.1.2.1] at this
          exact this⟩
      obtain ⟨hst, hcnt⟩ := quiet_displayWith E hr (displayN m E) _ _ _ hq h8
      refine ⟨?_, ?_, fun _ => ⟨?_, ?_⟩, fun hn => absurd hgt hn⟩
      · exact hst.2.1.trans h7.1.2.1
      · exact le_trans h7.1.2.2 hst.2.2
      · exact hst.1
      · show countDumps s8.out = _
        rw [hcnt, if_pos rfl]
        show countDumps (stopRecord E t v (stopClock E t s)).out + 1 = _
        rw [h7.2]
  · rw [if_neg (fun hc => hgt (hiff.mp hc))] at h8
    cases h8
    refine ⟨h7.1.2.1, h7.1.2.2, fun hp => absurd hp hgt, fun _ => ⟨?_, h7.2⟩⟩
    show (stopRecord E t v (stopClock E t s)).last_time = some L
    rw [h7.1.1, hL]

theorem envThrottle_window (k : Nat) : envThrottle.clock k ≤ 100 + 10 := by
  show (if k < 7 then (0 : ℚ) else if k < 32 then 100 else if k < 36 then 103 else 108) ≤ _
  split_ifs <;> norm_num

/-! ## States in which `autodisplay` cannot trigger -/

theorem mild_of_steady (E : Env) (s s1 : State) (h : Steady s s1) : Mild E s s1 :=
  ⟨h.2.1, h.2.2, Or.inl h.1⟩

theorem mild_trans (E : Env) (a b c : State) (h1 : Mild E a b) (h2 : Mild E b c) :
    Mild E a c := by
  refine ⟨h2.1.trans h1.1, le_trans h1.2.1 h2.2.1, ?_⟩
  rcases h2.2.2 with hc | ⟨hb, j, hj, hc⟩
  · rcases h1.2.2 with hb | ⟨ha, j, hj, hb⟩
    · exact Or.inl (hc.trans hb)
    · exact Or.inr ⟨ha, j, hj, hc.trans hb⟩
  · rcases h1.2.2 with hb1 | ⟨ha, j1, _, hb1⟩
    · exact Or.inr ⟨hb1.symm.trans hb, j, le_trans h1.2.1 hj, hc⟩
    · rw [hb] at hb1
      cases hb1

theorem settled_of_mild (E : Env) (s s1 : State) (h : Mild E s s1) (hs : Settled E s) :
    Settled E s1 := by
  intro j k hj hk
  rw [h.1]
  rcases h.2.2 with hl | ⟨hn, j0, hj0, hl⟩
  · rw [hl]
    exact hs j k (le_trans h.2.1 hj) (le_trans h.2.1 hk)
  · rw [hl]
    have := hs j0 k hj0 (le_trans h.2.1 hk)
    rw [hn] at this
    exact this

/-- In a settled state `stop` on a running timer returns, whatever the nesting depth
allowed to `display`: its check of `autodisplay` does not trigger. -/
theorem settled_stop (n : Nat) (E : Env) (t : Nat) (v : Bool) (s : State)
    (hs : Settled E s) (hrun : (s.heap t).isRunning = true) :
    ∃ s1, stop n E t v s = Except.ok s1 ∧ Mild E s s1 := by
  have hC := (calm_alloc E).toCore
  have h7 : Calm s (stopRecord E t v (stopClock E t s)) :=
    hC.trans _ _ _ (stopClock_sound hC t s trivial) (stopRecord_sound hC t v _ trivial)
  have hrun1 : ((stopClock E t s).heap t).isRunning = true := by
    unfold stopClock
    rw [modify_heap_same]
    exact hrun
  unfold stop stopWith
  rw [if_pos hrun1]
  unfold autodisplayWith
  cases hl : (stopRecord E t v (stopClock E t s)).last_time with
  | some L =>
    dsimp only
    have hL : s.last_time = some L := by rw [← h7.1.1, hl]
    rw [if_neg]
    · exact ⟨_, rfl, mild_of_steady E _ _ ⟨h7.1.1, h7.1.2.1, h7.1.2.2⟩⟩
    · rw [stopRecord_stop_time, h7.1.2.1]
      have := hs s.ticks s.ticks (le_refl _) (le_refl _)
      rw [hL] at this
      exact not_lt.mpr this
  | none =>
    dsimp only
    have hL : s.last_time = none := by rw [← h7.1.1, hl]
    rw [if_neg]
    · refine ⟨_, rfl, h7.1.2.1, le_trans h7.1.2.2 (Nat.le_succ _), Or.inr ⟨hL, _, h7.1.2.2, rfl⟩⟩
    · rw [stopRecord_stop_time]
      have := hs (stopRecord E t v (stopClock E t s)).ticks s.ticks h7.1.2.2 (le_refl _)
      rw [hL] at this
      show ¬ E.clock s.ticks - E.clock (stopRecord E t v (stopClock E t s)).ticks >
        (stopRecord E t v (stopClock E t s)).minimum_autodisplay_interval
      rw [h7.1.2.1]
      exact not_lt.mpr this

theorem settled_start (E : Env) (t : Nat) (v : Bool) (s : State) (hs : Settled E s) :
    Settled E (start E t v s) :=
  settled_of_mild E _ _
    (mild_of_steady E _ _ (start_sound (steady_alloc E).toCore t v s trivial)) hs

theorem settled_of_bounds (E : Env) (s : State) (lo hi : ℚ)
    (hb : ∀ k, lo ≤ E.clock k ∧ E.clock k ≤ hi) (hl : ∀ L, s.last_time = some L → lo ≤ L)
    (hI : hi - lo ≤ s.minimum_autodisplay_interval) : Settled E s := by
  intro j k _ _
  cases h : s.last_time with
  | none =>
    simp only [Option.getD_none]
    linarith [(hb k).2, (hb j).1]
  | some L =>
    simp only [Option.getD_some]
    linarith [(hb k).2, hl L h]

theorem envWork_bounds (k : Nat) : 0 ≤ envWork.clock k ∧ envWork.clock k ≤ 4 := by
  simp only [envWork]
  split_ifs <;> norm_num

theorem settled_stateWorkNoFlops : Settled envWork stateWorkNoFlops :=
  settled_of_bounds envWork stateWorkNoFlops 0 4 envWork_bounds
    (fun L h => by
      have h0 : stateWorkNoFlops.last_time = none := by decide!
      rw [h0] at h
      cases h)
    (by
      have h0 : stateWorkNoFlops.minimum_autodisplay_interval = 60 := by decide!
      rw [h0]
      norm_num)

theorem measure_returns (n : Nat) (E : Env) (t : Nat) (p : Pair) (s : State)
    (hs : Settled E s) (hidle : (s.heap t).isRunning = false) :
    ∃ s1, measure n E t p s = Except.ok s1 ∧ Settled E s1 ∧
      (s1.heap t).isRunning = false := by
  have h1 : Settled E (addFlops t p.ops (start E t p.vstart s)) :=
    settled_of_mild E _ _
      (mild_of_steady E _ _ (addFlops_sound (steady_alloc E).toCore t _ _ trivial))
      (settled_start E t _ s hs)
  have hrun : ((addFlops t p.ops (start E t p.vstart s)).heap t).isRunning = true := by
    unfold addFlops
    rw [modify_heap_same]
    exact (start_idle E t p.vstart s hidle).1
  obtain ⟨s1, hok, hm⟩ := settled_stop n E t p.vstop _ h1 hrun
  exact ⟨s1, hok, settled_of_mild E _ _ hm h1, stop_ok_idle n E t _ _ s1 hok⟩

theorem measures_returns (n : Nat) (E : Env) (t : Nat) (ps : List Pair) (s : State)
    (hs : Settled E s) (hidle : (s.heap t).isRunning = false) :
    ∃ s1, measures n E t ps s = Except.ok s1 := by
  induction ps generalizing s with
  | nil => exact ⟨s, rfl⟩
  | cons p ps ih =>
    obtain ⟨s1, hok, hs1, hi1⟩ := measure_returns n E t p s hs hidle
    obtain ⟨s2, hok2⟩ := ih s1 hs1 hi1
    refine ⟨s2, ?_⟩
    unfold measures
    rw [hok]
    exact hok2

/-! ## The name field -/

theorem showLast_out (E : Env) (hr : E.rank = 0) (i : TimerInfo) (tag : String) (s : State) :
    ∃ l : Line, (showLast E i tag s).out = s.out ++ [l] ∧ l.cname = "Timer" ∧ l.fname = tag ∧
      l.body = Body.last (nameField i.fname)
        ((fdiv (some i.accumulated_time) (some (getTotalTime E s).1)).map (· * 100))
        i.call_times i.dtime
        (fdiv (fdiv (some (i.dflops : ℚ)) i.dtime) (some 1000000000)) i.dflops := by
  refine ⟨⟨"Timer", tag, Body.last (nameField i.fname)
    ((fdiv (some i.accumulated_time) (some (getTotalTime E s).1)).map (· * 100))
    i.call_times i.dtime
    (fdiv (fdiv (some (i.dflops : ℚ)) i.dtime) (some 1000000000)) i.dflops⟩, ?_, rfl, rfl, rfl⟩
  unfold showLast DisplayInfo
  rw [if_neg (by simp [hr]), getTotalTime_out]

theorem nameField_length (fname : String) : (nameField fname).length = 30 := by
  have h1 : (((cBytes fname).take 30).takeWhile (· ≠ 0)).length ≤
      ((cBytes fname).take 30).length := (List.takeWhile_prefix _).length_le
  have h2 : ((cBytes fname).take 30).length ≤ 30 := List.length_take_le 30 _
  unfold nameField
  rw [List.leftpad_length]
  exact max_eq_left (le_trans h1 h2)

theorem nameField_formula (fname : String) :
    nameField fname =
      List.replicate (30 - (((cBytes fname).take 30).takeWhile (· ≠ 0)).length) 32 ++
        ((cBytes fname).take 30).takeWhile (· ≠ 0) := rfl

theorem nameField_noNul (fname : String) (h : (0 : UInt8) ∉ (cBytes fname).take 30) :
    nameField fname = List.leftpad 30 32 ((cBytes fname).take 30) := by
  unfold nameField
  rw [List.takeWhile_eq_self_iff.mpr]
  intro b hb
  exact decide_eq_true (fun hc => h (hc ▸ hb))

theorem nameField_long (fname : String) (h : (0 : UInt8) ∉ (cBytes fname).take 30)
    (hl : 30 ≤ (cBytes fname).length) : nameField fname = (cBytes fname).take 30 := by
  have h1 : ((cBytes fname).take 30).length = 30 := by
    rw [List.length_take]
    exact min_eq_left hl
  rw [nameField_noNul fname h]
  show List.replicate (30 - ((cBytes fname).take 30).length) 32 ++ _ = _
  rw [h1]
  rfl

theorem nameField_short (fname : String) (h : (0 : UInt8) ∉ (cBytes fname).take 30)
    (hl : (cBytes fname).length < 30) :
    nameField fname =
      List.replicate (30 - (cBytes fname).length) 32 ++ cBytes fname := by
  have h1 : (cBytes fname).take 30 = cBytes fname := List.take_of_length_le (le_of_lt hl)
  rw [nameField_noNul fname h]
  show List.replicate (30 - ((cBytes fname).take 30).length) 32 ++ _ = _
  rw [h1]

theorem utf8EncodeChar_ascii (c : Char) (h : c.val ≤ 0x7f) :
    String.utf8EncodeChar c = [c.val.toUInt8] := by
  simp [String.utf8EncodeChar, h]

theorem flatMap_ascii (l : List Char) (h : ∀ c ∈ l, c.val ≤ 0x7f) :
    l.flatMap String.utf8EncodeChar = l.map fun c => c.val.toUInt8 := by
  induction l with
  | nil => rfl
  | cons c l ih =>
    rw [List.flatMap_cons, List.map_cons, utf8EncodeChar_ascii c (h c (List.mem_cons_self _ _)),
      ih (fun x hx => h x (List.mem_cons_of_mem _ hx))]
    rfl

/-- For a name of ASCII characters without NUL, the bytes written are the characters of the
field in the words of the specification. -/
theorem nameField_ascii (fname : String) (ha : Ascii fname)
    (h0 : (0 : UInt8) ∉ cBytes fname) : nameField fname = cBytes (specNameField fname) := by
  have hb : cBytes fname = fname.data.map fun c => c.val.toUInt8 := flatMap_ascii _ ha
  have hn : (0 : UInt8) ∉ (cBytes fname).take 30 := fun hc => h0 (List.mem_of_mem_take hc)
  have hs : cBytes (specNameField fname) =
      (List.leftpad 30 ' ' (fname.data.take 30)).map fun c => c.val.toUInt8 := by
    refine flatMap_ascii _ (fun c hc => ?_)
    rcases List.mem_append.mp hc with h1 | h1
    · rw [List.eq_of_mem_replicate h1]
      decide
    · exact ha c (List.mem_of_mem_take h1)
  rw [nameField_noNul fname hn, hs, hb, ← List.map_take]
  show List.replicate (30 - ((fname.data.take 30).map _).length) 32 ++ _ =
    (List.replicate (30 - (fname.data.take 30).length) ' ' ++ fname.data.take 30).map _
  rw [List.map_append, List.map_replicate, List.length_map]
  rfl

/-! ## Calls on one timer -/

theorem start_user (E : Env) (t u : Nat) (v : Bool) (s : State) (hu : User s u) :
    User (start E t v s) u :=
  start_sound (user_prim E u).toAlloc.toCore t v s trivial hu

theorem step_on_calls (n : Nat) (E : Env) (t : Nat) (o : Op) (s s1 : State) (hu : User s t)
    (ho : o.isOn t = true) (h : step n E o s = Except.ok s1) :
    User s1 t ∧
      (s1.heap t).info.call_times - pending s1 t =
        (s.heap t).info.call_times - pending s t + countStops [o] := by
  cases o with
  | start u v =>
    have hut : u = t := of_decide_eq_true ho
    subst hut
    cases h
    refine ⟨start_user E u u v s hu, ?_⟩
    cases hrun : (s.heap u).isRunning with
    | true => rw [start_running E u v s hrun]; simp [countStops]
    | false =>
      obtain ⟨h1, h2, -⟩ := start_idle E u v s hrun
      simp [pending, h1, h2, hrun, countStops]
  | stop u v =>
    have hut : u = t := of_decide_eq_true ho
    subst hut
    obtain ⟨hrun, hu1, hheap⟩ := stop_user n E u v s s1 hu h
    refine ⟨hu1, ?_⟩
    have hc := (stopRecord_heap E u v s).2.2.1
    simp [pending, hheap, hrun, hc, countStops]
  | _ => cases ho

theorem countStops_cons (o : Op) (os : List Op) :
    countStops (o :: os) = countStops [o] + countStops os := by
  cases o <;> simp [countStops, Nat.add_comm]

theorem run_on_calls (n : Nat) (E : Env) (t : Nat) (ops : List Op) (s s1 : State)
    (hu : User s t) (hops : ∀ o ∈ ops, o.isOn t = true) (h : run n E ops s = Except.ok s1) :
    User s1 t ∧
      (s1.heap t).info.call_times - pending s1 t =
        (s.heap t).info.call_times - pending s t + countStops ops := by
  induction ops generalizing s with
  | nil => cases h; exact ⟨hu, by simp [countStops]⟩
  | cons o os ih =>
    unfold run at h
    split at h
    · cases h
    · rename_i s2 hs2
      obtain ⟨hu2, h2⟩ := step_on_calls n E t o s s2 hu (hops o (List.mem_cons_self _ _)) hs2
      obtain ⟨hu1, h1⟩ := ih s2 hu2 (fun x hx => hops x (List.mem_cons_of_mem _ hx)) h
      refine ⟨hu1, ?_⟩
      rw [h1, h2, countStops_cons o os]
      push_cast
      ring

/-! ## Output, trigger log and clock only grow -/

theorem grows_refl (s : State) : Grows s s :=
  ⟨List.prefix_refl _, List.prefix_refl _, le_refl _⟩

theorem grows_DisplayInfo (E : Env) (l : Line) (s : State) : Grows s (DisplayInfo E l s) := by
  unfold DisplayInfo
  split
  · exact grows_refl s
  · exact ⟨List.prefix_append _ _, List.prefix_refl _, le_refl _⟩

theorem grows_alloc (E : Env) : Alloc E (fun _ => True) Grows where
  refl := grows_refl
  trans := fun _ _ _ h1 h2 => ⟨h1.1.trans h2.1, h1.2.1.trans h2.2.1, h1.2.2.trans h2.2.2⟩
  ticks := fun _ => ⟨List.prefix_refl _, List.prefix_refl _, Nat.le_succ _⟩
  startTime := fun _ _ => grows_refl _
  flopReads := fun _ => grows_refl _
  out := fun s l _ => grows_DisplayInfo E l s
  modify := fun _ _ _ _ _ => grows_refl _
  papiInitialized := fun _ _ => grows_refl _
  alloc := fun _ _ _ _ => grows_refl _

theorem grows_prim (E : Env) : Prim E (fun _ => True) Grows where
  toAlloc := grows_alloc E
  lastInit := fun _ _ => ⟨List.prefix_refl _, List.prefix_refl _, Nat.le_succ _⟩
  trigger := fun _ _ _ _ _ => ⟨List.prefix_refl _, List.prefix_append _ _, le_refl _⟩
  banner := fun s _ _ _ _ => grows_DisplayInfo E _ s
  statics := fun s hd h0 h1 h2 =>
    statics_of_coarse (grows_alloc E) s hd (fun _ _ _ => grows_refl _) h0 h1 h2

theorem displayN_grows (n : Nat) (E : Env) (str : String) (s s1 : State)
    (h : displayN n E str s = Except.ok s1) : Grows s s1 :=
  displayN_sound (grows_prim E) n str s s1 (ready_true s) h

/-! ## The lines of one `stop` -/

theorem stopClock_out (E : Env) (t : Nat) (s : State) : (stopClock E t s).out = s.out := rfl

theorem stopFlops_out (E : Env) (t : Nat) (s : State) : (stopFlops E t s).out = s.out := by
  unfold stopFlops getTotalFlops
  split_ifs <;> rfl

theorem stopInfo_out (t : Nat) (s : State) : (stopInfo t s).out = s.out := rfl

theorem stopInfo_config (t : Nat) (s : State) :
    (stopInfo t s).minimum_duration_for_show_stop_info =
      s.minimum_duration_for_show_stop_info := rfl

theorem stopInfo_stopFlops_heap (E : Env) (t : Nat) (v : Bool) (s : State) :
    ((stopInfo t (stopFlops E t (stopClock E t s))).heap t).info =
      ((stopRecord E t v (stopClock E t s)).heap t).info := by
  unfold stopRecord
  rw [stopShow_heap]

theorem stopRecord_out (E : Env) (hr : E.rank = 0) (t : Nat) (v : Bool) (s : State) :
    ∃ total : ℚ, (stopRecord E t v (stopClock E t s)).out = s.out ++
      if v = true ∨ ((stopRecord E t v (stopClock E t s)).heap t).info.call_times = 1 ∨
          geDouble ((stopRecord E t v (stopClock E t s)).heap t).info.dtime
            s.minimum_duration_for_show_stop_info = true then
        [lastLine ((stopRecord E t v (stopClock E t s)).heap t).info "stop " total]
      else [] := by
  have hcfg : (stopInfo t (stopFlops E t (stopClock E t s))).minimum_duration_for_show_stop_info
      = s.minimum_duration_for_show_stop_info := by
    rw [stopInfo_config]
    unfold stopFlops getTotalFlops
    split_ifs <;> rfl
  have hout : (stopInfo t (stopFlops E t (stopClock E t s))).out = s.out := by
    rw [stopInfo_out, stopFlops_out, stopClock_out]
  rw [← stopInfo_stopFlops_heap E t v s]
  unfold stopRecord stopShow
  rw [hcfg]
  by_cases hc : v = true ∨
      ((stopInfo t (stopFlops E t (stopClock E t s))).heap t).info.call_times = 1 ∨
      geDouble ((stopInfo t (stopFlops E t (stopClock E t s))).heap t).info.dtime
        s.minimum_duration_for_show_stop_info = true
  · refine ⟨(getTotalTime E (stopInfo t (stopFlops E t (stopClock E t s)))).1, ?_⟩
    rw [if_pos hc, if_pos (by simpa [or_assoc] using hc)]
    unfold showLast DisplayInfo
    rw [if_neg (by simp [hr]), getTotalTime_out, hout]
    rfl
  · refine ⟨0, ?_⟩
    rw [if_neg hc, if_neg (by simpa [and_assoc] using hc), hout, List.append_nil]

/-! ## The spacing of automatic dumps -/

theorem step_sound_fixed {E : Env} {R : State → State → Prop}
    (hP : Prim E (fun _ => True) R)
    (h2 : ∀ s x, R s { s with minimum_duration_for_show_stop_info := x })
    (h3 : ∀ s x, R s { s with minimum_duration_for_show_start_info := x })
    (n : Nat) (o : Op) (s s1 : State) (hk : o.keepsInterval = true)
    (h : step n E o s = Except.ok s1) : R s s1 := by
  have hC := hP.toAlloc.toCore
  cases o with
  | construct => cases h; exact init_sound hP.toAlloc s trivial
  | constructNamed f => cases h; exact constructNamed_sound hP.toAlloc f s trivial
  | constructQualified c f => cases h; exact constructQualified_sound hP.toAlloc c f s trivial
  | constructFlops f b => cases h; exact constructFlops_sound hP.toAlloc f b s trivial
  | start t v => cases h; exact start_sound hC t v s trivial
  | stop t v => exact stop_sound hP n t v s s1 trivial (ready_true s) h
  | addFlops t k => cases h; exact addFlops_sound hC t k s trivial
  | showLast t i => cases h; exact showLast_sound hC _ _ s
  | showAvg t i => cases h; exact showAvg_sound hC _ _ s
  | display str => exact displayN_sound hP n str s s1 (ready_true s) h
  | autodisplay time => exact autodisplay_sound hP n time s s1 (ready_true s) h
  | autodisplayNow =>
    exact hP.trans _ _ _ (getTime_sound hC s)
      (autodisplay_sound hP n _ _ s1 (ready_true _) h)
  | setAutodisplayInterval x => cases hk
  | setStopThreshold x => cases h; exact h2 s _
  | setStartThreshold x => cases h; exact h3 s _

theorem run_sound_fixed {E : Env} {R : State → State → Prop}
    (hP : Prim E (fun _ => True) R)
    (h2 : ∀ s x, R s { s with minimum_duration_for_show_stop_info := x })
    (h3 : ∀ s x, R s { s with minimum_duration_for_show_start_info := x })
    (n : Nat) (os : List Op) (s s1 : State) (hk : ∀ o ∈ os, o.keepsInterval = true)
    (h : run n E os s = Except.ok s1) : R s s1 := by
  induction os generalizing s with
  | nil => cases h; exact hP.refl _
  | cons o os ih =>
    unfold run at h
    split at h
    · cases h
    · rename_i s2 hs2
      exact hP.trans _ _ _
        (step_sound_fixed hP h2 h3 n o s s2 (hk o (List.mem_cons_self _ _)) hs2)
        (ih s2 (fun x hx => hk x (List.mem_cons_of_mem _ hx)) h)

theorem spacedLog_DisplayInfo (E : Env) (I : ℚ) (l : Line) (s : State) (h : SpacedLog I s) :
    SpacedLog I (DisplayInfo E l s) := by
  unfold DisplayInfo
  split <;> exact h

theorem spaced_alloc (E : Env) (I : ℚ) :
    Alloc E (fun _ => True) (fun s s1 => SpacedLog I s → SpacedLog I s1) where
  refl := fun _ h => h
  trans := fun _ _ _ h1 h2 h => h2 (h1 h)
  ticks := fun _ h => h
  startTime := fun _ _ h => h
  flopReads := fun _ h => h
  out := fun s l _ h => spacedLog_DisplayInfo E I l s h
  modify := fun _ _ _ _ _ h => h
  papiInitialized := fun _ _ h => h
  alloc := fun _ _ _ _ h => h

theorem spaced_prim (E : Env) (I : ℚ) :
    Prim E (fun _ => True) (fun s s1 => SpacedLog I s → SpacedLog I s1) where
  toAlloc := spaced_alloc E I
  lastInit := fun s hn h => ⟨h.1, h.2.1, fun d hd => by
    have := h.2.2 d hd
    rw [hn] at this
    cases this⟩
  trigger := fun s L time hL hc h => by
    refine ⟨h.1, ?_, fun d hd => ?_⟩
    · refine List.Chain'.append h.2.1 (List.chain'_singleton _) ?_
      intro x hx y hy
      have hx1 : s.last_time = some x := h.2.2 x hx
      rw [hL] at hx1
      cases hx1
      cases hy
      rw [← h.1]
      exact hc
    · have hd2 : (s.triggered ++ [time]).getLast? = some d := hd
      rw [List.getLast?_append, List.getLast?_singleton] at hd2
      cases hd2
      rfl
  banner := fun s _ _ _ _ h => spacedLog_DisplayInfo E I _ s h
  statics := fun s hd h0 h1 h2 =>
    statics_of_coarse (spaced_alloc E I) s hd (fun _ _ _ h => h) h0 h1 h2

theorem autodisplay_rule (n : Nat) (E : Env) (time : ℚ) (s : State) (L : ℚ)
    (hL : s.last_time = some L) :
    autodisplay n E time s =
      if time - L > s.minimum_autodisplay_interval then
        display n E "autodisplay"
          { s with last_time := some time, triggered := s.triggered ++ [time] }
      else Except.ok s := by
  unfold autodisplay autodisplayWith display
  simp only [hL]

theorem autodisplay_first (n : Nat) (E : Env) (time : ℚ) (s : State)
    (hL : s.last_time = none) :
    autodisplay n E time s =
      if time - E.clock s.ticks > s.minimum_autodisplay_interval then
        display n E "autodisplay"
          { s with ticks := s.ticks + 1, last_time := some time,
                   triggered := s.triggered ++ [time] }
      else Except.ok { s with ticks := s.ticks + 1, last_time := some (E.clock s.ticks) } := by
  unfold autodisplay autodisplayWith display getTime
  simp only [hL]

/-! ## Calls that trigger no dump -/

theorem untriggered_alloc (E : Env) :
    Alloc E (fun _ => True) (fun s s1 => s1.triggered = s.triggered) where
  refl := fun _ => rfl
  trans := fun _ _ _ h1 h2 => h2.trans h1
  ticks := fun _ => rfl
  startTime := fun _ _ => rfl
  flopReads := fun _ => rfl
  out := fun s l _ => by
    unfold DisplayInfo
    split <;> rfl
  modify := fun _ _ _ _ _ => rfl
  papiInitialized := fun _ _ => rfl
  alloc := fun _ _ _ _ => rfl

theorem stopClock_running (E : Env) (t : Nat) (s : State) :
    ((stopClock E t s).heap t).isRunning = (s.heap t).isRunning := by
  unfold stopClock
  rw [modify_heap_same]
  rfl

/-- The first `stop` of a process (the static of `autodisplay` is not initialised), on a
clock that does not go back and with a non-negative interval, returns without a dump. -/
theorem first_stop (n : Nat) (E : Env) (t : Nat) (v : Bool) (s : State)
    (hn : s.last_time = none)
    (hmono : ∀ j k, s.ticks ≤ j → j ≤ k → E.clock j ≤ E.clock k)
    (hI : 0 ≤ s.minimum_autodisplay_interval) (hrun : (s.heap t).isRunning = true) :
    ∃ s1, stop n E t v s = Except.ok s1 ∧ s1.triggered = s.triggered ∧
      countDumps s1.out = countDumps s.out ∧
      ∃ k, s.ticks < k ∧ s1.last_time = some (E.clock k) := by
  have hC := (calm_alloc E).toCore
  have hU := (untriggered_alloc E).toCore
  have h6 : Calm (stopClock E t s) (stopRecord E t v (stopClock E t s)) :=
    stopRecord_sound hC t v _ trivial
  have h7 : Calm s (stopRecord E t v (stopClock E t s)) :=
    hC.trans _ _ _ (stopClock_sound hC t s trivial) h6
  have hu7 : (stopRecord E t v (stopClock E t s)).triggered = s.triggered :=
    hU.trans _ _ _ (stopClock_sound hU t s trivial) (stopRecord_sound hU t v _ trivial)
  have hticks : s.ticks < (stopRecord E t v (stopClock E t s)).ticks :=
    lt_of_lt_of_le (Nat.lt_succ_self _) h6.1.2.2
  have hl : (stopRecord E t v (stopClock E t s)).last_time = none := by rw [h7.1.1, hn]
  unfold stop stopWith
  rw [if_pos ((stopClock_running E t s).trans hrun)]
  unfold autodisplayWith
  simp only [hl]
  rw [if_neg]
  · exact ⟨_, rfl, hu7, h7.2, _, hticks, rfl⟩
  · rw [stopRecord_stop_time]
    show ¬ E.clock s.ticks - E.clock (stopRecord E t v (stopClock E t s)).ticks >
      (stopRecord E t v (stopClock E t s)).minimum_autodisplay_interval
    rw [h7.1.2.1]
    have := hmono s.ticks _ (le_refl _) (le_of_lt hticks)
    linarith

theorem envTick_mono (j k : Nat) (h : j ≤ k) : envTick.clock j ≤ envTick.clock k := by
  show ((j : ℕ) : ℚ) ≤ ((k : ℕ) : ℚ)
  exact_mod_cast h

/-! ## Accumulators on a clock that does not go back -/

theorem step_on_sane (n : Nat) (E : Env) (t : Nat) (o : Op) (s s1 : State)
    (hmono : ∀ j k, j ≤ k → E.clock j ≤ E.clock k) (hu : User s t) (hs : Sane E s t)
    (ho : o.isOn t = true) (h : step n E o s = Except.ok s1) :
    User s1 t ∧ Sane E s1 t ∧
      (s.heap t).info.accumulated_time ≤ (s1.heap t).info.accumulated_time ∧
      (s.heap t).info.call_times ≤ (s1.heap t).info.call_times ∧
      ((s.heap t).info.dtime ≠ none ∨ 0 < countStops [o] →
        (s1.heap t).info.dtime ≠ none) := by
  cases o with
  | start u v =>
    have hut : u = t := of_decide_eq_true ho
    subst hut
    cases h
    refine ⟨start_user E u u v s hu, ?_⟩
    cases hrun : (s.heap u).isRunning with
    | true =>
      rw [start_running E u v s hrun]
      exact ⟨hs, le_refl _, le_refl _, fun hd => hd.elim id (fun hc => (Nat.lt_irrefl 0 hc).elim)⟩
    | false =>
      obtain ⟨h1, h2, -, h4, -, h6⟩ := start_idle E u v s hrun
      refine ⟨⟨?_, ?_, fun _ => ⟨(start E u v s).ticks - 1, by omega, h4⟩⟩, ?_, ?_, ?_⟩
      · rw [h2]; exact hs.1
      · rw [h2]; exact hs.2.1
      · rw [h2]
      · rw [h2]; show (s.heap u).info.call_times ≤ (s.heap u).info.call_times + 1; omega
      · rw [h2]
        exact fun hd => hd.elim id (fun hc => (Nat.lt_irrefl 0 hc).elim)
  | stop u v =>
    have hut : u = t := of_decide_eq_true ho
    subst hut
    obtain ⟨hrun, hu1, hheap⟩ := stop_user n E u v s s1 hu h
    obtain ⟨-, -, h3, -, h5, h6, -, -⟩ := stopRecord_heap E u v s
    obtain ⟨j, hj, hst⟩ := hs.2.2 hrun
    have hd : 0 ≤ E.clock s.ticks - (s.heap u).start_time := by
      rw [hst]
      exact sub_nonneg.mpr (hmono j s.ticks (le_of_lt hj))
    have hi : (s1.heap u).info = ((stopRecord E u v (stopClock E u s)).heap u).info := by
      rw [hheap]
    have hr1 : (s1.heap u).isRunning = false := by rw [hheap]
    refine ⟨hu1, ⟨?_, ?_, fun hc => ?_⟩, ?_, ?_, fun _ => ?_⟩
    · rw [hi, h6]; exact add_nonneg hs.1 hd
    · intro d hdd
      rw [hi, h5] at hdd
      cases hdd
      exact hd
    · rw [hr1] at hc; cases hc
    · rw [hi, h6]; linarith
    · rw [hi, h3]
    · rw [hi, h5]; exact fun hc => by cases hc
  | _ => cases ho

theorem run_on_sane (n : Nat) (E : Env) (t : Nat) (ops : List Op) (s s1 : State)
    (hmono : ∀ j k, j ≤ k → E.clock j ≤ E.clock k) (hu : User s t) (hs : Sane E s t)
    (hops : ∀ o ∈ ops, o.isOn t = true) (h : run n E ops s = Except.ok s1) :
    User s1 t ∧ Sane E s1 t ∧
      (s.heap t).info.accumulated_time ≤ (s1.heap t).info.accumulated_time ∧
      (s.heap t).info.call_times ≤ (s1.heap t).info.call_times ∧
      ((s.heap t).info.dtime ≠ none ∨ 0 < countStops ops →
        (s1.heap t).info.dtime ≠ none) := by
  induction ops generalizing s with
  | nil =>
    cases h
    exact ⟨hu, hs, le_refl _, le_refl _, fun hd => hd.elim id (fun hc => (Nat.lt_irrefl 0 hc).elim)⟩
  | cons o os ih =>
    unfold run at h
    split at h
    · cases h
    · rename_i s2 hs2
      obtain ⟨hu2, hs2a, ha2, hc2, hd2⟩ :=
        step_on_sane n E t o s s2 hmono hu hs (hops o (List.mem_cons_self _ _)) hs2
      obtain ⟨hu1, hs1, ha1, hc1, hd1⟩ :=
        ih s2 hu2 hs2a (fun x hx => hops x (List.mem_cons_of_mem _ hx)) h
      refine ⟨hu1, hs1, le_trans ha2 ha1, le_trans hc2 hc1, fun hd => hd1 ?_⟩
      rw [countStops_cons o os] at hd
      by_cases hz : 0 < countStops os
      · exact Or.inr hz
      · exact Or.inl (hd2 (hd.elim Or.inl (fun hp => Or.inr (by omega))))

theorem dump_frame_now (n : Nat) (E : Env) (u : Nat) (s s1 : State) (hu : User s u)
    (h : autodisplayNow n E s = Except.ok s1) : s1.heap u = s.heap u := by
  have hu1 : User (getTime E s).2 u := hu
  unfold autodisplayNow at h
  exact autodisplay_sound (frame_prim E u) n _ (getTime E s).2 s1 (ready_of_user hu1) h

/-! ## The self-measurement of the dump -/

theorem view_setFlag (t : Nat) (b : Bool) (s : State) (u : Nat) :
    view (setFlag t b s) u = view s u := by
  unfold view setFlag
  by_cases h : u = t
  · subst h
    rw [modify_heap_same]
  · rw [modify_heap_other s t u _ h]

theorem view_start_other (E : Env) (t u : Nat) (v : Bool) (s : State) (h : u ≠ t) :
    view (start E t v s) u = view s u := by
  unfold view
  rw [show (start E t v s).heap u = s.heap u from
    start_sound (frame_alloc E u).toCore t v s (Ne.symm h)]

theorem view_start_self (E : Env) (t : Nat) (v : Bool) (s : State)
    (h : (view s t).2 = false) : view (start E t v s) t = ((view s t).1 + 1, true) := by
  obtain ⟨h1, h2, -⟩ := start_idle E t v s h
  unfold view
  rw [h1, h2]

theorem autodisplayWith_noDisplay (E : Env) (time : ℚ) (s : State) :
    ∃ s8, autodisplayWith noDisplay E time s = Except.ok s8 ∧ s8.heap = s.heap := by
  unfold autodisplayWith noDisplay
  cases s.last_time <;> dsimp only <;> split <;> exact ⟨_, rfl, rfl⟩

theorem stopWith_view (E : Env) (disp : String → State → Except Err State) (t : Nat)
    (v : Bool) (s s1 : State)
    (hheap : ∀ s8, autodisplayWith disp E
        ((stopRecord E t v (stopClock E t s)).heap t).stop_time
        (stopRecord E t v (stopClock E t s)) = Except.ok s8 →
      s8.heap = (stopRecord E t v (stopClock E t s)).heap)
    (h : stopWith disp E t v s = Except.ok s1) :
    view s1 t = ((view s t).1, false) ∧ ∀ u, u ≠ t → view s1 u = view s u := by
  unfold stopWith at h
  split at h
  swap
  · cases h
  split at h
  · cases h
  rename_i s8 h8
  cases h
  have h8h := hheap s8 h8
  refine ⟨?_, fun u hu => ?_⟩
  · unfold view
    rw [modify_heap_same, h8h]
    show (((stopRecord E t v (stopClock E t s)).heap t).info.call_times, false) = _
    rw [(stopRecord_heap E t v s).2.2.1]
  · unfold view
    rw [modify_heap_other _ t u _ hu, h8h]
    have hf : (stopRecord E t v (stopClock E t s)).heap u = s.heap u :=
      (frame_alloc E u).toCore.trans _ _ _
        (stopClock_sound (frame_alloc E u).toCore t s (Ne.symm hu))
        (stopRecord_sound (frame_alloc E u).toCore t v _ (Ne.symm hu))
    rw [hf]

theorem stopWith_noDisplay (E : Env) (t : Nat) (v : Bool) (s : State)
    (hrun : (view s t).2 = true) :
    ∃ s1, stopWith noDisplay E t v s = Except.ok s1 ∧ True ∧
      view s1 t = ((view s t).1, false) ∧ ∀ u, u ≠ t → view s1 u = view s u := by
  have hex : ∃ s1, stopWith noDisplay E t v s = Except.ok s1 := by
    unfold stopWith
    rw [if_pos ((stopClock_running E t s).trans hrun)]
    obtain ⟨s8, h8, -⟩ := autodisplayWith_noDisplay E
      ((stopRecord E t v (stopClock E t s)).heap t).stop_time
      (stopRecord E t v (stopClock E t s))
    rw [h8]
    exact ⟨_, rfl⟩
  obtain ⟨s1, h1⟩ := hex
  refine ⟨s1, h1, trivial, stopWith_view E noDisplay t v s s1 (fun s8 h8 => ?_) h1⟩
  obtain ⟨s9, h9, h9h⟩ := autodisplayWith_noDisplay E
    ((stopRecord E t v (stopClock E t s)).heap t).stop_time
    (stopRecord E t v (stopClock E t s))
  rw [h9] at h8
  cases h8
  exact h9h

/-- In a settled state the `display` that `stop` would call is never called. -/
theorem settled_stopWith_congr (E : Env) (disp disp1 : String → State → Except Err State)
    (t : Nat) (v : Bool) (s : State) (hs : Settled E s) :
    stopWith disp E t v s = stopWith disp1 E t v s := by
  have hC := (calm_alloc E).toCore
  have h7 : Calm s (stopRecord E t v (stopClock E t s)) :=
    hC.trans _ _ _ (stopClock_sound hC t s trivial) (stopRecord_sound hC t v _ trivial)
  have hauto : autodisplayWith disp E ((stopRecord E t v (stopClock E t s)).heap t).stop_time
      (stopRecord E t v (stopClock E t s)) =
      autodisplayWith disp1 E ((stopRecord E t v (stopClock E t s)).heap t).stop_time
        (stopRecord E t v (stopClock E t s)) := by
    unfold autodisplayWith
    cases hl : (stopRecord E t v (stopClock E t s)).last_time with
    | some L =>
      dsimp only
      have hL : s.last_time = some L := by rw [← h7.1.1, hl]
      have hno : ¬ ((stopRecord E t v (stopClock E t s)).heap t).stop_time - L >
          (stopRecord E t v (stopClock E t s)).minimum_autodisplay_interval := by
        rw [stopRecord_stop_time, h7.1.2.1]
        have := hs s.ticks s.ticks (le_refl _) (le_refl _)
        rw [hL] at this
        exact not_lt.mpr this
      rw [if_neg hno, if_neg hno]
    | none =>
      dsimp only
      have hL : s.last_time = none := by rw [← h7.1.1, hl]
      have hno : ¬ ((stopRecord E t v (stopClock E t s)).heap t).stop_time -
          (getTime E (stopRecord E t v (stopClock E t s))).1 >
          (getTime E (stopRecord E t v (stopClock E t s))).2.minimum_autodisplay_interval := by
        rw [stopRecord_stop_time]
        have := hs (stopRecord E t v (stopClock E t s)).ticks s.ticks h7.1.2.2 (le_refl _)
        rw [hL] at this
        show ¬ E.clock s.ticks - E.clock (stopRecord E t v (stopClock E t s)).ticks >
          (stopRecord E t v (stopClock E t s)).minimum_autodisplay_interval
        rw [h7.1.2.1]
        exact not_lt.mpr this
      rw [if_neg hno, if_neg hno]
  unfold stopWith
  rw [hauto]

theorem settled_stop_view (n : Nat) (E : Env) (t : Nat) (v : Bool) (s : State)
    (hs : Settled E s) (hrun : (view s t).2 = true) :
    ∃ s1, stop n E t v s = Except.ok s1 ∧ Settled E s1 ∧
      view s1 t = ((view s t).1, false) ∧ ∀ u, u ≠ t → view s1 u = view s u := by
  obtain ⟨s1, h1, hm⟩ := settled_stop n E t v s hs hrun
  have h2 : stopWith noDisplay E t v s = Except.ok s1 := by
    rw [← settled_stopWith_congr E (displayN n E) noDisplay t v s hs]
    exact h1
  obtain ⟨s2, h3, -, hv⟩ := stopWith_noDisplay E t v s hrun
  rw [h2] at h3
  cases h3
  exact ⟨s1, h1, settled_of_mild E s s1 hm hs, hv⟩

theorem probe_view (E : Env) (P : State → Prop)
    {stopF : Nat → Bool → State → Except Err State}
    (hstart : ∀ t v s, P s → P (start E t v s))
    (hstop : ∀ t v s, P s → (view s t).2 = true →
      ∃ s1, stopF t v s = Except.ok s1 ∧ P s1 ∧
        view s1 t = ((view s t).1, false) ∧ ∀ u, u ≠ t → view s1 u = view s u)
    (c : Nat) (s : State) (hs : P s) (hc : (view s c).2 = false) :
    ∃ s1, stopF c false (start E c false s) = Except.ok s1 ∧ P s1 ∧
      view s1 c = ((view s c).1 + 1, false) ∧ ∀ u, u ≠ c → view s1 u = view s u := by
  have h0 := view_start_self E c false s hc
  obtain ⟨s1, h1, hP1, hv1, ho1⟩ :=
    hstop c false (start E c false s) (hstart c false s hs) (by rw [h0])
  refine ⟨s1, h1, hP1, ?_, fun u hu => ?_⟩
  · rw [hv1, h0]
  · rw [ho1 u hu, view_start_other E c u false s hu]

/-- The self-measurement of `display` with a `stop` that returns on every running timer
and changes only `isRunning` of its own timer in the views: it returns, with one more call
of `time` and `time_noflop`, three more of `time_test`, and the three idle. -/
theorem displayProbes_view (E : Env) (P : State → Prop)
    {stopF : Nat → Bool → State → Except Err State}
    (hstart : ∀ t v s, P s → P (start E t v s))
    (hflag : ∀ t b s, P s → P (setFlag t b s))
    (hstop : ∀ t v s, P s → (view s t).2 = true →
      ∃ s1, stopF t v s = Except.ok s1 ∧ P s1 ∧
        view s1 t = ((view s t).1, false) ∧ ∀ u, u ≠ t → view s1 u = view s u)
    (p : Nat × Nat × Nat) (hd : Distinct3 p) (s : State) (hs : P s)
    (ha : (view s p.1).2 = false) (hb : (view s p.2.1).2 = false)
    (hc : (view s p.2.2).2 = false) :
    ∃ s1, displayProbes stopF E p s = Except.ok s1 ∧ P s1 ∧
      view s1 p.1 = ((view s p.1).1 + 1, false) ∧
      view s1 p.2.1 = ((view s p.2.1).1 + 1, false) ∧
      view s1 p.2.2 = ((view s p.2.2).1 + 3, false) := by
  obtain ⟨a, b, c⟩ := p
  obtain ⟨hab, hac, hbc⟩ := hd
  dsimp only at hab hac hbc ha hb hc ⊢
  unfold displayProbes
  dsimp only
  -- the three assignments to the flags
  have P0 : P (setFlag c false (setFlag b false (setFlag a false s))) :=
    hflag _ _ _ (hflag _ _ _ (hflag _ _ _ hs))
  have v0 : ∀ u, view (setFlag c false (setFlag b false (setFlag a false s))) u = view s u :=
    fun u => by rw [view_setFlag, view_setFlag, view_setFlag]
  -- first probe
  obtain ⟨s1, e1, P1, c1, o1⟩ := probe_view E P hstart hstop c _ P0 (by rw [v0]; exact hc)
  rw [e1]
  dsimp only
  rw [v0] at c1
  have a1 : view s1 a = view s a := by rw [o1 a hac, v0]
  have b1 : view s1 b = view s b := by rw [o1 b hbc, v0]
  -- `time.start()`, the flag, second probe
  have Py : P (setFlag c true (start E a false s1)) := hflag _ _ _ (hstart _ _ _ P1)
  have ay : view (setFlag c true (start E a false s1)) a = ((view s a).1 + 1, true) := by
    rw [view_setFlag, view_start_self E a false s1 (by rw [a1]; exact ha), a1]
  have byy : view (setFlag c true (start E a false s1)) b = view s b := by
    rw [view_setFlag, view_start_other E a b false s1 (Ne.symm hab), b1]
  have cy : view (setFlag c true (start E a false s1)) c = ((view s c).1 + 1, false) := by
    rw [view_setFlag, view_start_other E a c false s1 (Ne.symm hac), c1]
  obtain ⟨s2, e2, P2, c2, o2⟩ := probe_view E P hstart hstop c _ Py (by rw [cy])
  rw [e2]
  dsimp only
  rw [cy] at c2
  have a2 : view s2 a = ((view s a).1 + 1, true) := by rw [o2 a hac, ay]
  have b2 : view s2 b = view s b := by rw [o2 b hbc, byy]
  -- `time.stop()`
  obtain ⟨s3, e3, P3, a3, o3⟩ := hstop a false s2 P2 (by rw [a2])
  rw [e3]
  dsimp only
  rw [a2] at a3
  have b3 : view s3 b = view s b := by rw [o3 b (Ne.symm hab), b2]
  have c3 : view s3 c = ((view s c).1 + 1 + 1, false) := by rw [o3 c (Ne.symm hac), c2]
  -- `time_noflop.start()`, the flag, third probe
  have Pz : P (setFlag c false (start E b false s3)) := hflag _ _ _ (hstart _ _ _ P3)
  have az : view (setFlag c false (start E b false s3)) a = ((view s a).1 + 1, false) := by
    rw [view_setFlag, view_start_other E b a false s3 hab, a3]
  have bz : view (setFlag c false (start E b false s3)) b = ((view s b).1 + 1, true) := by
    rw [view_setFlag, view_start_self E b false s3 (by rw [b3]; exact hb), b3]
  have cz : view (setFlag c false (start E b false s3)) c = ((view s c).1 + 1 + 1, false) := by
    rw [view_setFlag, view_start_other E b c false s3 (Ne.symm hbc), c3]
  obtain ⟨s4, e4, P4, c4, o4⟩ := probe_view E P hstart hstop c _ Pz (by rw [cz])
  rw [e4]
  dsimp only
  rw [cz] at c4
  have a4 : view s4 a = ((view s a).1 + 1, false) := by rw [o4 a hac, az]
  have b4 : view s4 b = ((view s b).1 + 1, true) := by rw [o4 b hbc, bz]
  -- `time_noflop.stop()`
  obtain ⟨s5, e5, P5, b5, o5⟩ := hstop b false s4 P4 (by rw [b4])
  rw [b4] at b5
  refine ⟨s5, e5, P5, ?_, b5, ?_⟩
  · rw [o5 a hab, a4]
  · rw [o5 c (Ne.symm hbc), c4]
    exact Prod.ext (by show (view s c).1 + 1 + 1 + 1 = (view s c).1 + 3; ring) rfl

theorem length_of_grows {s s1 : State} (h : Grows s s1) :
    s.triggered.length ≤ s1.triggered.length :=
  h.2.1.length_le

theorem stopWith_grows (E : Env) (disp : String → State → Except Err State)
    (hdisp : ∀ str a b, disp str a = Except.ok b → Grows a b) (t : Nat) (v : Bool)
    (s s1 : State) (h : stopWith disp E t v s = Except.ok s1) : Grows s s1 :=
  stopWith_sound (grows_prim E) (fun str a b _ hd => hdisp str a b hd) t v s s1 trivial
    (ready_true s) h

/-- A `stop` that returns with the log of triggers as it was has called no `display`. -/
theorem stopWith_untriggered (E : Env) (disp : String → State → Except Err State)
    (hdisp : ∀ str a b, disp str a = Except.ok b → Grows a b) (t : Nat) (v : Bool)
    (s s1 : State) (h : stopWith disp E t v s = Except.ok s1)
    (ht : s1.triggered.length = s.triggered.length) :
    stopWith noDisplay E t v s = Except.ok s1 := by
  have hU := (untriggered_alloc E).toCore
  have hu7 : (stopRecord E t v (stopClock E t s)).triggered = s.triggered :=
    hU.trans _ _ _ (stopClock_sound hU t s trivial) (stopRecord_sound hU t v _ trivial)
  unfold stopWith at h ⊢
  split at h
  swap
  · cases h
  rename_i hrun
  rw [if_pos hrun]
  split at h
  · cases h
  rename_i s8 h8
  cases h
  have ht8 : s8.triggered.length = (stopRecord E t v (stopClock E t s)).triggered.length := by
    rw [hu7]
    exact ht
  have h9 : autodisplayWith noDisplay E
      ((stopRecord E t v (stopClock E t s)).heap t).stop_time
      (stopRecord E t v (stopClock E t s)) = Except.ok s8 := by
    unfold autodisplayWith at h8 ⊢
    cases hl : (stopRecord E t v (stopClock E t s)).last_time with
    | some L =>
      simp only [hl] at h8 ⊢
      split at h8
      · have hg := length_of_grows (hdisp _ _ _ h8)
        simp only [List.length_append, List.length_singleton] at hg
        omega
      · rename_i hno
        rw [if_neg hno]
        exact h8
    | none =>
      simp only [hl] at h8 ⊢
      split at h8
      · have hg := length_of_grows (hdisp _ _ _ h8)
        simp only [List.length_append, List.length_singleton] at hg
        have hgt : (getTime E (stopRecord E t v (stopClock E t s))).2.triggered =
          (stopRecord E t v (stopClock E t s)).triggered := rfl
        rw [hgt] at hg
        omega
      · rename_i hno
        rw [if_neg hno]
        exact h8
  rw [h9]

/-- A self-measurement of `display` that returns with the log of triggers as it was is the
self-measurement with the `stop` that calls no `display`. -/
theorem displayProbes_untriggered (E : Env) (disp : String → State → Except Err State)
    (hdisp : ∀ str a b, disp str a = Except.ok b → Grows a b) (p : Nat × Nat × Nat)
    (s s1 : State) (h : displayProbes (stopWith disp E) E p s = Except.ok s1)
    (ht : s1.triggered = s.triggered) :
    displayProbes (stopWith noDisplay E) E p s = Except.ok s1 := by
  have hG := (grows_alloc E).toCore
  unfold displayProbes at h ⊢
  dsimp only at h ⊢
  have g0 := length_of_grows
    (hG.trans _ _ _ (hG.trans _ _ _ (hG.trans _ _ _ (setFlag_sound hG p.1 false s trivial)
      (setFlag_sound hG p.2.1 false _ trivial)) (setFlag_sound hG p.2.2 false _ trivial))
      (start_sound hG p.2.2 false _ trivial))
  split at h
  · cases h
  rename_i a1 h1
  have g1 := length_of_grows (stopWith_grows E disp hdisp _ _ _ _ h1)
  have g1' := length_of_grows
    (hG.trans _ _ _ (hG.trans _ _ _ (start_sound hG p.1 false a1 trivial)
      (setFlag_sound hG p.2.2 true _ trivial)) (start_sound hG p.2.2 false _ trivial))
  split at h
  · cases h
  rename_i a2 h2
  have g2 := length_of_grows (stopWith_grows E disp hdisp _ _ _ _ h2)
  split at h
  · cases h
  rename_i a3 h3
  have g3 := length_of_grows (stopWith_grows E disp hdisp _ _ _ _ h3)
  have g3' := length_of_grows
    (hG.trans _ _ _ (hG.trans _ _ _ (start_sound hG p.2.1 false a3 trivial)
      (setFlag_sound hG p.2.2 false _ trivial)) (start_sound hG p.2.2 false _ trivial))
  split at h
  · cases h
  rename_i a4 h4
  have g4 := length_of_grows (stopWith_grows E disp hdisp _ _ _ _ h4)
  have g5 := length_of_grows (stopWith_grows E disp hdisp _ _ _ _ h)
  have hlen : s1.triggered.length = s.triggered.length := by rw [ht]
  rw [stopWith_untriggered E disp hdisp _ _ _ _ h1 (by omega)]
  dsimp only
  rw [stopWith_untriggered E disp hdisp _ _ _ _ h2 (by omega)]
  dsimp only
  rw [stopWith_untriggered E disp hdisp _ _ _ _ h3 (by omega)]
  dsimp only
  rw [stopWith_untriggered E disp hdisp _ _ _ _ h4 (by omega)]
  dsimp only
  exact stopWith_untriggered E disp hdisp _ _ _ _ h (by omega)

theorem displayReport_heap (E : Env) (str : String) (s : State) :
    (displayReport E str s).heap = s.heap :=
  displayReport_sound (heapSame_core E)
    (fun s _ _ _ _ => by
      unfold DisplayInfo
      split <;> rfl) str s

theorem displayReport_triggered (E : Env) (str : String) (s : State) :
    (displayReport E str s).triggered = s.triggered :=
  displayReport_sound (untriggered_alloc E).toCore
    (fun s _ _ _ _ => by
      unfold DisplayInfo
      split <;> rfl) str s

theorem displayStatics_triggered (E : Env) (s : State) :
    (displayStatics E s).2.triggered = s.triggered := by
  cases hd : s.displayTimers with
  | none =>
    exact statics_of_coarse (untriggered_alloc E) s hd (fun _ _ _ => rfl) trivial trivial
      trivial
  | some p =>
    unfold displayStatics
    rw [hd]

theorem constructNamed_new (E : Env) (f : String) (s : State) :
    (constructNamed E f s).2.timerDatabase = s.timerDatabase ++ [s.nTimers] ∧
      ((constructNamed E f s).2.heap s.nTimers).info = infoNamed f ∧
      ((constructNamed E f s).2.heap s.nTimers).isRunning = false ∧
      ∀ u, u ≠ s.nTimers → (constructNamed E f s).2.heap u = s.heap u := by
  have hi := init_fields E s
  have hidle := constructNamed_idle E f s
  rw [(constructNamed_fields E f s).1] at hidle
  refine ⟨hi.1, ?_, hidle, fun u hu =>
    constructNamed_sound (frame_alloc E u) f s (Ne.symm hu)⟩
  unfold constructNamed
  dsimp only
  rw [(init_nTimers E s).1, modify_heap_same]
  show { ((init E s).2.heap s.nTimers).info with fname := f } = infoNamed f
  rw [hi.2.2]
  rfl

/-- The first call of `display` registers three new records, named `"Timer"`,
`"Timer-noflop"` and `"Timer-test"` in this order, zeroed and idle. -/
theorem displayStatics_new (E : Env) (s : State) (hd : s.displayTimers = none) :
    (displayStatics E s).2.timerDatabase =
        s.timerDatabase ++ [s.nTimers, s.nTimers + 1, s.nTimers + 2] ∧
      (((displayStatics E s).2.heap s.nTimers).info = infoNamed "Timer" ∧
        ((displayStatics E s).2.heap (s.nTimers + 1)).info = infoNamed "Timer-noflop" ∧
        ((displayStatics E s).2.heap (s.nTimers + 2)).info = infoNamed "Timer-test") ∧
      ((displayStatics E s).2.heap s.nTimers).isRunning = false ∧
      ((displayStatics E s).2.heap (s.nTimers + 1)).isRunning = false ∧
      ((displayStatics E s).2.heap (s.nTimers + 2)).isRunning = false := by
  have fa := constructNamed_fields E "Timer" s
  have fb := constructNamed_fields E "Timer-noflop" (constructNamed E "Timer" s).2
  have na := constructNamed_new E "Timer" s
  have nb := constructNamed_new E "Timer-noflop" (constructNamed E "Timer" s).2
  have nc := constructNamed_new E "Timer-test"
    (constructNamed E "Timer-noflop" (constructNamed E "Timer" s).2).2
  rw [fa.2.1] at nb
  rw [fb.2.1, fa.2.1] at nc
  have hheap : (displayStatics E s).2.heap =
      (constructNamed E "Timer-test"
        (constructNamed E "Timer-noflop" (constructNamed E "Timer" s).2).2).2.heap := by
    unfold displayStatics
    rw [hd]
  have hdb : (displayStatics E s).2.timerDatabase =
      (constructNamed E "Timer-test"
        (constructNamed E "Timer-noflop" (constructNamed E "Timer" s).2).2).2.timerDatabase := by
    unfold displayStatics
    rw [hd]
  rw [hheap, hdb]
  have h1 : s.nTimers + 1 ≠ s.nTimers + 1 + 1 := by omega
  have h2 : s.nTimers ≠ s.nTimers + 1 + 1 := by omega
  have h3 : s.nTimers ≠ s.nTimers + 1 := by omega
  refine ⟨?_, ⟨?_, ?_, nc.2.1⟩, ?_, ?_, nc.2.2.1⟩
  · rw [nc.1, nb.1, na.1]
    simp
  · rw [nc.2.2.2 _ h2, nb.2.2.2 _ h3, na.2.1]
  · rw [nc.2.2.2 _ h1, nb.2.1]
  · rw [nc.2.2.2 _ h2, nb.2.2.2 _ h3, na.2.2.1]
  · rw [nc.2.2.2 _ h1, nb.2.2.1]

theorem displayStatics_some (E : Env) (s : State) (p : Nat × Nat × Nat)
    (hd : s.displayTimers = some p) : displayStatics E s = (p, s) := by
  unfold displayStatics
  rw [hd]

/-- After the statics of `display` are constructed they are three different constructed
timers, none running if none was. -/
theorem displayStatics_ready (E : Env) (s : State) (hv : StaticsValid s) :
    (displayStatics E s).2.displayTimers = some (displayStatics E s).1 ∧
      StaticsValid (displayStatics E s).2 ∧
      (StaticsIdle s → StaticsIdle (displayStatics E s).2) := by
  cases hd : s.displayTimers with
  | some p =>
    rw [displayStatics_some E s p hd]
    exact ⟨hd, hv, fun h => h⟩
  | none =>
    obtain ⟨f1, f2, f3⟩ := displayStatics_fields E s hd
    obtain ⟨-, -, i1, i2, i3⟩ := displayStatics_new E s hd
    refine ⟨f3, fun q hq => ?_, fun _ q hq => ?_⟩
    · rw [f3, f1] at hq
      cases hq
      rw [f2]
      refine ⟨⟨?_, ?_, ?_⟩, ?_, ?_, ?_⟩ <;> dsimp only <;> omega
    · rw [f3, f1] at hq
      cases hq
      exact ⟨i1, i2, i3⟩

theorem displayWith_statics (E : Env) (stopF : Nat → Bool → State → Except Err State)
    (str : String) (s : State) (hv : StaticsValid s) :
    displayWith stopF E str (displayStatics E s).2 = displayWith stopF E str s := by
  unfold displayWith
  rw [displayStatics_some E (displayStatics E s).2 (displayStatics E s).1
    (displayStatics_ready E s hv).1]

/-! ## The registry across a dump -/

theorem regSame_alloc (E : Env) (N : Nat) :
    Alloc E (fun u => u < N) (fun s s1 => s.nTimers = N →
      s1.nTimers = N ∧ s1.timerDatabase = s.timerDatabase ∧
        s1.displayTimers = s.displayTimers) where
  refl := fun _ h => ⟨h, rfl, rfl⟩
  trans := fun _ _ _ h1 h2 h =>
    ⟨(h2 (h1 h).1).1, ((h2 (h1 h).1).2.1).trans (h1 h).2.1,
      ((h2 (h1 h).1).2.2).trans (h1 h).2.2⟩
  ticks := fun _ h => ⟨h, rfl, rfl⟩
  startTime := fun _ _ h => ⟨h, rfl, rfl⟩
  flopReads := fun _ h => ⟨h, rfl, rfl⟩
  out := fun s l _ h => by
    unfold DisplayInfo
    split <;> exact ⟨h, rfl, rfl⟩
  modify := fun _ _ _ _ _ h => ⟨h, rfl, rfl⟩
  papiInitialized := fun _ _ h => ⟨h, rfl, rfl⟩
  alloc := fun s _ hA _ h => absurd h (Nat.ne_of_lt hA)

theorem regSame_prim (E : Env) (N : Nat) :
    Prim E (fun u => u < N) (fun s s1 => s.nTimers = N →
      s1.nTimers = N ∧ s1.timerDatabase = s.timerDatabase ∧
        s1.displayTimers = s.displayTimers) where
  toAlloc := regSame_alloc E N
  lastInit := fun _ _ h => ⟨h, rfl, rfl⟩
  trigger := fun _ _ _ _ _ h => ⟨h, rfl, rfl⟩
  banner := fun s _ _ _ _ h => by
    unfold DisplayInfo
    split <;> exact ⟨h, rfl, rfl⟩
  statics := fun s _ hA _ _ h => absurd h (Nat.ne_of_lt hA)

/-- A call of `display` that finds its statics constructed registers nothing. -/
theorem displayN_registry (n : Nat) (E : Env) (str : String) (s s1 : State)
    (p : Nat × Nat × Nat) (hd : s.displayTimers = some p) (hv : StaticsValid s)
    (h : displayN n E str s = Except.ok s1) :
    s1.nTimers = s.nTimers ∧ s1.timerDatabase = s.timerDatabase ∧
      s1.displayTimers = some p := by
  have hr : Ready (fun u => u < s.nTimers) s := ready_of_some hd (hv p hd).2
  obtain ⟨h1, h2, h3⟩ := displayN_sound (regSame_prim E s.nTimers) n str s s1 hr h rfl
  exact ⟨h1, h2, h3.trans hd⟩

theorem displayN_statics (n : Nat) (E : Env) (str : String) (s : State)
    (hv : StaticsValid s) :
    displayN n E str (displayStatics E s).2 = displayN n E str s := by
  cases n with
  | zero => rfl
  | succ m =>
    unfold displayN
    exact displayWith_statics E _ str s hv

/-! ## The dump measures itself -/

theorem stopWith_fail_triggered (E : Env) (t : Nat) (v : Bool) (s s1 : State)
    (h : stopWith (fun _ _ => Except.error Err.fuel) E t v s = Except.ok s1) :
    s1.triggered = s.triggered := by
  have hU := (untriggered_alloc E).toCore
  have hu7 : (stopRecord E t v (stopClock E t s)).triggered = s.triggered :=
    hU.trans _ _ _ (stopClock_sound hU t s trivial) (stopRecord_sound hU t v _ trivial)
  unfold stopWith at h
  split at h
  swap
  · cases h
  split at h
  · cases h
  rename_i s8 h8
  cases h
  show s8.triggered = s.triggered
  unfold autodisplayWith at h8
  cases hl : (stopRecord E t v (stopClock E t s)).last_time with
  | some L =>
    simp only [hl] at h8
    split at h8
    · cases h8
    · cases h8
      exact hu7
  | none =>
    simp only [hl] at h8
    split at h8
    · cases h8
    · cases h8
      exact hu7

theorem settled_stop_quiet (n : Nat) (E : Env) (T : List ℚ) (t : Nat) (v : Bool) (s : State)
    (hs : Settled E s ∧ s.triggered = T) (hrun : (view s t).2 = true) :
    ∃ s1, stopWith (displayN n E) E t v s = Except.ok s1 ∧
      (Settled E s1 ∧ s1.triggered = T) ∧
      view s1 t = ((view s t).1, false) ∧ ∀ u, u ≠ t → view s1 u = view s u := by
  obtain ⟨s1, h1, hs1, hv⟩ := settled_stop_view n E t v s hs.1 hrun
  refine ⟨s1, h1, ⟨hs1, ?_⟩, hv⟩
  have h2 : stopWith (fun _ _ => Except.error Err.fuel) E t v s = Except.ok s1 := by
    rw [← settled_stopWith_congr E (displayN n E) _ t v s hs.1]
    exact h1
  rw [stopWith_fail_triggered E t v s s1 h2]
  exact hs.2

theorem settled_statics (E : Env) (s : State) (hs : Settled E s) :
    Settled E (displayStatics E s).2 := by
  cases hd : s.displayTimers with
  | none =>
    exact settled_of_mild E _ _ (mild_of_steady E _ _
      (statics_of_coarse (steady_alloc E) s hd (fun _ _ _ => steady_refl _) trivial trivial
        trivial)) hs
  | some p =>
    rw [displayStatics_some E s p hd]
    exact hs

theorem staticsValid_of_none (s : State) (h : s.displayTimers = none) : StaticsValid s :=
  fun p hp => by rw [h] at hp; cases hp

theorem staticsIdle_of_none (s : State) (h : s.displayTimers = none) : StaticsIdle s :=
  fun p hp => by rw [h] at hp; cases hp

/-- The self-measurement of a dump during which no `autodisplay` triggers. -/
theorem displayProbes_counts (n : Nat) (E : Env) (p : Nat × Nat × Nat) (s sp : State)
    (hd : Distinct3 p) (ha : (s.heap p.1).isRunning = false)
    (hb : (s.heap p.2.1).isRunning = false) (hc : (s.heap p.2.2).isRunning = false)
    (h : displayProbes (stopWith (displayN n E) E) E p s = Except.ok sp)
    (ht : sp.triggered = s.triggered) :
    view sp p.1 = ((view s p.1).1 + 1, false) ∧
      view sp p.2.1 = ((view s p.2.1).1 + 1, false) ∧
      view sp p.2.2 = ((view s p.2.2).1 + 3, false) := by
  have h1 := displayProbes_untriggered E (displayN n E)
    (fun str a b hab => displayN_grows n E str a b hab) p s sp h ht
  obtain ⟨sq, h2, -, hv⟩ := displayProbes_view E (fun _ => True)
    (fun _ _ _ _ => trivial) (fun _ _ _ _ => trivial)
    (fun t v x _ hr => stopWith_noDisplay E t v x hr) p hd s trivial ha hb hc
  rw [h1] at h2
  cases h2
  exact hv

/-- The self-measurement of a dump returns in a settled state, with no trigger. -/
theorem displayProbes_settled (n : Nat) (E : Env) (p : Nat × Nat × Nat) (s : State)
    (hd : Distinct3 p) (ha : (s.heap p.1).isRunning = false)
    (hb : (s.heap p.2.1).isRunning = false) (hc : (s.heap p.2.2).isRunning = false)
    (hs : Settled E s) :
    ∃ sp, displayProbes (stopWith (displayN n E) E) E p s = Except.ok sp ∧
      sp.triggered = s.triggered := by
  obtain ⟨sp, h1, h2, -⟩ := displayProbes_view E
    (fun x => Settled E x ∧ x.triggered = s.triggered)
    (fun t v x hx => ⟨settled_start E t v x hx.1,
      (start_sound (untriggered_alloc E).toCore t v x trivial).trans hx.2⟩)
    (fun _ _ _ hx => hx)
    (fun t v x hx hr => settled_stop_quiet n E s.triggered t v x hx hr)
    p hd s ⟨hs, rfl⟩ ha hb hc
  exact ⟨sp, h1, h2.2⟩

/-! ## The statics of `display` in the states a program reaches -/

theorem staticsValid_alloc (E : Env) :
    Alloc E (fun _ => True) (fun s s1 => StaticsValid s → StaticsValid s1) where
  refl := fun _ h => h
  trans := fun _ _ _ h1 h2 h => h2 (h1 h)
  ticks := fun _ h => h
  startTime := fun _ _ h => h
  flopReads := fun _ h => h
  out := fun s l _ h => by
    unfold DisplayInfo
    split <;> exact h
  modify := fun _ _ _ _ _ h => h
  papiInitialized := fun _ _ h => h
  alloc := fun s _ _ _ h p hp =>
    ⟨(h p hp).1, Nat.lt_succ_of_lt (h p hp).2.1, Nat.lt_succ_of_lt (h p hp).2.2.1,
      Nat.lt_succ_of_lt (h p hp).2.2.2⟩

theorem staticsValid_prim (E : Env) :
    Prim E (fun _ => True) (fun s s1 => StaticsValid s → StaticsValid s1) where
  toAlloc := staticsValid_alloc E
  lastInit := fun _ _ h => h
  trigger := fun _ _ _ _ _ h => h
  banner := fun s _ _ _ _ h => by
    unfold DisplayInfo
    split <;> exact h
  statics := fun s _ _ _ _ h => (displayStatics_ready E s h).2.1

/-- In every state a program reaches from the process start, the statics of `display`, if
constructed, are three different constructed timers. -/
theorem staticsValid_run (n : Nat) (E : Env) (ops : List Op) (s : State)
    (h : run n E ops State.init = Except.ok s) : StaticsValid s :=
  run_sound (staticsValid_prim E) (fun _ _ h => h) (fun _ _ h => h) (fun _ _ h => h) n ops
    State.init s h (staticsValid_of_none _ rfl)

/-! ## The claims -/

/-- C1 (accumulation).  For every timer `t` of the program that is idle with
`accumulated_time = 0` and `call_times = 0`, every clock, and every list of `N`
measurements (`start`, operations added, `stop`) on `t`: if the measurements all return,
then after them `info.accumulated_time` is the sum of the `N` durations `e_i - s_i` read
from the clock and `info.call_times` is `N`; and they do all return, whatever the nesting
depth allowed to `display`, when no check of `autodisplay` can trigger. -/
theorem accumulation (n : Nat) (E : Env) (t : Nat) (ps : List Pair) (s : State)
    (hu : User s t) (hidle : (s.heap t).isRunning = false)
    (hacc : (s.heap t).info.accumulated_time = 0) (hcalls : (s.heap t).info.call_times = 0) :
    (∀ s1, measures n E t ps s = Except.ok s1 →
      (s1.heap t).info.accumulated_time = (durations n E t ps s).sum ∧
        (s1.heap t).info.call_times = ps.length) ∧
      (Settled E s → ∃ s1, measures n E t ps s = Except.ok s1) := by
  refine ⟨fun s1 h => ?_, fun hs => measures_returns n E t ps s hs hidle⟩
  obtain ⟨_, _, ha, hc⟩ := measures_user n E t ps s s1 hu hidle h
  rw [ha, hc, hacc, hcalls]
  simp

/-- The theorem `accumulation` at three measurements of `"work"` with the clock `envWork`:
the state is settled, the measurements return, and the durations `1/10`, `2/10`, `3/10`
add up to `6/10`. -/
theorem accumulation_witness :
    (∃ s1, measures 0 envWork 0 threePairs stateWorkNoFlops = Except.ok s1) ∧
      durations 0 envWork 0 threePairs stateWorkNoFlops = [1 / 10, 2 / 10, 3 / 10] ∧
      ((theState (measures 0 envWork 0 threePairs stateWorkNoFlops)).heap
        0).info.accumulated_time = (durations 0 envWork 0 threePairs stateWorkNoFlops).sum ∧
      ((theState (measures 0 envWork 0 threePairs stateWorkNoFlops)).heap 0).info.call_times =
        threePairs.length :=
  ⟨(accumulation 0 envWork 0 threePairs stateWorkNoFlops user_stateWorkNoFlops (by decide)
      (by decide!) (by decide)).2 settled_stateWorkNoFlops,
    by decide!,
    (accumulation 0 envWork 0 threePairs stateWorkNoFlops user_stateWorkNoFlops (by decide)
      (by decide!) (by decide)).1 _ (ok_of_succeeds (by decide!))⟩

/-- C2 (reentrancy no-op).  On a timer that is running `start` returns the state unchanged
(no member, no static, no clock read, no output line changes).  So on a timer `t` of the
program that is idle with `call_times = 0`, `start(); start(); stop();` leaves
`call_times = 1` when the `stop` returns; and the `stop` does return, whatever the nesting
depth allowed to `display`, when no check of `autodisplay` can trigger. -/
theorem reentrancy_noop (n : Nat) (E : Env) (t : Nat) (v1 v2 v3 : Bool) (s : State)
    (hu : User s t) (hidle : (s.heap t).isRunning = false)
    (hcalls : (s.heap t).info.call_times = 0) :
    (∀ (u : Nat) (v : Bool) (s0 : State), (s0.heap u).isRunning = true → start E u v s0 = s0) ∧
      (∀ s1, stop n E t v3 (start E t v2 (start E t v1 s)) = Except.ok s1 →
        (s1.heap t).info.call_times = 1) ∧
      (Settled E s → ∃ s1, stop n E t v3 (start E t v2 (start E t v1 s)) = Except.ok s1) := by
  obtain ⟨hrun, hinfo, _⟩ := start_idle E t v1 s hidle
  refine ⟨fun u v s0 h0 => start_running E u v s0 h0, fun s1 h => ?_, fun hs => ?_⟩
  · rw [start_running E t v2 _ hrun] at h
    have hC := (user_prim E t).toAlloc.toCore
    obtain ⟨_, _, hh⟩ := stop_user n E t v3 _ s1 (start_sound hC t v1 s trivial hu) h
    obtain ⟨_, _, hc, _⟩ := stopRecord_heap E t v3 (start E t v1 s)
    rw [hh]
    show ((stopRecord E t v3 _).heap t).info.call_times = 1
    rw [hc, hinfo, hcalls]
    rfl
  · rw [start_running E t v2 _ hrun]
    obtain ⟨s1, hok, _⟩ := settled_stop n E t v3 _ (settled_start E t v1 s hs) hrun
    exact ⟨s1, hok⟩

/-- The theorem `reentrancy_noop` at the timer `"work"` with the clock `envWork`. -/
theorem reentrancy_noop_witness :
    (∀ (u : Nat) (v : Bool) (s0 : State),
        (s0.heap u).isRunning = true → start envWork u v s0 = s0) ∧
      ((theState (stop 0 envWork 0 false (start envWork 0 true
        (start envWork 0 false stateWorkNoFlops)))).heap 0).info.call_times = 1 ∧
      (∃ s1, stop 0 envWork 0 false (start envWork 0 true
        (start envWork 0 false stateWorkNoFlops)) = Except.ok s1) :=
  ⟨(reentrancy_noop 0 envWork 0 false true false stateWorkNoFlops user_stateWorkNoFlops
      (by decide) (by decide)).1,
    (reentrancy_noop 0 envWork 0 false true false stateWorkNoFlops user_stateWorkNoFlops
      (by decide) (by decide)).2.1 _ (ok_of_succeeds (by decide!)),
    (reentrancy_noop 0 envWork 0 false true false stateWorkNoFlops user_stateWorkNoFlops
      (by decide) (by decide)).2.2 settled_stateWorkNoFlops⟩

/-- C3 (fatal on orphan stop) fails on the code for a running timer.  The timer `"work"` is
running, the interval of `autodisplay` is `10` and `last_time` is `0`.  Its `stop()` reads
the timestamp `100` and triggers a dump; while the dump measures itself the clock jumps to
`200`, so the `stop` of `time_test` inside the span of `time` triggers a nested dump, whose
`time.start()` is a no-op (`time` is running) and whose `time.stop()` stops `time`; back in
the outer dump `time.stop()` finds `time` not running and fails `assert(isRunning)`: the
`stop()` of the running timer ends in the assertion failure, one call of `display` below it,
whatever nesting depth of `display` is allowed. -/
theorem orphan_stop_abort_in_dump :
    (jump0.heap 0).isRunning = true ∧ jump0.minimum_autodisplay_interval = 10 ∧
      jump0.last_time = some 0 ∧ envJump.clock jump0.ticks = 100 ∧
      envJump.clock (jump0.ticks + 7) = 200 ∧
      failure (stop 2 envJump 0 false jump0) = some (Err.assertion 1) ∧
      failure (stop 3 envJump 0 false jump0) = some (Err.assertion 1) ∧
      failure (stop 4 envJump 0 false jump0) = some (Err.assertion 1) := by
  decide!

/-- The assertion of the call itself.  A call of `stop` fails its own `assert(isRunning)`
(it reports `Err.assertion 0`) if and only if its timer is not running at the call.  In
particular `stop` on a timer just constructed fails, and a `stop` that follows a `stop`
that returned fails. -/
theorem orphan_stop (n : Nat) (E : Env) (t : Nat) (v : Bool) (s : State) :
    (stop n E t v s = Except.error (Err.assertion 0) ↔ (s.heap t).isRunning = false) ∧
      (∀ f : String, stop n E (constructNamed E f s).1 v (constructNamed E f s).2 =
        Except.error (Err.assertion 0)) ∧
      (∀ (s1 : State) (m : Nat) (w : Bool), stop n E t v s = Except.ok s1 →
        stop m E t w s1 = Except.error (Err.assertion 0)) := by
  refine ⟨⟨fun h => ?_, stop_idle n E t v s⟩, fun f => ?_, fun s1 m w h => ?_⟩
  · cases hr : (s.heap t).isRunning with
    | false => rfl
    | true => exact absurd h (stop_running_ne n E t v s hr)
  · exact stop_idle n E _ v _ (constructNamed_idle E f s)
  · exact stop_idle m E t w s1 (stop_ok_idle n E t v s s1 h)

/-- The theorem `orphan_stop` at the timer `"work"`: a `stop` without `start` fails, and
so does a second `stop` after `start(); stop();`. -/
theorem orphan_stop_witness :
    stop 0 envTick 0 false stateWork = Except.error (Err.assertion 0) ∧
      stop 0 envTick 0 true
        (theState (stop 0 envTick 0 false (start envTick 0 false stateWork))) =
        Except.error (Err.assertion 0) :=
  ⟨(orphan_stop 0 envTick 0 false stateWork).1.2 (by decide),
    (orphan_stop 0 envTick 0 false (start envTick 0 false stateWork)).2.2 _ 0 true
      (ok_of_succeeds (by decide!))⟩

/-- C4 as claimed fails.  The records `A`, `B`, `C`, registered in this order with
accumulated times `5`, `5` and `3`, are dumped by `display` after its own three records
(accumulated time `0`) in the order `C`, `A`, `B`: ascending.  The stable descending order
of the claim is `A`, `B`, `C` and then the three records of `display`. -/
theorem dump_order_counterexample :
    registryNames stateABC = ["A", "B", "C"] ∧
      [0, 1, 2].map (fun a => (stateABC.heap a).info.accumulated_time) = [5, 5, 3] ∧
      avgNames (theState (display 1 envABC "" stateABC)).out =
        [nameField "Timer", nameField "Timer-noflop", nameField "Timer-test",
          nameField "C", nameField "A", nameField "B"] ∧
      dumpOrder envABC (theState (display 1 envABC "" stateABC)) = [3, 4, 5, 2, 0, 1] ∧
      specDumpOrder (theState (display 1 envABC "" stateABC)) = [0, 1, 2, 3, 4, 5] := by
  decide!

/-- C4 as the code has it (ascending, ties unspecified).  On rank `0`, with any `std::sort`
that conforms to the standard, every `display` that returns ends its output with the start
banner, one `showAvg("display")` line per entry of the sorted copy `dumpOrder` of the
registry, in that order, and the end banner; the sorted copy is a permutation of the
registry in ascending (non-decreasing) order of `accumulated_time`.  Nothing is promised
about the order of records with equal `accumulated_time`. -/
theorem dump_order_ascending (n : Nat) (E : Env) (str : String) (s s1 : State)
    (hr : E.rank = 0) (hs : StdSort E) (h : display n E str s = Except.ok s1) :
    ∃ (pre lines : List Line) (total : ℚ),
      s1.out = pre ++ [⟨"Timer", "display-start", Body.banner str total⟩] ++ lines ++
          [⟨"Timer", "display-end  ", Body.banner str total⟩] ∧
        List.Forall₂ (fun l a => l.showsAvg (s1.heap a).info) lines (dumpOrder E s1) ∧
        (dumpOrder E s1).Perm s1.timerDatabase ∧
        (dumpOrder E s1).Pairwise fun a b =>
          (s1.heap a).info.accumulated_time ≤ (s1.heap b).info.accumulated_time := by
  have hsort := hs (fun a => (s1.heap a).info.accumulated_time) s1.timerDatabase
  cases n with
  | zero => cases h
  | succ m =>
    unfold display displayN displayWith at h
    split at h
    · cases h
    · rename_i s2 _
      cases h
      obtain ⟨lines, total, ho, hf⟩ := displayReport_out E hr str s2
      exact ⟨s2.out, lines, total, ho, hf, hsort.1, hsort.2⟩

/-- The theorem `dump_order_ascending` at the dump of the records `A`, `B`, `C` of
`stateABC`. -/
theorem dump_order_ascending_witness :
    ∃ (pre lines : List Line) (total : ℚ),
      (theState (display 1 envABC "" stateABC)).out =
          pre ++ [⟨"Timer", "display-start", Body.banner "" total⟩] ++ lines ++
            [⟨"Timer", "display-end  ", Body.banner "" total⟩] ∧
        List.Forall₂
          (fun l a => l.showsAvg ((theState (display 1 envABC "" stateABC)).heap a).info)
          lines (dumpOrder envABC (theState (display 1 envABC "" stateABC))) ∧
        (dumpOrder envABC (theState (display 1 envABC "" stateABC))).Perm
          (theState (display 1 envABC "" stateABC)).timerDatabase ∧
        (dumpOrder envABC (theState (display 1 envABC "" stateABC))).Pairwise fun a b =>
          ((theState (display 1 envABC "" stateABC)).heap a).info.accumulated_time ≤
            ((theState (display 1 envABC "" stateABC)).heap b).info.accumulated_time :=
  dump_order_ascending 1 envABC "" stateABC _ (by decide) stdSort_envABC
    (ok_of_succeeds (by decide!))

/-- C5 (operation delta rule).  For every `stop` that returns, on a timer `t` of the
program: the recorded `info.dflops` is the manual accumulator `flops` if that is nonzero
(whatever the hardware counter reads), else the value of `getTotalFlops()` at the `stop`
minus `start_flops` if `isUsingTotalFlops` is set, else `0`; and `accumulated_flops` grows
by that delta.  In particular a measurement on an idle timer that adds `1000` once records
`dflops = 1000` and adds `1000` to `accumulated_flops`; its `stop` returns when no check
of `autodisplay` can trigger. -/
theorem operation_delta (n : Nat) (E : Env) (t : Nat) (v : Bool) (s : State)
    (hu : User s t) :
    (∀ s1, stop n E t v s = Except.ok s1 →
      (s1.heap t).info.dflops =
          (if (s.heap t).flops ≠ 0 then (s.heap t).flops
            else if (s.heap t).isUsingTotalFlops = true then
              (getTotalFlops E s).1 - (s.heap t).start_flops
            else 0) ∧
        (s1.heap t).info.accumulated_flops =
          (s.heap t).info.accumulated_flops + (s1.heap t).info.dflops) ∧
      (∀ (w : Bool) (s1 : State), (s.heap t).isRunning = false →
        stop n E t v (addFlops t 1000 (start E t w s)) = Except.ok s1 →
        (s1.heap t).info.dflops = 1000 ∧
          (s1.heap t).info.accumulated_flops = (s.heap t).info.accumulated_flops + 1000) ∧
      (∀ w : Bool, (s.heap t).isRunning = false → Settled E s →
        ∃ s1, stop n E t v (addFlops t 1000 (start E t w s)) = Except.ok s1) := by
  have key : ∀ (a b : State), User a t → stop n E t v a = Except.ok b →
      (b.heap t).info.dflops =
        (if (a.heap t).flops ≠ 0 then (a.heap t).flops
          else if (a.heap t).isUsingTotalFlops = true then
            (getTotalFlops E a).1 - (a.heap t).start_flops
          else 0) ∧
      (b.heap t).info.accumulated_flops =
        (a.heap t).info.accumulated_flops + (b.heap t).info.dflops := by
    intro a b hua hab
    obtain ⟨_, _, hh⟩ := stop_user n E t v a b hua hab
    obtain ⟨_, _, _, _, _, _, hd, hacc⟩ := stopRecord_heap E t v a
    have e1 : (b.heap t).info.dflops =
        ((stopRecord E t v (stopClock E t a)).heap t).info.dflops := by rw [hh]
    have e2 : (b.heap t).info.accumulated_flops =
        ((stopRecord E t v (stopClock E t a)).heap t).info.accumulated_flops := by rw [hh]
    rw [e2, e1, hacc, hd]
    exact ⟨rfl, rfl⟩
  refine ⟨fun s1 h => key s s1 hu h, fun w s1 hidle h2 => ?_, fun w hidle hs => ?_⟩
  · have hC := (user_prim E t).toAlloc.toCore
    have hub : User (addFlops t 1000 (start E t w s)) t :=
      addFlops_sound hC t _ _ trivial (start_sound hC t _ s trivial hu)
    obtain ⟨_, hinfo, hflops, _⟩ := start_idle E t w s hidle
    obtain ⟨k1, k2⟩ := key _ s1 hub h2
    have hf : ((addFlops t 1000 (start E t w s)).heap t).flops = 1000 := by
      simp only [addFlops, modify_heap_same, hflops]
      rfl
    have hi : ((addFlops t 1000 (start E t w s)).heap t).info.accumulated_flops =
        (s.heap t).info.accumulated_flops := by
      simp only [addFlops, modify_heap_same, hinfo]
    rw [hf] at k1
    rw [if_pos (by decide)] at k1
    rw [k2, k1, hi]
    exact ⟨rfl, rfl⟩
  · have h1 : Settled E (addFlops t 1000 (start E t w s)) :=
      settled_of_mild E _ _
        (mild_of_steady E _ _ (addFlops_sound (steady_alloc E).toCore t _ _ trivial))
        (settled_start E t _ s hs)
    have hrun : ((addFlops t 1000 (start E t w s)).heap t).isRunning = true := by
      unfold addFlops
      rw [modify_heap_same]
      exact (start_idle E t w s hidle).1
    obtain ⟨s1, hok, _⟩ := settled_stop n E t v _ h1 hrun
    exact ⟨s1, hok⟩

/-- The theorem `operation_delta` at the timer `"work"` with the clock `envWork`: after
`start(); flops += 1000;` the `stop` returns and records `1000`. -/
theorem operation_delta_witness :
    ((theState (stop 0 envWork 0 false
        (addFlops 0 1000 (start envWork 0 false stateWorkNoFlops)))).heap 0).info.dflops
        = 1000 ∧
      ((theState (stop 0 envWork 0 false
        (addFlops 0 1000 (start envWork 0 false stateWorkNoFlops)))).heap
          0).info.accumulated_flops = (stateWorkNoFlops.heap 0).info.accumulated_flops + 1000 ∧
      (∃ s1, stop 0 envWork 0 false
        (addFlops 0 1000 (start envWork 0 false stateWorkNoFlops)) = Except.ok s1) :=
  ⟨((operation_delta 0 envWork 0 false stateWorkNoFlops user_stateWorkNoFlops).2.1 false _
      (by decide) (ok_of_succeeds (by decide!))).1,
    ((operation_delta 0 envWork 0 false stateWorkNoFlops user_stateWorkNoFlops).2.1 false _
      (by decide) (ok_of_succeeds (by decide!))).2,
    (operation_delta 0 envWork 0 false stateWorkNoFlops user_stateWorkNoFlops).2.2 false
      (by decide) settled_stateWorkNoFlops⟩

/-- C6 (rank suppression).  If `getRank()` is nonzero, every sequence of calls
(constructors, `start`, `stop`, `showLast`, `showAvg`, `display`, both `autodisplay`,
assignments to `flops` and to the thresholds) that returns leaves the console output as
it was; from the process start the output is empty. -/
theorem rank_suppression (n : Nat) (E : Env) (ops : List Op) (s s1 : State)
    (hr : E.rank ≠ 0) (h : run n E ops s = Except.ok s1) :
    s1.out = s.out ∧ (s = State.init → s1.out = []) := by
  have h1 : s1.out = s.out :=
    run_sound (silent_prim E hr) (fun _ _ => rfl) (fun _ _ => rfl) (fun _ _ => rfl) n ops s s1 h
  exact ⟨h1, fun h0 => by rw [h1, h0]; rfl⟩

/-- The theorem `rank_suppression` on rank `3`: a timer is constructed, measured with
verbose calls, shown, and the registry is dumped, and no line is written. -/
theorem rank_suppression_witness :
    (theState (run 1 envRank3
      [Op.constructNamed "work", Op.start 0 true, Op.stop 0 true, Op.showLast 0 none,
        Op.showAvg 0 (some "x"), Op.display "", Op.autodisplayNow] State.init)).out = [] :=
  (rank_suppression 1 envRank3 _ State.init _ (by decide) (ok_of_succeeds (by decide!))).2 rfl

/-- C7 as claimed fails.  With the interval `10` and `last_time = 0`, three stops with the
timestamps `100`, `103` and `108` (3 and 8 seconds after the first) all return; the first
triggers an automatic dump, the second none, and the third none: the third stop does not
trigger one more dump, because `108 - 100` is not more than `10`. -/
theorem autodisplay_throttle_counterexample :
    throttle0.minimum_autodisplay_interval = 10 ∧ throttle0.last_time = some 0 ∧
      envThrottle.clock throttle0.ticks = 100 ∧
      envThrottle.clock (start envThrottle 0 false throttle1).ticks = 103 ∧
      envThrottle.clock (start envThrottle 0 false throttle2).ticks = 108 ∧
      succeeds (stop 1 envThrottle 0 false throttle0) = true ∧
      succeeds (stop 1 envThrottle 0 false (start envThrottle 0 false throttle1)) = true ∧
      succeeds (stop 1 envThrottle 0 false (start envThrottle 0 false throttle2)) = true ∧
      countDumps throttle0.out = 0 ∧ countDumps throttle1.out = 1 ∧
      countDumps throttle2.out = 1 ∧ countDumps throttle3.out = 1 := by
  decide!

/-- C7 as the code has it.  The interval is `10`, `last_time` is initialised, three calls
of `stop` read the timestamps `T`, `T + 3` and `T + 8` (a `start` precedes the second and
the third), and no clock value read from the first `stop` on exceeds `T + 10`.  Then on
rank `0`: the first two stops trigger at most one automatic dump, and so do all three; the
third triggers none if one of the first two triggered; and the third triggers exactly one
if its timestamp exceeds the `last_time` it finds by more than `10`, else none. -/
theorem autodisplay_throttle (n : Nat) (E : Env) (t1 t2 t3 : Nat) (v1 v2 v3 w2 w3 : Bool)
    (s0 s1 s2 s3 : State) (T L : ℚ) (hr : E.rank = 0)
    (hI : s0.minimum_autodisplay_interval = 10) (hL : s0.last_time = some L)
    (hT1 : E.clock s0.ticks = T) (hT2 : E.clock (start E t2 w2 s1).ticks = T + 3)
    (hT3 : E.clock (start E t3 w3 s2).ticks = T + 8)
    (hwin : ∀ k, s0.ticks ≤ k → E.clock k ≤ T + 10)
    (h1 : stop n E t1 v1 s0 = Except.ok s1)
    (h2 : stop n E t2 v2 (start E t2 w2 s1) = Except.ok s2)
    (h3 : stop n E t3 v3 (start E t3 w3 s2) = Except.ok s3) :
    countDumps s2.out ≤ countDumps s0.out + 1 ∧ countDumps s3.out ≤ countDumps s0.out + 1 ∧
      (countDumps s0.out < countDumps s2.out → countDumps s3.out = countDumps s2.out) ∧
      (∀ L2, (start E t3 w3 s2).last_time = some L2 →
        countDumps s3.out = countDumps s2.out + if T + 8 - L2 > 10 then 1 else 0) := by
  have hC := (calm_alloc E).toCore
  -- the first stop
  obtain ⟨i1, k1, p1, q1⟩ := stop_dumps n E t1 v1 s0 s1 L hr hL
    (fun k hk => by rw [hT1, hI]; linarith [hwin k hk]) h1
  rw [hT1, hI] at p1 q1
  -- the second start and stop
  have c1 : Calm s1 (start E t2 w2 s1) := start_sound hC t2 w2 s1 trivial
  have hI1 : (start E t2 w2 s1).minimum_autodisplay_interval = 10 := by
    rw [c1.1.2.1, i1, hI]
  have hk1 : s0.ticks ≤ (start E t2 w2 s1).ticks := le_trans k1 c1.1.2.2
  have key2 : ∀ L1, s1.last_time = some L1 →
      s2.minimum_autodisplay_interval = 10 ∧ (start E t2 w2 s1).ticks ≤ s2.ticks ∧
      (T + 3 - L1 > 10 →
        s2.last_time = some (T + 3) ∧ countDumps s2.out = countDumps s1.out + 1) ∧
      (¬ T + 3 - L1 > 10 → s2.last_time = some L1 ∧ countDumps s2.out = countDumps s1.out) := by
    intro L1 hL1
    obtain ⟨i2, k2, p2, q2⟩ := stop_dumps n E t2 v2 _ s2 L1 hr (by rw [c1.1.1, hL1])
      (fun k hk => by rw [hT2, hI1]; linarith [hwin k (le_trans hk1 hk)]) h2
    rw [hT2, hI1, c1.2] at p2 q2
    exact ⟨i2.trans hI1, k2, p2, q2⟩
  -- the third start and stop
  have c2 : Calm s2 (start E t3 w3 s2) := start_sound hC t3 w3 s2 trivial
  have key3 : ∀ L1 L2, s1.last_time = some L1 → s2.last_time = some L2 →
      (T + 8 - L2 > 10 → countDumps s3.out = countDumps s2.out + 1) ∧
      (¬ T + 8 - L2 > 10 → countDumps s3.out = countDumps s2.out) := by
    intro L1 L2 hL1 hL2
    obtain ⟨i2, k2, _, _⟩ := key2 L1 hL1
    have hI2 : (start E t3 w3 s2).minimum_autodisplay_interval = 10 := by
      rw [c2.1.2.1, i2]
    have hk2 : s0.ticks ≤ (start E t3 w3 s2).ticks :=
      le_trans hk1 (le_trans k2 c2.1.2.2)
    obtain ⟨_, _, p3, q3⟩ := stop_dumps n E t3 v3 _ s3 L2 hr (by rw [c2.1.1, hL2])
      (fun k hk => by rw [hT3, hI2]; linarith [hwin k (le_trans hk2 hk)]) h3
    rw [hT3, hI2, c2.2] at p3 q3
    exact ⟨fun h => (p3 h).2, fun h => (q3 h).2⟩
  by_cases g1 : T - L > 10
  · -- the first stop triggers: `last_time = T`
    obtain ⟨hl1, hc1⟩ := p1 g1
    obtain ⟨_, _, _, q2⟩ := key2 T hl1
    obtain ⟨hl2, hc2⟩ := q2 (by norm_num)
    obtain ⟨_, q3⟩ := key3 T T hl1 hl2
    have hc3 := q3 (by norm_num)
    refine ⟨by omega, by omega, fun _ => hc3, fun L2 hL2 => ?_⟩
    rw [c2.1.1, hl2] at hL2
    cases hL2
    rw [hc3, if_neg (by norm_num)]
    rfl
  · obtain ⟨hl1, hc1⟩ := q1 g1
    obtain ⟨_, _, p2, q2⟩ := key2 L hl1
    by_cases g2 : T + 3 - L > 10
    · -- the second stop triggers: `last_time = T + 3`
      obtain ⟨hl2, hc2⟩ := p2 g2
      obtain ⟨_, q3⟩ := key3 L (T + 3) hl1 hl2
      have hc3 := q3 (by norm_num)
      refine ⟨by omega, by omega, fun _ => hc3, fun L2 hL2 => ?_⟩
      rw [c2.1.1, hl2] at hL2
      cases hL2
      rw [hc3, if_neg (by norm_num)]
      rfl
    · obtain ⟨hl2, hc2⟩ := q2 g2
      obtain ⟨p3, q3⟩ := key3 L L hl1 hl2
      refine ⟨by omega, ?_, fun h => by omega, fun L2 hL2 => ?_⟩
      · by_cases g3 : T + 8 - L > 10
        · have := p3 g3
          omega
        · have := q3 g3
          omega
      · rw [c2.1.1, hl2] at hL2
        cases hL2
        by_cases g3 : T + 8 - L > 10
        · rw [p3 g3, if_pos g3]
        · rw [q3 g3, if_neg g3]
          rfl

/-- The theorem `autodisplay_throttle` at the stops of `throttle0` with timestamps `100`,
`103`, `108` and `last_time = 0`. -/
theorem autodisplay_throttle_witness :
    countDumps throttle2.out ≤ countDumps throttle0.out + 1 ∧
      countDumps throttle3.out ≤ countDumps throttle0.out + 1 ∧
      (countDumps throttle0.out < countDumps throttle2.out →
        countDumps throttle3.out = countDumps throttle2.out) ∧
      (∀ L2, (start envThrottle 0 false throttle2).last_time = some L2 →
        countDumps throttle3.out =
          countDumps throttle2.out + if (100 : ℚ) + 8 - L2 > 10 then 1 else 0) :=
  autodisplay_throttle 1 envThrottle 0 0 0 false false false false false throttle0 throttle1
    throttle2 throttle3 100 0 (by decide) (by decide!) (by decide!) (by decide!) (by decide!)
    (by decide!) (fun k _ => envThrottle_window k) (ok_of_succeeds (by decide!))
    (ok_of_succeeds (by decide!)) (ok_of_succeeds (by decide!))

/-- C8 as claimed fails: at process start `Timer a("x"); Timer b("x");` leaves two records
named `"x"` in the registry, and the second constructor returns address `1`, not the
record at address `0` that already has the name. -/
theorem get_or_create_counterexample :
    registryNames (constructAll envTick ["x", "x"] State.init) = ["x", "x"] ∧
      ¬ (registryNames (constructAll envTick ["x", "x"] State.init)).Nodup ∧
      (constructNamed envTick "x" State.init).1 = 0 ∧
      (constructNamed envTick "x" (constructNamed envTick "x" State.init).2).1 = 1 ∧
      (constructNamed envTick "x" (constructNamed envTick "x" State.init).2).2.timerDatabase
        = [0, 1] := by
  decide

/-- C8 as the code has it (construction always registers).  For every name, constructing
a `Timer` appends one new record to the registry, also when a record of that name is
already registered: the constructor returns the next free address, never an existing
record.  So after any sequence of constructions the registry holds one record per
construction, in construction order and under the names given to the constructors. -/
theorem construct_always_registers (E : Env) (fs : List String) (s : State)
    (hv : RegistryValid s) :
    registryNames (constructAll E fs s) = registryNames s ++ fs ∧
      (constructAll E fs s).timerDatabase.length = s.timerDatabase.length + fs.length ∧
      (∀ f : String, (constructNamed E f s).1 ∉ s.timerDatabase ∧
        (constructNamed E f s).2.timerDatabase = s.timerDatabase ++ [(constructNamed E f s).1]) := by
  refine ⟨?_, ?_, fun f => ?_⟩
  · induction fs generalizing s with
    | nil => simp [constructAll]
    | cons f fs ih =>
      obtain ⟨hv1, _, _, hn⟩ := constructNamed_registry E f s hv
      unfold constructAll
      rw [ih _ hv1, hn, List.append_assoc, List.singleton_append]
  · induction fs generalizing s with
    | nil => simp [constructAll]
    | cons f fs ih =>
      obtain ⟨hv1, hdb, _, _⟩ := constructNamed_registry E f s hv
      unfold constructAll
      rw [ih _ hv1, hdb]
      simp only [List.length_append, List.length_cons, List.length_nil]
      omega
  · obtain ⟨_, hdb, ha, _⟩ := constructNamed_registry E f s hv
    rw [ha]
    exact ⟨fun hm => Nat.lt_irrefl _ (hv _ hm), hdb⟩

/-- The theorem `construct_always_registers` at process start with the names `"a"`, `"b"`,
`"a"`: three records. -/
theorem construct_always_registers_witness :
    registryNames (constructAll envTick ["a", "b", "a"] State.init) = ["a", "b", "a"] :=
  (construct_always_registers envTick ["a", "b", "a"] State.init
    (fun _ ha => by cases ha)).1

/-- C9 (the registry is append-only, indices are stable).  A constructor appends exactly
one entry, the address of the new timer, and sets its `index` to the size of the registry
before the construction, so the new timer is at position `index`.  Across every sequence
of calls that returns (constructors, `start`, `stop`, `display`, `autodisplay`, ...) the
earlier registry is a prefix of the later one, so every entry keeps its position, and
every constructed timer `t` that is at position `t.index` stays there; `display` sorts a
copy. -/
theorem registry_append_only (n : Nat) (E : Env) (ops : List Op) (s s1 : State)
    (h : run n E ops s = Except.ok s1) :
    s.timerDatabase <+: s1.timerDatabase ∧
      (∀ t, t < s.nTimers → Registered s t → Registered s1 t) ∧
      (∀ (o : Op) (s2 : State), o.isConstructor = true → step n E o s = Except.ok s2 →
        s2.timerDatabase = s.timerDatabase ++ [s.nTimers] ∧
          (s2.heap s.nTimers).index = s.timerDatabase.length ∧ Registered s2 s.nTimers) ∧
      (∀ (str : String) (s2 : State), display n E str s = Except.ok s2 →
        s.timerDatabase <+: s2.timerDatabase) := by
  have hR : AppendOnly s s1 :=
    run_sound (appendOnly_prim E)
      (fun _ _ => ⟨List.prefix_refl _, le_refl _, fun _ _ => rfl⟩)
      (fun _ _ => ⟨List.prefix_refl _, le_refl _, fun _ _ => rfl⟩)
      (fun _ _ => ⟨List.prefix_refl _, le_refl _, fun _ _ => rfl⟩) n ops s s1 h
  refine ⟨hR.1, fun t ht hr => registered_of_appendOnly hR ht hr, fun o s2 ho h2 => ?_,
    fun str s2 h2 => ?_⟩
  · obtain ⟨hdb, _, hidx⟩ := step_constructor n E o s s2 ho h2
    refine ⟨hdb, hidx, ?_⟩
    unfold Registered
    rw [hidx, hdb]
    simp
  · exact (displayN_sound (appendOnly_prim E) n str s s2 (ready_true s) h2).1

/-- The theorem `registry_append_only` at a run that measures `"work"`, dumps the registry
(which registers the three statics of `display`) and constructs `"b"`: the registry grows
from `[0]` to `[0, 1, 2, 3, 4]` and `"work"` stays at position `0`. -/
theorem registry_append_only_witness :
    stateWork.timerDatabase <+:
        (theState (run 1 envTick
          [Op.start 0 false, Op.stop 0 false, Op.display "", Op.constructNamed "b"]
          stateWork)).timerDatabase ∧
      Registered (theState (run 1 envTick
          [Op.start 0 false, Op.stop 0 false, Op.display "", Op.constructNamed "b"]
          stateWork)) 0 ∧
      (theState (run 1 envTick
          [Op.start 0 false, Op.stop 0 false, Op.display "", Op.constructNamed "b"]
          stateWork)).timerDatabase = [0, 1, 2, 3, 4] :=
  ⟨(registry_append_only 1 envTick _ stateWork _ (ok_of_succeeds (by decide!))).1,
    (registry_append_only 1 envTick _ stateWork _ (ok_of_succeeds (by decide!))).2.1 0
      (by decide) (by unfold Registered; decide),
    by decide!⟩

/-- C10 (end-to-end average line).  A timer of the program that is idle with zeroed
record completes three measurements of durations `1/10`, `2/10`, `3/10`: then
`accumulated_time = 6/10` and `call_times = 3`, and on rank `0` `showAvg` writes one line
with average `2/10`, accumulated time `6/10` and percentage `6/10 / getTotalTime() * 100`;
the three measurements do return when no check of `autodisplay` can trigger.  In general
the line of `showAvg` has the average `accumulated_time / call_times` and the percentage
`accumulated_time / getTotalTime() * 100` (each not finite when its divisor is `0`), where
`getTotalTime()` is the clock minus the process epoch. -/
theorem end_to_end_average (n : Nat) (E : Env) (t : Nat) (ps : List Pair) (s : State)
    (info : Option String) (hr : E.rank = 0) (hu : User s t)
    (hidle : (s.heap t).isRunning = false) (hacc : (s.heap t).info.accumulated_time = 0)
    (hcalls : (s.heap t).info.call_times = 0)
    (hd : durations n E t ps s = [1 / 10, 2 / 10, 3 / 10]) :
    (∀ s1, measures n E t ps s = Except.ok s1 →
      (s1.heap t).info.accumulated_time = 6 / 10 ∧ (s1.heap t).info.call_times = 3 ∧
        ∃ g af : Option ℚ, (showAvg E (s1.heap t).info (tagOf info) s1).out = s1.out ++
          [⟨"Timer", tagOf info,
            Body.avg (nameField (s1.heap t).info.fname)
              (if (getTotalTime E s1).1 = 0 then none
                else some (6 / 10 / (getTotalTime E s1).1 * 100))
              3 (some (2 / 10)) (6 / 10) g af (s1.heap t).info.accumulated_flops⟩]) ∧
      (Settled E s → ∃ s1, measures n E t ps s = Except.ok s1) ∧
      (∀ (i : TimerInfo) (tag : String) (s0 : State), ∃ g af : Option ℚ,
        (showAvg E i tag s0).out = s0.out ++
          [⟨"Timer", tag,
            Body.avg (nameField i.fname)
              (if (getTotalTime E s0).1 = 0 then none
                else some (i.accumulated_time / (getTotalTime E s0).1 * 100))
              i.call_times
              (if i.call_times = 0 then none else some (i.accumulated_time / i.call_times))
              i.accumulated_time g af i.accumulated_flops⟩]) ∧
      (∀ (s0 : State) (x : ℚ), s0.startTime = some x →
        (getTotalTime E s0).1 = E.clock s0.ticks - x) := by
  refine ⟨fun s1 h => ?_, fun hs => measures_returns n E t ps s hs hidle,
    fun i tag s0 => showAvg_line E hr i tag s0,
    fun s0 x hx => getTotalTime_value E s0 x hx⟩
  obtain ⟨_, _, ha, hc⟩ := measures_user n E t ps s s1 hu hidle h
  have hlen : ps.length = 3 := by
    have := congrArg List.length hd
    have hl : ∀ (qs : List Pair) (a b : State), measures n E t qs a = Except.ok b →
        (durations n E t qs a).length = qs.length := by
      intro qs
      induction qs with
      | nil => intro a b _; rfl
      | cons q qs ih =>
        intro a b hab
        unfold measures at hab
        unfold durations
        split at hab
        · cases hab
        · rename_i s2 h2
          simp only [List.length_cons, ih s2 b hab]
    rw [hl ps s s1 h] at this
    exact this
  have ha' : (s1.heap t).info.accumulated_time = 6 / 10 := by
    rw [ha, hacc, hd]
    norm_num
  have hc' : (s1.heap t).info.call_times = 3 := by
    rw [hc, hcalls, hlen]
    rfl
  refine ⟨ha', hc', ?_⟩
  obtain ⟨g, af, hl⟩ := showAvg_line E hr (s1.heap t).info (tagOf info) s1
  refine ⟨g, af, ?_⟩
  rw [hl, ha', hc']
  norm_num

/-- The theorem `end_to_end_average` at the record `"work"` constructed without operation
counting, with the clock `envWork`: the measurements return, and the total time at
`showAvg` is `4` seconds, so the percentage is `6/10 / 4 * 100 = 15`. -/
theorem end_to_end_average_witness :
    ((theState (measures 0 envWork 0 threePairs stateWorkNoFlops)).heap 0).info.fname =
        "work" ∧
      ((theState (measures 0 envWork 0 threePairs stateWorkNoFlops)).heap
        0).info.accumulated_time = 6 / 10 ∧
      ((theState (measures 0 envWork 0 threePairs stateWorkNoFlops)).heap
        0).info.call_times = 3 ∧
      (∃ s1, measures 0 envWork 0 threePairs stateWorkNoFlops = Except.ok s1) ∧
      (getTotalTime envWork (theState (measures 0 envWork 0 threePairs stateWorkNoFlops))).1
        = 4 :=
  ⟨by decide!,
    ((end_to_end_average 0 envWork 0 threePairs stateWorkNoFlops none (by decide)
      user_stateWorkNoFlops (by decide) (by decide!) (by decide) (by decide!)).1 _
      (ok_of_succeeds (by decide!))).1,
    ((end_to_end_average 0 envWork 0 threePairs stateWorkNoFlops none (by decide)
      user_stateWorkNoFlops (by decide) (by decide!) (by decide) (by decide!)).1 _
      (ok_of_succeeds (by decide!))).2.1,
    (end_to_end_average 0 envWork 0 threePairs stateWorkNoFlops none (by decide)
      user_stateWorkNoFlops (by decide) (by decide!) (by decide) (by decide!)).2.1
      settled_stateWorkNoFlops,
    by decide!⟩

/-- C11 as claimed fails.  The name `"ab\x00cd"` has 5 characters, but its field is 28
spaces and the two bytes `ab`: `%30s` stops at the NUL byte, so the field is not the whole
name padded.  The name `"\xe9"` is one character of two bytes: its field is 28 spaces and
those two bytes, 30 bytes but 29 characters, not the 29 spaces and one character of the
claim. -/
theorem name_field_counterexample :
    "ab\x00cd".length = 5 ∧
      nameField "ab\x00cd" = List.replicate 28 32 ++ [97, 98] ∧
      nameField "ab\x00cd" ≠ cBytes (specNameField "ab\x00cd") ∧
      "\xe9".length = 1 ∧ cBytes "\xe9" = [195, 169] ∧
      nameField "\xe9" = List.replicate 28 32 ++ [195, 169] ∧
      cBytes (specNameField "\xe9") = List.replicate 29 32 ++ [195, 169] ∧
      nameField "\xe9" ≠ cBytes (specNameField "\xe9") := by
  decide

/-- C11 as the code has it.  On rank `0`, `showLast` and `showAvg` each write one line, whose
name field is `nameField` of the record name.  That field is exactly 30 bytes long: the
first 30 bytes of the name, cut at the first NUL byte among them, after the spaces missing
to 30 bytes.  If there is no NUL byte among the first 30 bytes of the name, the field is
these 30 bytes when the name has 30 or more bytes, and otherwise the whole name after
`30 - length` spaces.  For a name of ASCII characters without NUL, bytes are characters and
the field is the one of the claim. -/
theorem name_field_width (E : Env) (i : TimerInfo) (tag : String) (s : State)
    (hr : E.rank = 0) :
    (∃ l : Line, (showLast E i tag s).out = s.out ++ [l] ∧
        l.nameOf = some (nameField i.fname)) ∧
      (∃ l : Line, (showAvg E i tag s).out = s.out ++ [l] ∧
        l.nameOf = some (nameField i.fname)) ∧
      (nameField i.fname).length = 30 ∧
      nameField i.fname =
        List.replicate (30 - (((cBytes i.fname).take 30).takeWhile (· ≠ 0)).length) 32 ++
          ((cBytes i.fname).take 30).takeWhile (· ≠ 0) ∧
      ((0 : UInt8) ∉ (cBytes i.fname).take 30 →
        (30 ≤ (cBytes i.fname).length → nameField i.fname = (cBytes i.fname).take 30) ∧
        ((cBytes i.fname).length < 30 → nameField i.fname =
          List.replicate (30 - (cBytes i.fname).length) 32 ++ cBytes i.fname)) ∧
      (Ascii i.fname → (0 : UInt8) ∉ cBytes i.fname →
        nameField i.fname = cBytes (specNameField i.fname)) := by
  refine ⟨?_, ?_, nameField_length _, nameField_formula _,
    fun h => ⟨nameField_long _ h, nameField_short _ h⟩, nameField_ascii _⟩
  · obtain ⟨l, h1, -, -, h2⟩ := showLast_out E hr i tag s
    exact ⟨l, h1, by unfold Line.nameOf; rw [h2]⟩
  · obtain ⟨g, af, h1⟩ := showAvg_line E hr i tag s
    exact ⟨_, h1, rfl⟩

/-- The theorem `name_field_width` on the names `"work"` (4 bytes, after 26 spaces) and a
name of 32 bytes (cut to its first 30). -/
theorem name_field_width_witness :
    envTick.rank = 0 ∧
      nameField "work" = cBytes "                          work" ∧
      nameField "a_name_of_thirty-two_characters." =
        cBytes "a_name_of_thirty-two_character" ∧
      (nameField "work").length = 30 := by
  refine ⟨rfl, ?_, ?_, ?_⟩
  · exact (name_field_width envTick (infoNamed "work") "stop " stateWork rfl).2.2.2.2.2
      (by unfold Ascii; decide) (by decide)
  · exact ((name_field_width envTick (infoNamed "a_name_of_thirty-two_characters.") "stop "
      stateWork rfl).2.2.2.2.1 (by decide)).1 (by decide)
  · exact (name_field_width envTick (infoNamed "work") "stop " stateWork rfl).2.2.1

/-- C12 as claimed fails.  After the single call `start()` on the new timer `"work"` the
timer is running, no `stop()` has been called, and `call_times` is `1`, not `0`. -/
theorem call_count_counterexample :
    (stateWork.heap 0).info.call_times = 0 ∧ (stateWork.heap 0).isRunning = false ∧
      succeeds (run 0 envTick [Op.start 0 false] stateWork) = true ∧
      countStops [Op.start 0 false] = 0 ∧
      ((theState (run 0 envTick [Op.start 0 false] stateWork)).heap 0).isRunning = true ∧
      ((theState (run 0 envTick [Op.start 0 false] stateWork)).heap 0).info.call_times = 1 := by
  decide!

/-- C12 as the code has it.  `call_times` is incremented by the `start()` that is accepted,
not by the `stop()`.  For a timer of the program that is new (idle, `call_times = 0`),
after every sequence of `start()` and `stop()` calls on it that returns (so every `stop()`
matched a `start()`), `call_times` is the number of `stop()` calls plus `1` if the timer is
running: the number of completed measurements when idle, one more while running. -/
theorem call_count_invariant (n : Nat) (E : Env) (t : Nat) (ops : List Op) (s s1 : State)
    (hu : User s t) (hidle : (s.heap t).isRunning = false)
    (hnew : (s.heap t).info.call_times = 0) (hops : ∀ o ∈ ops, o.isOn t = true)
    (h : run n E ops s = Except.ok s1) :
    (s1.heap t).info.call_times =
      countStops ops + (if (s1.heap t).isRunning then 1 else 0) := by
  have h1 := (run_on_calls n E t ops s s1 hu hops h).2
  simp only [pending, hidle, hnew] at h1
  simp only [Bool.false_eq_true, if_false, sub_zero, zero_add] at h1
  rw [← h1]
  ring

/-- The theorem `call_count_invariant` on `start(); stop(); start()` on the new timer
`"work"`: one completed measurement, the timer running, `call_times = 2`. -/
theorem call_count_invariant_witness :
    User stateWork 0 ∧
      ((theState (run 0 envTick [Op.start 0 false, Op.stop 0 false, Op.start 0 false]
        stateWork)).heap 0).isRunning = true ∧
      ((theState (run 0 envTick [Op.start 0 false, Op.stop 0 false, Op.start 0 false]
        stateWork)).heap 0).info.call_times = 2 := by
  refine ⟨user_stateWork, by decide!, ?_⟩
  have h := call_count_invariant 0 envTick 0
    [Op.start 0 false, Op.stop 0 false, Op.start 0 false] stateWork _ user_stateWork
    (by decide) (by decide) (by decide) (ok_of_succeeds (by decide!))
  rw [h]
  have hr : ((theState (run 0 envTick [Op.start 0 false, Op.stop 0 false, Op.start 0 false]
      stateWork)).heap 0).isRunning = true := by decide!
  rw [hr]
  rfl

/-- C13 (stop log rule).  On rank `0`, for every `stop(verbose)` on a timer `t` that
returns: the record `i` of `t` as updated by this stop has the duration just measured as
`dtime`, added to `accumulated_time`, and the `call_times` it had; before its call of
`autodisplay` the stop has written exactly one line, `showLast("stop ")` of the updated
record `i`, if `verbose`, or `i.call_times = 1`, or `i.dtime` is at least
`minimum_duration_for_show_stop_info()`, and otherwise no line; every other line of the
stop (`rest`) is written by its call of `autodisplay`. -/
theorem stop_log_rule (n : Nat) (E : Env) (t : Nat) (v : Bool) (s s1 : State)
    (hr : E.rank = 0) (h : stop n E t v s = Except.ok s1) :
    ∃ (i : TimerInfo) (total : ℚ) (rest : List Line) (s8 : State),
      i = ((stopRecord E t v (stopClock E t s)).heap t).info ∧
      i.dtime = some (E.clock s.ticks - (s.heap t).start_time) ∧
      i.accumulated_time =
        (s.heap t).info.accumulated_time + (E.clock s.ticks - (s.heap t).start_time) ∧
      i.call_times = (s.heap t).info.call_times ∧
      (stopRecord E t v (stopClock E t s)).out = s.out ++
        (if v = true ∨ i.call_times = 1 ∨
            s.minimum_duration_for_show_stop_info ≤
              E.clock s.ticks - (s.heap t).start_time then
          [lastLine i "stop " total]
        else []) ∧
      autodisplay n E (E.clock s.ticks) (stopRecord E t v (stopClock E t s)) = Except.ok s8 ∧
      s8.out = (stopRecord E t v (stopClock E t s)).out ++ rest ∧
      s1.out = s8.out := by
  obtain ⟨-, h2, h3, -, h5, h6, -, -⟩ := stopRecord_heap E t v s
  obtain ⟨total, hout⟩ := stopRecord_out E hr t v s
  unfold stop stopWith at h
  split at h
  swap
  · cases h
  split at h
  · cases h
  rename_i s8 h8
  cases h
  rw [h2] at h8
  obtain ⟨rest, hrest⟩ := (autodisplayWith_sound (grows_prim E)
    (fun str a b _ hd => displayN_grows n E str a b hd) _ _ s8 (ready_true _) h8).1
  refine ⟨_, total, rest, s8, rfl, h5, h6, h3, ?_, h8, hrest.symm, rfl⟩
  rw [hout, h5]
  simp only [geDouble, decide_eq_true_eq]

/-- The theorem `stop_log_rule` on the first `stop()` of the new timer `"work"`, started at
clock value `1` and stopped at `2`: the stop returns, and it writes its line because
`call_times` is `1`. -/
theorem stop_log_rule_witness :
    envTick.rank = 0 ∧ succeeds (stop 0 envTick 0 false stateWorkRunning) = true ∧
      (stateWorkRunning.heap 0).info.call_times = 1 ∧
      ∃ (i : TimerInfo) (total : ℚ) (rest : List Line) (s8 : State),
        i = ((stopRecord envTick 0 false (stopClock envTick 0 stateWorkRunning)).heap 0).info ∧
        i.dtime = some (envTick.clock stateWorkRunning.ticks -
          (stateWorkRunning.heap 0).start_time) ∧
        i.accumulated_time = (stateWorkRunning.heap 0).info.accumulated_time +
          (envTick.clock stateWorkRunning.ticks - (stateWorkRunning.heap 0).start_time) ∧
        i.call_times = (stateWorkRunning.heap 0).info.call_times ∧
        (stopRecord envTick 0 false (stopClock envTick 0 stateWorkRunning)).out =
          stateWorkRunning.out ++
          (if false = true ∨ i.call_times = 1 ∨
              stateWorkRunning.minimum_duration_for_show_stop_info ≤
                envTick.clock stateWorkRunning.ticks -
                  (stateWorkRunning.heap 0).start_time then
            [lastLine i "stop " total]
          else []) ∧
        autodisplay 0 envTick (envTick.clock stateWorkRunning.ticks)
          (stopRecord envTick 0 false (stopClock envTick 0 stateWorkRunning)) =
            Except.ok s8 ∧
        s8.out = (stopRecord envTick 0 false (stopClock envTick 0 stateWorkRunning)).out ++
          rest ∧
        (theState (stop 0 envTick 0 false stateWorkRunning)).out = s8.out :=
  ⟨rfl, by decide!, by decide!,
    stop_log_rule 0 envTick 0 false stateWorkRunning _ rfl (ok_of_succeeds (by decide!))⟩

/-- C14 (autodisplay spacing).  A call `autodisplay(time)` that finds its static initialised
to `L` calls `display("autodisplay")`, after setting the static to `time`, if
`time - L > minimum_autodisplay_interval()` (strictly), and otherwise returns with the
state unchanged; the first call does the same with the clock value it reads as `L`, which
it stores in the static.  Hence, for every sequence of calls that does not assign the
interval: if so far the timestamps of the triggers are spaced by more than the interval
`I` and `last_time` holds the last one, then so it is when the sequence returns, the
triggers of dumps nested in dumps included, and the earlier triggers are a prefix of the
log. -/
theorem autodisplay_spacing (n : Nat) (E : Env) :
    (∀ time s L, s.last_time = some L →
      autodisplay n E time s =
        if time - L > s.minimum_autodisplay_interval then
          display n E "autodisplay"
            { s with last_time := some time, triggered := s.triggered ++ [time] }
        else Except.ok s) ∧
    (∀ time s, s.last_time = none →
      autodisplay n E time s =
        if time - E.clock s.ticks > s.minimum_autodisplay_interval then
          display n E "autodisplay"
            { s with ticks := s.ticks + 1, last_time := some time,
                     triggered := s.triggered ++ [time] }
        else
          Except.ok { s with ticks := s.ticks + 1, last_time := some (E.clock s.ticks) }) ∧
    (∀ (I : ℚ) (ops : List Op) (s s1 : State), (∀ o ∈ ops, o.keepsInterval = true) →
      SpacedLog I s → run n E ops s = Except.ok s1 →
      SpacedLog I s1 ∧ s.triggered <+: s1.triggered) :=
  ⟨fun time s L hL => autodisplay_rule n E time s L hL,
    fun time s hL => autodisplay_first n E time s hL,
    fun I ops s s1 hk hs h =>
      ⟨run_sound_fixed (spaced_prim E I) (fun _ _ h => h) (fun _ _ h => h) n ops s s1 hk h hs,
        (run_sound_fixed (grows_prim E) (fun _ _ => grows_refl _) (fun _ _ => grows_refl _)
          n ops s s1 hk h).2.1⟩⟩

/-- The theorem `autodisplay_spacing` on one `stop()` of `"work"` with the interval `10`:
the stop has the timestamp `100` and triggers a dump, and a `stop()` inside that dump has
the timestamp `120` and triggers a nested dump; the two timestamps differ by more than
`10`. -/
theorem autodisplay_spacing_witness :
    SpacedLog 10 nested0 ∧ nested0.triggered = [] ∧
      succeeds (run 2 envNested [Op.stop 0 false] nested0) = true ∧
      (theState (run 2 envNested [Op.stop 0 false] nested0)).triggered = [100, 120] ∧
      SpacedLog 10 (theState (run 2 envNested [Op.stop 0 false] nested0)) :=
  ⟨⟨by decide!, by rw [show nested0.triggered = [] by decide!]; exact List.chain'_nil,
      fun d hd => by rw [show nested0.triggered = [] by decide!] at hd; cases hd⟩,
    by decide!, by decide!, by decide!,
    ((autodisplay_spacing 2 envNested).2.2 10 [Op.stop 0 false] nested0 _ (by decide)
      ⟨by decide!, by rw [show nested0.triggered = [] by decide!]; exact List.chain'_nil,
        fun d hd => by rw [show nested0.triggered = [] by decide!] at hd; cases hd⟩
      (ok_of_succeeds (by decide!))).1⟩

/-- C15 (self-measurement of the dump).  In a state whose statics of `display`, if
constructed, are three different constructed timers, write `p` for the statics after the
declarations of `display` and `s0` for the state after them.  For every call of `display`
that returns: if the statics were not constructed, the declarations register exactly the
three records `"Timer"`, `"Timer-noflop"`, `"Timer-test"`, in this order, and the call
registers nothing else; if they were, the call registers nothing.  The printing part runs
on the state `sp` the self-measurement leaves and shows the records of that state.  If
moreover no `autodisplay` triggered during the call and none of the three was running,
`call_times` of `"Timer"` and of `"Timer-noflop"` is increased by `1`, that of
`"Timer-test"` by `3`, and the three are idle.  In a state where no check of `autodisplay`
can trigger, the call returns and no `autodisplay` triggers during it. -/
theorem dump_self_measurement (n : Nat) (E : Env) (str : String) (s : State)
    (hv : StaticsValid s) :
    (∀ s1, display n E str s = Except.ok s1 →
      s1.displayTimers = some (displayStatics E s).1 ∧
      s1.timerDatabase = (displayStatics E s).2.timerDatabase ∧
      (s.displayTimers = none →
        (displayStatics E s).1 = (s.nTimers, s.nTimers + 1, s.nTimers + 2) ∧
        s1.timerDatabase = s.timerDatabase ++ [s.nTimers, s.nTimers + 1, s.nTimers + 2] ∧
        ((displayStatics E s).2.heap s.nTimers).info = infoNamed "Timer" ∧
        ((displayStatics E s).2.heap (s.nTimers + 1)).info = infoNamed "Timer-noflop" ∧
        ((displayStatics E s).2.heap (s.nTimers + 2)).info = infoNamed "Timer-test") ∧
      (∀ q, s.displayTimers = some q → s1.timerDatabase = s.timerDatabase) ∧
      (∃ m sp, n = m + 1 ∧
        displayProbes (stopWith (displayN m E) E) E (displayStatics E s).1
          (displayStatics E s).2 = Except.ok sp ∧
        s1 = displayReport E str sp ∧ s1.heap = sp.heap ∧
        (E.rank = 0 → ∃ (lines : List Line) (total : ℚ),
          s1.out = sp.out ++ [⟨"Timer", "display-start", Body.banner str total⟩] ++ lines ++
            [⟨"Timer", "display-end  ", Body.banner str total⟩] ∧
          List.Forall₂ (fun l a => l.showsAvg (s1.heap a).info) lines (dumpOrder E s1))) ∧
      (s1.triggered = s.triggered → StaticsIdle s →
        (s1.heap (displayStatics E s).1.1).info.call_times =
          ((displayStatics E s).2.heap (displayStatics E s).1.1).info.call_times + 1 ∧
        (s1.heap (displayStatics E s).1.2.1).info.call_times =
          ((displayStatics E s).2.heap (displayStatics E s).1.2.1).info.call_times + 1 ∧
        (s1.heap (displayStatics E s).1.2.2).info.call_times =
          ((displayStatics E s).2.heap (displayStatics E s).1.2.2).info.call_times + 3 ∧
        (s1.heap (displayStatics E s).1.1).isRunning = false ∧
        (s1.heap (displayStatics E s).1.2.1).isRunning = false ∧
        (s1.heap (displayStatics E s).1.2.2).isRunning = false)) ∧
    (Settled E s → StaticsIdle s →
      ∃ s1, display (n + 1) E str s = Except.ok s1 ∧ s1.triggered = s.triggered) := by
  obtain ⟨hsome, hvalid, hidle⟩ := displayStatics_ready E s hv
  obtain ⟨hdist, -⟩ := hvalid _ hsome
  refine ⟨fun s1 h => ?_, fun hs hi => ?_⟩
  · have h0 : displayN n E str (displayStatics E s).2 = Except.ok s1 := by
      rw [displayN_statics n E str s hv]
      exact h
    obtain ⟨-, r2, r3⟩ := displayN_registry n E str _ s1 _ hsome hvalid h0
    refine ⟨r3, r2, fun hd => ?_, fun q hq => ?_, ?_⟩
    · obtain ⟨f1, -, -⟩ := displayStatics_fields E s hd
      obtain ⟨d1, d2, -⟩ := displayStatics_new E s hd
      exact ⟨f1, r2.trans d1, d2.1, d2.2.1, d2.2.2⟩
    · rw [r2, displayStatics_some E s q hq]
    · cases n with
      | zero => cases h
      | succ m =>
        have h1 := h
        unfold display displayN displayWith at h1
        split at h1
        · cases h1
        rename_i sp hp
        cases h1
        have hheap := displayReport_heap E str sp
        refine ⟨⟨m, sp, rfl, hp, rfl, hheap, fun hr => ?_⟩, fun ht hi => ?_⟩
        · obtain ⟨lines, total, ho, hl⟩ := displayReport_out E hr str sp
          exact ⟨lines, total, ho, hl⟩
        · obtain ⟨i1, i2, i3⟩ := hidle hi _ hsome
          have htp : sp.triggered = (displayStatics E s).2.triggered := by
            rw [displayStatics_triggered, ← ht, displayReport_triggered]
          obtain ⟨va, vb, vc⟩ := displayProbes_counts m E _ _ sp hdist i1 i2 i3 hp htp
          rw [hheap]
          exact ⟨congrArg Prod.fst va, congrArg Prod.fst vb, congrArg Prod.fst vc,
            congrArg Prod.snd va, congrArg Prod.snd vb, congrArg Prod.snd vc⟩
  · obtain ⟨i1, i2, i3⟩ := hidle hi _ hsome
    obtain ⟨sp, hp, htp⟩ := displayProbes_settled n E _ _ hdist i1 i2 i3
      (settled_statics E s hs)
    refine ⟨displayReport E str sp, ?_, ?_⟩
    · unfold display displayN displayWith
      rw [hp]
    · rw [displayReport_triggered, htp, displayStatics_triggered]

/-- The theorem `dump_self_measurement` on the first dump of a process that constructed
`"work"`: it returns without a trigger, registers its three records after `"work"`, and
leaves them with `call_times` `1`, `1` and `3`; a second dump registers nothing and leaves
`2`, `2` and `6`. -/
theorem dump_self_measurement_witness :
    StaticsValid stateWorkNoFlops ∧ stateWorkNoFlops.displayTimers = none ∧
      succeeds (display 1 envWork "" stateWorkNoFlops) = true ∧
      (theState (display 1 envWork "" stateWorkNoFlops)).triggered =
        stateWorkNoFlops.triggered ∧
      registryNames (theState (display 1 envWork "" stateWorkNoFlops)) =
        ["work", "Timer", "Timer-noflop", "Timer-test"] ∧
      (displayStatics envWork stateWorkNoFlops).1 = (1, 2, 3) ∧
      ((theState (display 1 envWork "" stateWorkNoFlops)).heap
          (displayStatics envWork stateWorkNoFlops).1.1).info.call_times =
        ((displayStatics envWork stateWorkNoFlops).2.heap
          (displayStatics envWork stateWorkNoFlops).1.1).info.call_times + 1 ∧
      ((theState (display 1 envWork "" stateWorkNoFlops)).heap
          (displayStatics envWork stateWorkNoFlops).1.2.2).info.call_times =
        ((displayStatics envWork stateWorkNoFlops).2.heap
          (displayStatics envWork stateWorkNoFlops).1.2.2).info.call_times + 3 ∧
      ((theState (display 1 envWork "" stateWorkNoFlops)).heap 1).info.call_times = 1 ∧
      ((theState (display 1 envWork "" stateWorkNoFlops)).heap 2).info.call_times = 1 ∧
      ((theState (display 1 envWork "" stateWorkNoFlops)).heap 3).info.call_times = 3 ∧
      registryNames (theState (display 1 envWork ""
        (theState (display 1 envWork "" stateWorkNoFlops)))) =
        ["work", "Timer", "Timer-noflop", "Timer-test"] ∧
      ((theState (display 1 envWork ""
        (theState (display 1 envWork "" stateWorkNoFlops)))).heap 3).info.call_times = 6 :=
  ⟨staticsValid_of_none _ (by decide!), by decide!, by decide!, by decide!, by decide!,
    by decide!,
    (((dump_self_measurement 1 envWork "" stateWorkNoFlops
      (staticsValid_of_none _ (by decide!))).1 _ (ok_of_succeeds (by decide!))).2.2.2.2.2
      (by decide!) (staticsIdle_of_none _ (by decide!))).1,
    (((dump_self_measurement 1 envWork "" stateWorkNoFlops
      (staticsValid_of_none _ (by decide!))).1 _ (ok_of_succeeds (by decide!))).2.2.2.2.2
      (by decide!) (staticsIdle_of_none _ (by decide!))).2.2.1,
    by decide!, by decide!, by decide!, by decide!, by decide!⟩

/-- C16 (nested scopes on one timer).  For a timer `t` of the program that is idle: the
outer `TimerCtrl` scope starts `t`; the inner scope's `start` leaves the state as it is;
if the exit of the inner scope returns, it leaves `t` not running with `call_times`
increased by `1`, and the exit of the outer scope then fails the assertion of its own
`stop` (the destructor calls `stop` unconditionally); and the exit of the inner scope does
return when no check of `autodisplay` can trigger. -/
theorem nested_scopes (n m : Nat) (E : Env) (t : Nat) (v1 v2 : Bool) (s : State)
    (hu : User s t) (hidle : (s.heap t).isRunning = false) :
    (((TimerCtrl.init E t v1 s).2.heap t).isRunning = true ∧
      (TimerCtrl.init E t v2 (TimerCtrl.init E t v1 s).2).2 = (TimerCtrl.init E t v1 s).2) ∧
    (∀ s3, TimerCtrl.destroy n E (TimerCtrl.init E t v2 (TimerCtrl.init E t v1 s).2).1
        (TimerCtrl.init E t v2 (TimerCtrl.init E t v1 s).2).2 = Except.ok s3 →
      (s3.heap t).isRunning = false ∧
        (s3.heap t).info.call_times = (s.heap t).info.call_times + 1 ∧
        TimerCtrl.destroy m E (TimerCtrl.init E t v1 s).1 s3 =
          Except.error (Err.assertion 0)) ∧
    (Settled E s →
      ∃ s3, TimerCtrl.destroy n E (TimerCtrl.init E t v2 (TimerCtrl.init E t v1 s).2).1
        (TimerCtrl.init E t v2 (TimerCtrl.init E t v1 s).2).2 = Except.ok s3) := by
  obtain ⟨h1, h2, -⟩ := start_idle E t v1 s hidle
  have hsame : start E t v2 (start E t v1 s) = start E t v1 s := start_running E t v2 _ h1
  refine ⟨⟨h1, hsame⟩, fun s3 h3 => ?_, fun hs => ?_⟩
  · have h3a : stop n E t v2 (start E t v1 s) = Except.ok s3 := by
      have := h3
      unfold TimerCtrl.destroy TimerCtrl.init at this
      dsimp only at this
      rw [hsame] at this
      exact this
    obtain ⟨-, -, hheap⟩ := stop_user n E t v2 _ s3 (start_user E t t v1 s hu) h3a
    have hidle3 : (s3.heap t).isRunning = false := stop_ok_idle n E t v2 _ s3 h3a
    refine ⟨hidle3, ?_, stop_idle m E t v1 s3 hidle3⟩
    rw [hheap]
    show ((stopRecord E t v2 (stopClock E t (start E t v1 s))).heap t).info.call_times = _
    rw [(stopRecord_heap E t v2 (start E t v1 s)).2.2.1, h2]
  · obtain ⟨s3, h3, -⟩ := settled_stop n E t v2 (start E t v1 s) (settled_start E t v1 s hs) h1
    refine ⟨s3, ?_⟩
    unfold TimerCtrl.destroy TimerCtrl.init
    dsimp only
    rw [hsame]
    exact h3

/-- The theorem `nested_scopes` on the new timer `"work"`: the inner exit returns and
leaves `call_times = 1`, the outer exit fails. -/
theorem nested_scopes_witness :
    User stateWorkNoFlops 0 ∧ (stateWorkNoFlops.heap 0).isRunning = false ∧
      succeeds (TimerCtrl.destroy 0 envWork
        (TimerCtrl.init envWork 0 false (TimerCtrl.init envWork 0 false stateWorkNoFlops).2).1
        (TimerCtrl.init envWork 0 false (TimerCtrl.init envWork 0 false
          stateWorkNoFlops).2).2) = true ∧
      TimerCtrl.destroy 0 envWork (TimerCtrl.init envWork 0 false stateWorkNoFlops).1
        (theState (TimerCtrl.destroy 0 envWork
          (TimerCtrl.init envWork 0 false (TimerCtrl.init envWork 0 false
            stateWorkNoFlops).2).1
          (TimerCtrl.init envWork 0 false (TimerCtrl.init envWork 0 false
            stateWorkNoFlops).2).2)) = Except.error (Err.assertion 0) :=
  ⟨user_stateWorkNoFlops, by decide!, by decide!,
    ((nested_scopes 0 0 envWork 0 false false stateWorkNoFlops user_stateWorkNoFlops
      (by decide!)).2.1 _ (ok_of_succeeds (by decide!))).2.2⟩

/-- C17 (the first autodisplay check never fires).  The first call `autodisplay(time)` of a
process initialises its static to the clock value it reads; if `time` is at most that
value and the interval is non-negative, the call returns with only that clock read and
initialisation done.  Hence the first `stop()` of a process, on a running timer and a
clock that does not go back, returns without triggering a dump, whatever the clock
reads, and leaves the static initialised to a clock value read after the stop
timestamp. -/
theorem first_autodisplay_never_fires (n : Nat) (E : Env) :
    (∀ time s, s.last_time = none → time ≤ E.clock s.ticks →
      0 ≤ s.minimum_autodisplay_interval →
      autodisplay n E time s =
        Except.ok { s with ticks := s.ticks + 1, last_time := some (E.clock s.ticks) }) ∧
    (∀ t v s, s.last_time = none →
      (∀ j k, s.ticks ≤ j → j ≤ k → E.clock j ≤ E.clock k) →
      0 ≤ s.minimum_autodisplay_interval → (s.heap t).isRunning = true →
      ∃ s1, stop n E t v s = Except.ok s1 ∧ s1.triggered = s.triggered ∧
        countDumps s1.out = countDumps s.out ∧
        ∃ k, s.ticks < k ∧ s1.last_time = some (E.clock k)) := by
  refine ⟨fun time s hn ht hI => ?_, fun t v s hn hmono hI hrun =>
    first_stop n E t v s hn hmono hI hrun⟩
  rw [autodisplay_first n E time s hn, if_neg]
  linarith

/-- The theorem `first_autodisplay_never_fires` on the first `stop()` of a process whose
clock advances by one second at every read: no dump, although the interval is `60` and
the clock is unbounded. -/
theorem first_autodisplay_never_fires_witness :
    stateWorkRunning.last_time = none ∧
      0 ≤ stateWorkRunning.minimum_autodisplay_interval ∧
      (stateWorkRunning.heap 0).isRunning = true ∧
      ∃ s1, stop 0 envTick 0 false stateWorkRunning = Except.ok s1 ∧
        s1.triggered = stateWorkRunning.triggered ∧
        countDumps s1.out = countDumps stateWorkRunning.out ∧
        ∃ k, stateWorkRunning.ticks < k ∧ s1.last_time = some (envTick.clock k) :=
  ⟨by decide!, by decide!, by decide!,
    (first_autodisplay_never_fires 0 envTick).2 0 false stateWorkRunning (by decide!)
      (fun j k _ h => envTick_mono j k h) (by decide!) (by decide!)⟩

/-- C18 (frame of the dump).  For every state and every timer `u` of the program
(constructed, and not one of the three statics of `display`): `display`, `autodisplay(time)`
and `autodisplay()`, when they return, leave the whole object `u` as it was, in particular
its record; so do `start` on another timer `t`, and `stop` on another timer `t` when it
returns. -/
theorem dump_frame (n : Nat) (E : Env) (u : Nat) (s : State) (hu : User s u) :
    (∀ str s1, display n E str s = Except.ok s1 → s1.heap u = s.heap u) ∧
    (∀ time s1, autodisplay n E time s = Except.ok s1 → s1.heap u = s.heap u) ∧
    (∀ s1, autodisplayNow n E s = Except.ok s1 → s1.heap u = s.heap u) ∧
    (∀ t v, t ≠ u → (start E t v s).heap u = s.heap u) ∧
    (∀ t v s1, t ≠ u → stop n E t v s = Except.ok s1 → s1.heap u = s.heap u) :=
  ⟨fun str s1 h => displayN_sound (frame_prim E u) n str s s1 (ready_of_user hu) h,
    fun time s1 h => autodisplay_sound (frame_prim E u) n time s s1 (ready_of_user hu) h,
    fun s1 h => dump_frame_now n E u s s1 hu h,
    fun t v ht => start_sound (frame_prim E u).toAlloc.toCore t v s ht,
    fun t v s1 ht h => stop_sound (frame_prim E u) n t v s s1 ht (ready_of_user hu) h⟩

/-- The theorem `dump_frame` on the first dump of a process that constructed `"work"`: the
dump returns, registers its three records and leaves `"work"` as it was. -/
theorem dump_frame_witness :
    User stateWorkNoFlops 0 ∧ succeeds (display 1 envWork "" stateWorkNoFlops) = true ∧
      (theState (display 1 envWork "" stateWorkNoFlops)).timerDatabase = [0, 1, 2, 3] ∧
      (theState (display 1 envWork "" stateWorkNoFlops)).heap 0 = stateWorkNoFlops.heap 0 :=
  ⟨user_stateWorkNoFlops, by decide!, by decide!,
    (dump_frame 1 envWork 0 stateWorkNoFlops user_stateWorkNoFlops).1 "" _
      (ok_of_succeeds (by decide!))⟩

/-- C19 (monotone accumulators).  On a clock that does not go back, take a timer of the
program that is new (idle, `accumulated_time = 0`, no `dtime` recorded) and two sequences
of `start()` and `stop()` calls on it that return, one after the other.  After the first:
a recorded `dtime` is not negative, and one is recorded if the sequence has a `stop()`;
`accumulated_time` is not negative.  From there to the end of the second:
`accumulated_time` and `call_times` have not decreased. -/
theorem monotone_accumulators (n : Nat) (E : Env) (t : Nat) (ops1 ops2 : List Op)
    (s s1 s2 : State) (hmono : ∀ j k, j ≤ k → E.clock j ≤ E.clock k) (hu : User s t)
    (hidle : (s.heap t).isRunning = false)
    (hacc : (s.heap t).info.accumulated_time = 0) (hdt : (s.heap t).info.dtime = none)
    (hops1 : ∀ o ∈ ops1, o.isOn t = true) (hops2 : ∀ o ∈ ops2, o.isOn t = true)
    (h1 : run n E ops1 s = Except.ok s1) (h2 : run n E ops2 s1 = Except.ok s2) :
    (∀ d, (s1.heap t).info.dtime = some d → 0 ≤ d) ∧
      (0 < countStops ops1 → ∃ d, (s1.heap t).info.dtime = some d ∧ 0 ≤ d) ∧
      0 ≤ (s1.heap t).info.accumulated_time ∧
      (s1.heap t).info.accumulated_time ≤ (s2.heap t).info.accumulated_time ∧
      (s1.heap t).info.call_times ≤ (s2.heap t).info.call_times := by
  have hs : Sane E s t :=
    ⟨le_of_eq hacc.symm, fun d hd => (by rw [hdt] at hd; cases hd),
      fun hr => (by rw [hidle] at hr; cases hr)⟩
  obtain ⟨hu1, hs1, -, -, hd1⟩ := run_on_sane n E t ops1 s s1 hmono hu hs hops1 h1
  obtain ⟨-, -, ha2, hc2, -⟩ := run_on_sane n E t ops2 s1 s2 hmono hu1 hs1 hops2 h2
  refine ⟨hs1.2.1, fun hp => ?_, hs1.1, ha2, hc2⟩
  cases hd : (s1.heap t).info.dtime with
  | none => exact absurd hd (hd1 (Or.inr hp))
  | some d => exact ⟨d, rfl, hs1.2.1 d hd⟩

/-- The theorem `monotone_accumulators` on two measurements of the new timer `"work"`, on
the clock that advances by one second at every read: after the first, `dtime = 1` and
`accumulated_time = 1`; after the second `accumulated_time = 2`. -/
theorem monotone_accumulators_witness :
    User stateWork 0 ∧
      ((theState (run 0 envTick [Op.start 0 false, Op.stop 0 false] stateWork)).heap 0
        ).info.accumulated_time = 1 ∧
      ((theState (run 0 envTick [Op.start 0 false, Op.stop 0 false]
        (theState (run 0 envTick [Op.start 0 false, Op.stop 0 false] stateWork)))).heap 0
        ).info.accumulated_time = 2 ∧
      ((theState (run 0 envTick [Op.start 0 false, Op.stop 0 false] stateWork)).heap 0
        ).info.accumulated_time ≤
      ((theState (run 0 envTick [Op.start 0 false, Op.stop 0 false]
        (theState (run 0 envTick [Op.start 0 false, Op.stop 0 false] stateWork)))).heap 0
        ).info.accumulated_time :=
  ⟨user_stateWork, by decide!, by decide!,
    (monotone_accumulators 0 envTick 0 [Op.start 0 false, Op.stop 0 false]
      [Op.start 0 false, Op.stop 0 false] stateWork _ _ envTick_mono user_stateWork
      (by decide) (by decide) (by decide) (by decide) (by decide)
      (ok_of_succeeds (by decide!)) (ok_of_succeeds (by decide!))).2.2.2.1⟩

end TimerH
